import Mathlib

/-! # The TUN device data plane of trojan-plus (`src/tun/tundev.cpp`)

A shallow embedding of `TUNDev`: the routing decision (`proxy_by_route`), the packet
reassembler (`parse_packet`, driven by the completion handler of `async_read`), the UDP
interception (`try_to_process_udp_packet`), the UDP synthesis (`handle_write_upd_data`),
the flush of the outgoing fill buffer (`write_to_tun`), the output callback of the stack
(`netif_output_func`) and the TCP accept (`listener_accept_func`).

Conventions of the embedding.

* A buffer given in C++ as a pointer and a length is a `List Byte` of exactly that length.
* Machine integers are natural numbers; a conversion to `uint16_t` is written `u16`.
* A header field holds the value of the C++ member read in network byte order, so the
  `hton16`, `ntoh16`, `ntoh32` of the source are the identity on fields, and a header is
  laid out in memory big-endian field by field.
* A call can return, let a C++ exception escape, or recurse without end; the last case is
  the exhaustion of the recursion bound `fuel` (`Outcome`).
* Code that `tundev.cpp` calls but does not contain (the header checks and checksums of
  `misc/ipv4_proto.h` and `misc/udp_proto.h`, the sessions) is the record `Externals`; what
  the device hands to its collaborators is recorded in trace fields of the state.
-/

namespace TrojanPlus

/-! ## Bytes and integers -/

/-- One octet, the `uint8_t` of the source. -/
abbrev Byte := Fin 256

/-- Conversion to `uint8_t`. -/
def byte (n : Nat) : Byte := ⟨n % 256, Nat.mod_lt n (by decide)⟩

/-- Conversion to `uint16_t`. -/
def u16 (n : Nat) : Nat := n % 65536

/-- The two bytes of a 16-bit field, most significant first. -/
def be16 (n : Nat) : List Byte := [byte (n / 256), byte n]

/-- The four bytes of a 32-bit field, most significant first. -/
def be32 (n : Nat) : List Byte := [byte (n / 16777216), byte (n / 65536), byte (n / 256), byte n]

/-- The 16-bit field stored at offset `off`, read in network byte order. -/
def read_be16 (data : List Byte) (off : Nat) : Nat :=
  (data.getD off 0).val * 256 + (data.getD (off + 1) 0).val

/-- The 32-bit field stored at offset `off`, read in network byte order. -/
def read_be32 (data : List Byte) (off : Nat) : Nat :=
  (data.getD off 0).val * 16777216 + (data.getD (off + 1) 0).val * 65536
    + (data.getD (off + 2) 0).val * 256 + (data.getD (off + 3) 0).val

/-- Modelled from the spec: the enumerators `IPV4` and `IPV6` are declared in `tundev.h`,
which is not among the sources; "if neither 4 nor 6". -/
def IPV4 : Nat := 4

/-- Modelled from the spec: see `IPV4`. -/
def IPV6 : Nat := 6

/-- Modelled from the spec: `half_byte_shift_4_bits` is declared outside `tundev.cpp`;
"the top nibble of the first byte". -/
def half_byte_shift_4_bits : Nat := 4

/-- Modelled from the spec: `half_byte_mask_0xF` is declared outside `tundev.cpp`. -/
def half_byte_mask_0xF : Nat := 0xF

/-- Modelled from the spec: `IPV4_PROTOCOL_UDP` of `misc/ipv4_proto.h`, "the protocol byte
must equal UDP", protocol number 17 of the standard IPv4 header. -/
def IPV4_PROTOCOL_UDP : Nat := 17

/-- The outcome of a call: it returns a value, a C++ exception escapes it, or the bound on
the depth of its recursion is exhausted. -/
inductive Outcome (α : Type) where
  | ret (a : α)
  | thrown (what : String)
  | out_of_fuel
  deriving Repr

/-- Sequencing of calls: an exception or an exhausted bound ends the computation. -/
def Outcome.bind {α β : Type} (x : Outcome α) (f : α → Outcome β) : Outcome β :=
  match x with
  | .ret a => f a
  | .thrown w => .thrown w
  | .out_of_fuel => .out_of_fuel

/-! ## Data model -/

/-- A `boost::asio::ip::udp::endpoint` over IPv4: `address().to_uint()` and `port()`. -/
structure Endpoint where
  address : Nat
  port : Nat
  deriving DecidableEq, Repr

/-- Modelled from the spec: `Config::RouteType` is declared in `core/config.h`, which is not
among the sources. The six modes are the case labels of `proxy_by_route`; `unrecognised`
stands for any other value the member holds and carries it for the error message. -/
inductive RouteType where
  | route_all
  | route_bypass_local
  | route_bypass_cn_mainland
  | route_bypass_local_and_cn_mainland
  | route_gfwlist
  | route_cn_mainland
  | unrecognised (value : Int)
  deriving DecidableEq, Repr

/-- The result of `m_service->get_config().get_route()`: the mode and the `is_match` of the
three address matchers. -/
structure Route where
  proxy_type : RouteType
  _proxy_ips_matcher : Nat → Bool
  _white_ips_matcher : Nat → Bool
  _cn_mainland_ips_matcher : Nat → Bool

/-- The DNS collaborator as `proxy_by_route` sees it. -/
structure DNSServer where
  is_ip_in_gfwlist : Nat → Bool

/-- A UDP forwarding session as the device sees it: its kind (`TUNProxySession` when `proxy`,
`TUNLocalSession` otherwise), the pair given to `set_udp_connect`, the payloads handed to it
(`out_async_send`, or a datagram it accepted in `try_to_process_udp`) and whether its start
was requested. -/
structure TUNSession where
  proxy : Bool
  m_local_addr_udp : Endpoint
  m_remote_addr_udp : Endpoint
  sent : List (List Byte)
  started : Bool
  deriving DecidableEq, Repr

/-- The result of one `m_boost_sd.write_some`: the number of bytes the device took, or an
error code. -/
inductive WriteResult where
  | wrote (n : Nat)
  | error (ec : Nat)
  deriving DecidableEq, Repr

/-- The type `err_t` of the TCP/IP stack, by the names `tundev.cpp` uses: `ERR_OK`,
`ERR_ABRT`, and any other code the stack may pass. -/
inductive err_t where
  | ERR_OK
  | ERR_ABRT
  | other (code : Int)
  deriving DecidableEq, Repr

/-- A `tcp_pcb` as `listener_accept_func` reads it: an identity and
`ntoh32(local_ip.u_addr.ip4.addr)`. -/
structure tcp_pcb where
  id : Nat
  local_ip : Nat
  deriving DecidableEq, Repr

/-- A `lwip_tcp_client` with its session, as `listener_accept_func` sees them: the
connection block, the session kind (`TUNProxySession` when `proxy`), whether
`session->start()` was called, the answer of `session->is_destroyed()`, and whether
`close_client` was called. -/
structure lwip_tcp_client where
  m_pcb : tcp_pcb
  proxy : Bool
  started : Bool
  destroyed : Bool
  closed : Bool
  deriving DecidableEq, Repr

/-- The state of a `TUNDev`. The fields named `m_...` are the members of the class. `route`
is the routing configuration of the service. `sd_results` is the device: the result of the
n-th `write_some` issued on it. The remaining fields are traces, each in call order:
`sd_writes` the buffers passed to `write_some`, `committed` the blocks committed to
`m_write_fill_buf`, `dispatched` the packets `parse_packet` passed to
`try_to_process_udp_packet`, `netif_input` the packets passed to `input_netif_packet`,
`dns_recved` the calls of `m_dns_queryer->recved`, `made_tcp_clients` the client wrappers
`listener_accept_func` made, each as it is when the method returns. -/
structure TUNDev where
  m_mtu : Nat
  m_quitting : Bool
  m_packet_parse_buff : List Byte
  m_write_fill_buf : List Byte
  m_udp_clients : List TUNSession
  m_dns_server_endpoint : Endpoint
  m_dns_server : Option DNSServer
  route : Route
  sd_results : Nat → WriteResult
  sd_writes : List (List Byte)
  committed : List (List Byte)
  dispatched : List (List Byte)
  netif_input : List (List Byte)
  dns_recved : List (Endpoint × List Byte)
  m_tcp_clients : List lwip_tcp_client
  made_tcp_clients : List lwip_tcp_client

/-! ## Routing policy -/

/-- The method `TUNDev::proxy_by_route` (lines 322 to 350). -/
def proxy_by_route (dev : TUNDev) (ip : Nat) : Outcome Bool :=
  let route := dev.route
  if route._proxy_ips_matcher ip then .ret true
  else if route._white_ips_matcher ip then .ret false
  else
    match route.proxy_type with
    | .route_all => .ret true
    | .route_bypass_local => .ret true
    | .route_bypass_cn_mainland => .ret (!route._cn_mainland_ips_matcher ip)
    | .route_bypass_local_and_cn_mainland => .ret (!route._cn_mainland_ips_matcher ip)
    | .route_gfwlist =>
        .ret (match dev.m_dns_server with
              | none => false
              | some dns => dns.is_ip_in_gfwlist ip)
    | .route_cn_mainland => .ret (route._cn_mainland_ips_matcher ip)
    | .unrecognised value => .thrown ("[dns] error proxy type: " ++ toString value)

/-- The six modes the switch of `proxy_by_route` names. -/
def RouteType.recognised : RouteType → Bool
  | .unrecognised _ => false
  | _ => true

/-- The decision table of the specification (section 4.4), written from its words: the
answers of the four matchers and the mode give the decision, in fixed precedence; there is
no decision for a mode outside the table. -/
def should_proxy (in_proxy_list in_bypass_list in_cn_mainland gfw_listed : Bool)
    (mode : RouteType) : Option Bool :=
  if in_proxy_list then some true
  else if in_bypass_list then some false
  else
    match mode with
    | .route_all => some true
    | .route_bypass_local => some true
    | .route_bypass_cn_mainland => some (!in_cn_mainland)
    | .route_bypass_local_and_cn_mainland => some (!in_cn_mainland)
    | .route_gfwlist => some gfw_listed
    | .route_cn_mainland => some in_cn_mainland
    | .unrecognised _ => none

/-! ## Wire formats -/

/-- Modelled from the spec: `struct ipv4_header` is declared in `misc/ipv4_proto.h`, which is
not among the sources; "standard IPv4 and UDP header layouts, network byte order". The
members are those `tundev.cpp` assigns. -/
structure ipv4_header where
  version4_ihl4 : Nat
  ds : Nat
  total_length : Nat
  identification : Nat
  flags3_fragmentoffset13 : Nat
  ttl : Nat
  protocol : Nat
  checksum : Nat
  source_address : Nat
  destination_address : Nat
  deriving DecidableEq, Repr

/-- Modelled from the spec: `struct udp_header` is declared in `misc/udp_proto.h`, which is
not among the sources; the standard UDP header. -/
structure udp_header where
  source_port : Nat
  dest_port : Nat
  length : Nat
  checksum : Nat
  deriving DecidableEq, Repr

/-- The value of `sizeof(struct ipv4_header)`. -/
def sizeof_ipv4_header : Nat := 20

/-- The value of `sizeof(struct udp_header)`. -/
def sizeof_udp_header : Nat := 8

/-- The value of `sizeof(struct ipv6_header)`: the fixed IPv6 header. -/
def sizeof_ipv6_header : Nat := 40

/-- The value of `offsetof(struct ipv4_header, protocol)`. -/
def offsetof_ipv4_protocol : Nat := 9

/-- The 20 bytes of an IPv4 header in memory. -/
def ipv4_header.bytes (h : ipv4_header) : List Byte :=
  [byte h.version4_ihl4, byte h.ds] ++ be16 h.total_length ++ be16 h.identification
    ++ be16 h.flags3_fragmentoffset13 ++ [byte h.ttl, byte h.protocol] ++ be16 h.checksum
    ++ be32 h.source_address ++ be32 h.destination_address

/-- The 8 bytes of a UDP header in memory. -/
def udp_header.bytes (h : udp_header) : List Byte :=
  be16 h.source_port ++ be16 h.dest_port ++ be16 h.length ++ be16 h.checksum

/-- The header that `memcpy(&ipv4_hdr, data, sizeof(ipv4_hdr))` gives. -/
def read_ipv4_header (data : List Byte) : ipv4_header where
  version4_ihl4 := (data.getD 0 0).val
  ds := (data.getD 1 0).val
  total_length := read_be16 data 2
  identification := read_be16 data 4
  flags3_fragmentoffset13 := read_be16 data 6
  ttl := (data.getD 8 0).val
  protocol := (data.getD 9 0).val
  checksum := read_be16 data 10
  source_address := read_be32 data 12
  destination_address := read_be32 data 16

/-- The header that `memcpy(&udp_hdr, data, sizeof(udp_hdr))` gives. -/
def read_udp_header (data : List Byte) : udp_header where
  source_port := read_be16 data 0
  dest_port := read_be16 data 2
  length := read_be16 data 4
  checksum := read_be16 data 6

/-- Modelled from the spec: the macro `IPV4_MAKE_VERSION_IHL` of `misc/ipv4_proto.h`; version
4 in the top nibble, the header length in 32-bit words in the low nibble. -/
def IPV4_MAKE_VERSION_IHL (size : Nat) : Nat := size / 4 + (4 <<< 4)

/-- The code `tundev.cpp` calls and does not contain. `ipv4_checksum h` is
`ipv4_checksum(&h, nullptr, 0)`; `udp_checksum h payload src dst` is
`udp_checksum(&h, payload, payload_len, src, dst)`; `ipv4_check` and `udp_check` give the
header and the payload when the check answers 1 and `none` when it answers 0;
`try_to_process_udp it l r data` is the answer of `it->try_to_process_udp(l, r, data, len)`;
`destroyed_in_start s` tells whether the session is destroyed, and so its close callback
called, before its start (`session->start()` or `m_service->start_session`) returns.
For the TCP accept: `tcp_destroyed_in_start c` tells whether the session of `c` is destroyed
when its `start()` returns; `start_session c` is what `m_service->start_session` does with
the handler it is given before it returns: `none` when it has not called it, `some ec` when
it has called it, with an error exactly when `ec`. -/
structure Externals where
  Default_UDP_TTL : Nat
  ipv4_checksum : ipv4_header → Nat
  udp_checksum : udp_header → List Byte → Nat → Nat → Nat
  ipv4_check : List Byte → Option (ipv4_header × List Byte)
  udp_check : List Byte → Option (udp_header × List Byte)
  try_to_process_udp : TUNSession → Endpoint → Endpoint → List Byte → Bool
  destroyed_in_start : TUNSession → Bool
  tcp_destroyed_in_start : lwip_tcp_client → Bool
  start_session : lwip_tcp_client → Option Bool

/-! ## Flush of the outgoing fill buffer -/

/-- The result of the call `m_boost_sd.write_some(buffer, ec)` in state `dev`: the number
of bytes written (never more than the buffer holds, zero on error) and whether `ec` is
set. The call is the next one on the device, after those of `sd_writes`. -/
def write_some (dev : TUNDev) (buffer : List Byte) : Nat × Bool :=
  match dev.sd_results dev.sd_writes.length with
  | .wrote n => (min n buffer.length, false)
  | .error _ => (0, true)

/-- The body of the loop of `write_to_tun` (lines 704 to 720): one `write_some`, of at most
`m_mtu` bytes, then `consume(wrote)` or `consume(size())`. `m_writing_buf` is empty before
and after every iteration and is not part of the state. -/
def write_to_tun_body (dev : TUNDev) : TUNDev :=
  let buffer :=
    if dev.m_write_fill_buf.length > dev.m_mtu then dev.m_write_fill_buf.take dev.m_mtu
    else dev.m_write_fill_buf
  let result := write_some dev buffer
  let consumed :=
    if !result.2 && result.1 > 0 then result.1 else dev.m_write_fill_buf.length
  { dev with
    sd_writes := dev.sd_writes ++ [buffer]
    m_write_fill_buf := dev.m_write_fill_buf.drop consumed }

/-- The loop `while (m_write_fill_buf.size() > 0)` of `write_to_tun`. -/
def write_to_tun_loop (dev : TUNDev) : TUNDev :=
  if 0 < dev.m_write_fill_buf.length then write_to_tun_loop (write_to_tun_body dev) else dev
termination_by dev.m_write_fill_buf.length
decreasing_by
  rename_i h
  simp only [write_to_tun_body, List.length_drop]
  generalize write_some dev _ = result
  by_cases hc : (!result.2 && decide (result.1 > 0)) = true
  · rw [if_pos hc]
    simp only [Bool.and_eq_true, decide_eq_true_eq] at hc
    omega
  · rw [if_neg hc]
    omega

/-- The method `TUNDev::write_to_tun` (lines 696 to 724). -/
def write_to_tun (dev : TUNDev) : TUNDev :=
  if dev.m_quitting then dev else write_to_tun_loop dev

/-- The loop of lines 305 to 311 of `netif_output_func`: every buffer of the chain with a
positive `len` is committed to `m_write_fill_buf`. -/
def commit_pbuf_chain : List (List Byte) → TUNDev → TUNDev
  | [], dev => dev
  | payload :: next, dev =>
    commit_pbuf_chain next
      (if payload.length > 0 then
        { dev with
          m_write_fill_buf := dev.m_write_fill_buf ++ payload
          committed := dev.committed ++ [payload] }
      else dev)

/-- The method `TUNDev::netif_output_func(netif, p, ipaddr)` (lines 291 to 320). The chain
`p`, `p->next`, ... is the list of the payloads (`p->len` bytes each); the empty list is
`nullptr`. The error of the direct `write_some` is only printed. -/
def netif_output_func (p : List (List Byte)) (dev : TUNDev) : err_t × TUNDev :=
  if dev.m_quitting then (.ERR_OK, dev)
  else
    match p with
    | [] => (.ERR_OK, dev)
    | payload :: next =>
      if next.isEmpty ∧ payload.length ≤ dev.m_mtu then
        (.ERR_OK, { dev with sd_writes := dev.sd_writes ++ [payload] })
      else
        (.ERR_OK, write_to_tun (commit_pbuf_chain (payload :: next) dev))

/-! ## UDP synthesis -/

/-- Lines 519 to 548 of `handle_write_upd_data`: the IPv4 header, the UDP header and the
packet composed of them and of the first `data_len` bytes of `data`. -/
def compose_udp_packet (X : Externals) (local_endpoint remote_endpoint : Endpoint)
    (data : List Byte) (data_len : Nat) : List Byte :=
  -- build IP header
  let ipv4_hdr : ipv4_header :=
    { version4_ihl4 := IPV4_MAKE_VERSION_IHL sizeof_ipv4_header
      ds := 0
      total_length := u16 (sizeof_ipv4_header + sizeof_udp_header + data_len)
      identification := 0
      flags3_fragmentoffset13 := 0
      ttl := X.Default_UDP_TTL
      protocol := IPV4_PROTOCOL_UDP
      checksum := 0
      source_address := remote_endpoint.address
      destination_address := local_endpoint.address }
  let ipv4_hdr := { ipv4_hdr with checksum := u16 (X.ipv4_checksum ipv4_hdr) }
  -- build UDP header
  let udp_hdr : udp_header :=
    { source_port := remote_endpoint.port
      dest_port := local_endpoint.port
      length := u16 (sizeof_udp_header + data_len)
      checksum := 0 }
  let udp_hdr :=
    { udp_hdr with
      checksum := u16 (X.udp_checksum udp_hdr (data.take (u16 data_len))
        ipv4_hdr.source_address ipv4_hdr.destination_address) }
  -- compose packet
  ipv4_hdr.bytes ++ udp_hdr.bytes ++ data.take data_len

/-- The method `TUNDev::handle_write_upd_data(local_endpoint, remote_endpoint, data_str)`
(lines 499 to 564). `fuel` bounds the depth of the recursion of line 559. The result is the
value returned and the device; the string view is consumed by the call. -/
def handle_write_upd_data (X : Externals) :
    Nat → Endpoint → Endpoint → List Byte → TUNDev → Outcome (Nat × TUNDev)
  | 0, _, _, _, _ => .out_of_fuel
  | fuel + 1, local_endpoint, remote_endpoint, data_str, dev =>
    let data_len := data_str.length
    if data_len = 0 then .ret (0, dev)
    else
      let header_length := u16 (sizeof_ipv4_header + sizeof_udp_header)
      let max_len := min 65535 dev.m_mtu
      -- `max_len - header_length` is computed in `int` and stored in a `uint16_t`
      let max_len := u16 (max_len + 65536 - header_length)
      let data_len := if data_len > max_len then max_len else data_len
      let packet := compose_udp_packet X local_endpoint remote_endpoint data_str data_len
      let dev :=
        { dev with
          m_write_fill_buf := dev.m_write_fill_buf ++ packet
          committed := dev.committed ++ [packet] }
      let dev := write_to_tun dev
      let data_str := data_str.drop data_len
      if data_str.length > 0 then
        (handle_write_upd_data X fuel local_endpoint remote_endpoint data_str dev).bind
          fun r => .ret (0, r.2)
      else .ret (0, dev)

/-! ## UDP interception -/

/-- Lines 588 to 614 of `try_to_process_udp_packet`: the IPv4 header check, the UDP header
check and the comparison of the UDP checksum; on success the source endpoint
(`local_endpoint`), the destination endpoint (`remote_endpoint`) and the UDP payload. -/
def validate_udp (X : Externals) (data : List Byte) : Option (Endpoint × Endpoint × List Byte) :=
  match X.ipv4_check data with
  | none => none
  | some (ipv4_hdr, data) =>
    match X.udp_check data with
    | none => none
    | some (udp_hdr, data) =>
      let checksum_in_packet := udp_hdr.checksum
      let udp_hdr := { udp_hdr with checksum := 0 }
      let checksum_computed :=
        u16 (X.udp_checksum udp_hdr data ipv4_hdr.source_address ipv4_hdr.destination_address)
      if checksum_in_packet ≠ checksum_computed then none
      else
        some (⟨ipv4_hdr.source_address, udp_hdr.source_port⟩,
              ⟨ipv4_hdr.destination_address, udp_hdr.dest_port⟩, data)

/-- The loop of lines 625 to 629: the sessions are asked in order; the first that accepts
takes the payload. `none` when no session accepts. -/
def offer_to_udp_clients (X : Externals) (local_endpoint remote_endpoint : Endpoint)
    (data : List Byte) : List TUNSession → Option (List TUNSession)
  | [] => none
  | it :: rest =>
    if X.try_to_process_udp it local_endpoint remote_endpoint data then
      some ({ it with sent := it.sent ++ [data] } :: rest)
    else
      (offer_to_udp_clients X local_endpoint remote_endpoint data rest).map fun r => it :: r

/-- The method `TUNDev::try_to_process_udp_packet(data, data_len)` (lines 573 to 694); the
result is the value returned (1 consumed, 0 not handled here) and the device. -/
def try_to_process_udp_packet (X : Externals) (data : List Byte) (dev : TUNDev) :
    Outcome (Nat × TUNDev) :=
  let data_len := data.length
  let ip_version :=
    if data_len > 0 then ((data.getD 0 0).val >>> half_byte_shift_4_bits) &&& half_byte_mask_0xF
    else 0
  if ip_version = IPV4 then
    -- ignore non-UDP packets
    if data_len < sizeof_ipv4_header
        ∨ (data.getD offsetof_ipv4_protocol 0).val ≠ IPV4_PROTOCOL_UDP then
      .ret (0, dev)
    else
      match validate_udp X data with
      | none => .ret (1, dev)
      | some (local_endpoint, remote_endpoint, data) =>
        if dev.m_dns_server_endpoint = remote_endpoint then
          .ret (1, { dev with dns_recved := dev.dns_recved ++ [(local_endpoint, data)] })
        else
          match offer_to_udp_clients X local_endpoint remote_endpoint data dev.m_udp_clients with
          | some clients => .ret (1, { dev with m_udp_clients := clients })
          | none =>
            (proxy_by_route dev remote_endpoint.address).bind fun proxy =>
              -- make_shared, set_udp_connect, out_async_send
              let session : TUNSession :=
                { proxy := proxy
                  m_local_addr_udp := local_endpoint
                  m_remote_addr_udp := remote_endpoint
                  sent := [data]
                  started := false }
              let index := dev.m_udp_clients.length
              -- start, directly or through `start_session`
              let started := { session with started := true }
              let clients := dev.m_udp_clients ++ [started]
              if X.destroyed_in_start session then
                -- the close callback of lines 648 to 657
                .ret (1, { dev with m_udp_clients := clients.eraseIdx index })
              else .ret (1, { dev with m_udp_clients := clients })
  else
    .ret (0, dev)

/-! ## Reassembler -/

/-- The method `TUNDev::input_netif_packet(data, packet_len)` (lines 412 to 434): the packet
is given to the embedded stack. -/
def input_netif_packet (data : List Byte) (dev : TUNDev) : TUNDev :=
  { dev with netif_input := dev.netif_input ++ [data] }

/-- Lines 449 to 474 of `parse_packet`: the `total_length` of the packet at the head of the
accumulator, for `ip_version` 4 or 6; `none` where the method returns for want of a full
fixed header. -/
def packet_total_length (ip_version : Nat) (data : List Byte) : Option Nat :=
  if ip_version = IPV4 then
    if data.length < sizeof_ipv4_header then none
    else some (read_ipv4_header data).total_length
  else
    if data.length < sizeof_ipv6_header then none
    else some (u16 (read_be16 data 4 + sizeof_ipv6_header))

/-- The method `TUNDev::parse_packet` (lines 436 to 497). `fuel` bounds the depth of the
recursion of line 488. -/
def parse_packet (X : Externals) : Nat → TUNDev → Outcome TUNDev
  | 0, _ => .out_of_fuel
  | fuel + 1, dev =>
    if dev.m_packet_parse_buff.isEmpty then .ret dev
    else
      let data := dev.m_packet_parse_buff
      let data_len := data.length
      let ip_version :=
        ((data.getD 0 0).val >>> half_byte_shift_4_bits) &&& half_byte_mask_0xF
      if ip_version = IPV4 ∨ ip_version = IPV6 then
        match packet_total_length ip_version data with
        | none => .ret dev
        | some total_length =>
          if total_length ≤ data_len then
            let packet := data.take total_length
            let dev := { dev with dispatched := dev.dispatched ++ [packet] }
            (try_to_process_udp_packet X packet dev).bind fun (result, dev) =>
              let dev := if result = 0 then input_netif_packet packet dev else dev
              if data_len = total_length then
                .ret { dev with m_packet_parse_buff := [] }
              else
                parse_packet X fuel
                  { dev with m_packet_parse_buff := dev.m_packet_parse_buff.drop total_length }
          else .ret dev
      else
        .ret { dev with m_packet_parse_buff := [] }

/-- One round of `parse_packet`, the body of the method up to its recursive call: the
outcome with which the method ends in this round, or the device on which line 488
recurses. -/
def parse_packet_round (X : Externals) (dev : TUNDev) : Outcome TUNDev ⊕ TUNDev :=
  if dev.m_packet_parse_buff.isEmpty then .inl (.ret dev)
  else
    let data := dev.m_packet_parse_buff
    let data_len := data.length
    let ip_version :=
      ((data.getD 0 0).val >>> half_byte_shift_4_bits) &&& half_byte_mask_0xF
    if ip_version = IPV4 ∨ ip_version = IPV6 then
      match packet_total_length ip_version data with
      | none => .inl (.ret dev)
      | some total_length =>
        if total_length ≤ data_len then
          let packet := data.take total_length
          let dev := { dev with dispatched := dev.dispatched ++ [packet] }
          match try_to_process_udp_packet X packet dev with
          | .ret (result, dev) =>
            let dev := if result = 0 then input_netif_packet packet dev else dev
            if data_len = total_length then
              .inl (.ret { dev with m_packet_parse_buff := [] })
            else
              .inr { dev with m_packet_parse_buff := dev.m_packet_parse_buff.drop total_length }
          | .thrown what => .inl (.thrown what)
          | .out_of_fuel => .inl .out_of_fuel
        else .inl (.ret dev)
    else
      .inl (.ret { dev with m_packet_parse_buff := [] })

/-- Lines 476 to 481 of `parse_packet`: the packet is passed to
`try_to_process_udp_packet` and, when the answer is 0, to `input_netif_packet`. -/
def dispatch_packet (X : Externals) (packet : List Byte) (dev : TUNDev) : Outcome TUNDev :=
  (try_to_process_udp_packet X packet
      { dev with dispatched := dev.dispatched ++ [packet] }).bind fun (result, dev) =>
    .ret (if result = 0 then input_netif_packet packet dev else dev)

/-- The packets of a list dispatched one after the other, as `dispatch_packet` does each. -/
def dispatch_packets (X : Externals) : List (List Byte) → TUNDev → Outcome TUNDev
  | [], dev => .ret dev
  | packet :: rest, dev => (dispatch_packet X packet dev).bind (dispatch_packets X rest)

/-- The completion handler of `async_read` (lines 730 to 745) for a read that ended with
error flag `ec` and the bytes `chunk`: the bytes are appended to the accumulator and
`parse_packet` is called. -/
def async_read_handler (X : Externals) (fuel : Nat) (ec : Bool) (chunk : List Byte)
    (dev : TUNDev) : Outcome TUNDev :=
  if dev.m_quitting then .ret dev
  else if !ec then
    parse_packet X fuel { dev with m_packet_parse_buff := dev.m_packet_parse_buff ++ chunk }
  else .ret dev

/-- Successive reads without error, one per chunk, in order. -/
def read_chunks (X : Externals) (fuel : Nat) : List (List Byte) → TUNDev → Outcome TUNDev
  | [], dev => .ret dev
  | chunk :: rest, dev =>
    (async_read_handler X fuel false chunk dev).bind fun dev => read_chunks X fuel rest dev

/-! ## TCP accept -/

/-- The handler `listener_accept_func` gives to `start_session` (lines 390 to 403), run on
the client `tcp_client` with error flag `ec`. The close callback of the client (lines 375 to
384) erases it from `m_tcp_clients`, where it is not yet. -/
def start_session_handler (X : Externals) (ec : Bool) (tcp_client : lwip_tcp_client)
    (dev : TUNDev) : lwip_tcp_client × TUNDev :=
  if !ec then
    let tcp_client :=
      { tcp_client with started := true, destroyed := X.tcp_destroyed_in_start tcp_client }
    if !tcp_client.destroyed then
      (tcp_client, { dev with m_tcp_clients := dev.m_tcp_clients ++ [tcp_client] })
    else (tcp_client, dev)
  else
    ({ tcp_client with destroyed := true, closed := true }, dev)

/-- The method `TUNDev::listener_accept_func(newpcb, err)` (lines 352 to 410). -/
def listener_accept_func (X : Externals) (newpcb : tcp_pcb) (err : err_t) (dev : TUNDev) :
    Outcome (err_t × TUNDev) :=
  if err ≠ .ERR_OK then .ret (err, dev)
  else
    (proxy_by_route dev newpcb.local_ip).bind fun proxy =>
      let tcp_client : lwip_tcp_client :=
        { m_pcb := newpcb, proxy := proxy, started := false, destroyed := false,
          closed := false }
      let made : lwip_tcp_client × TUNDev :=
        if !proxy then
          let tcp_client :=
            { tcp_client with
              started := true, destroyed := X.tcp_destroyed_in_start tcp_client }
          if !tcp_client.destroyed then
            (tcp_client, { dev with m_tcp_clients := dev.m_tcp_clients ++ [tcp_client] })
          else (tcp_client, dev)
        else
          match X.start_session tcp_client with
          | some ec => start_session_handler X ec tcp_client dev
          | none => (tcp_client, dev)
      .ret (if made.1.destroyed then .ERR_ABRT else .ERR_OK,
        { made.2 with made_tcp_clients := made.2.made_tcp_clients ++ [made.1] })

/-! ## The header checks and checksums, modelled

`misc/ipv4_proto.h` and `misc/udp_proto.h` are not among the sources. The four functions
below are written from the specification: "standard IPv4 and UDP header layouts, network
byte order, standard Internet checksum algorithm over the pseudo-header", "checksum computed
over the header only" for IPv4. -/

/-- Modelled from the spec: the sum of the Internet checksum, over the 16-bit big-endian
words of `data`; a last odd byte is the high byte of a word whose low byte is zero. -/
def sum_be16 : List Byte → Nat
  | [] => 0
  | [b] => b.val * 256
  | b1 :: b2 :: rest => b1.val * 256 + b2.val + sum_be16 rest

/-- Modelled from the spec: the end-around carry of the Internet checksum, which adds the
bits above the low 16 back into them; two rounds suffice for a 32-bit sum. -/
def fold_carries (t : Nat) : Nat :=
  let t := t % 65536 + t / 65536
  t % 65536 + t / 65536

/-- Modelled from the spec: `ipv4_checksum(&header, nullptr, 0)` of `misc/ipv4_proto.h`, the
Internet checksum "computed over the header only". -/
def ipv4_checksum (header : ipv4_header) : Nat :=
  65535 - fold_carries (sum_be16 header.bytes) % 65536

/-- Modelled from the spec: `udp_checksum` of `misc/udp_proto.h`, the Internet checksum
"computed over pseudo-header + payload": source and destination address, protocol, UDP
length, then the UDP header and the payload; a checksum that comes out as zero is sent as
`0xFFFF`. -/
def udp_checksum (header : udp_header) (payload : List Byte) (source_addr dest_addr : Nat) :
    Nat :=
  let t := sum_be16 (be32 source_addr) + sum_be16 (be32 dest_addr) + IPV4_PROTOCOL_UDP
    + u16 (sizeof_udp_header + payload.length) + sum_be16 header.bytes + sum_be16 payload
  let checksum := 65535 - fold_carries t % 65536
  if checksum = 0 then 65535 else checksum

/-- Modelled from the spec: `ipv4_check` of `misc/ipv4_proto.h`, "IPv4 header well-formed":
a full fixed header, version 4, a header length of at least 20 bytes within the data, a
total length between the header length and the data length, and a header checksum equal to
the one computed with the field zeroed (over the header and its options). The result is the
header and the payload the total length delimits. -/
def ipv4_check (data : List Byte) : Option (ipv4_header × List Byte) :=
  if data.length < sizeof_ipv4_header then none
  else
    let header := read_ipv4_header data
    if header.version4_ihl4 / 16 ≠ 4 then none
    else
      let header_len := header.version4_ihl4 % 16 * 4
      if header_len < sizeof_ipv4_header then none
      else if header_len > data.length then none
      else
        let total_length := header.total_length
        if total_length < header_len then none
        else if total_length > data.length then none
        else
          let checksum_computed :=
            65535 - fold_carries (sum_be16 ({ header with checksum := 0 }).bytes
              + sum_be16 ((data.drop sizeof_ipv4_header).take (header_len - sizeof_ipv4_header)))
              % 65536
          if header.checksum ≠ checksum_computed then none
          else some (header, (data.drop header_len).take (total_length - header_len))

/-- Modelled from the spec: `udp_check` of `misc/udp_proto.h`, "UDP header well-formed": a
full header whose length field is at least the header size and at most the data given. The
result is the header and the payload the length field delimits. -/
def udp_check (data : List Byte) : Option (udp_header × List Byte) :=
  if data.length < sizeof_udp_header then none
  else
    let header := read_udp_header data
    let udp_length := header.length
    if udp_length < sizeof_udp_header then none
    else if udp_length > data.length then none
    else some (header, (data.drop sizeof_udp_header).take (udp_length - sizeof_udp_header))

/-- The externals `X` with the header checks and checksums replaced by the modelled ones. -/
def Externals.modelled (X : Externals) : Externals :=
  { X with
    ipv4_checksum := TrojanPlus.ipv4_checksum
    udp_checksum := TrojanPlus.udp_checksum
    ipv4_check := TrojanPlus.ipv4_check
    udp_check := TrojanPlus.udp_check }

/-! ## Vocabulary of the statements -/

/-- Whether the DNS collaborator reports the address as GFW-listed: there is a DNS server
and its `is_ip_in_gfwlist` answers true. -/
def TUNDev.gfw_listed (dev : TUNDev) (ip : Nat) : Bool :=
  match dev.m_dns_server with
  | none => false
  | some dns => dns.is_ip_in_gfwlist ip

/-- An IPv4 endpoint: a 32-bit address and a 16-bit port. -/
def Endpoint.valid (e : Endpoint) : Prop := e.address < 4294967296 ∧ e.port < 65536

instance (e : Endpoint) : Decidable e.valid := by
  unfold Endpoint.valid
  exact inferInstance

/-- The version nibble of a packet, as `try_to_process_udp_packet` and `parse_packet`
compute it; 0 for the empty packet. -/
def version_nibble (data : List Byte) : Nat :=
  if data.length > 0 then ((data.getD 0 0).val >>> half_byte_shift_4_bits) &&& half_byte_mask_0xF
  else 0

/-- The protocol byte of an IPv4 packet. -/
def protocol_byte (data : List Byte) : Nat := (data.getD offsetof_ipv4_protocol 0).val

/-- A valid IPv4/UDP datagram from `local_endpoint` to `remote_endpoint` with UDP payload
`payload`: an IPv4 packet with a full fixed header and protocol byte UDP that passes the
three checks of `try_to_process_udp_packet` and is decoded so. -/
def valid_udp_datagram (X : Externals) (data : List Byte) (local_endpoint remote_endpoint : Endpoint)
    (payload : List Byte) : Prop :=
  version_nibble data = IPV4 ∧ sizeof_ipv4_header ≤ data.length
    ∧ protocol_byte data = IPV4_PROTOCOL_UDP
    ∧ validate_udp X data = some (local_endpoint, remote_endpoint, payload)

/-- The (local, remote) pair of a session. -/
def TUNSession.pair (s : TUNSession) : Endpoint × Endpoint :=
  (s.m_local_addr_udp, s.m_remote_addr_udp)

/-- The UDP session registry holds no two sessions with the same (local, remote) pair and
no session towards the DNS endpoint; so it is when it is empty. -/
def udp_registry_ok (dev : TUNDev) : Prop :=
  (dev.m_udp_clients.map TUNSession.pair).Nodup
    ∧ ∀ s ∈ dev.m_udp_clients, s.m_remote_addr_udp ≠ dev.m_dns_server_endpoint

/-- Successive calls of `try_to_process_udp_packet`, one per datagram, in order. -/
def process_datagrams (X : Externals) : List (List Byte) → TUNDev → Outcome TUNDev
  | [], dev => .ret dev
  | data :: rest, dev =>
    (try_to_process_udp_packet X data dev).bind fun r => process_datagrams X rest r.2

/-- What `parse_packet` finds at the head of the accumulator: nothing (line 438), a first
byte whose version nibble is neither 4 nor 6 (line 492), a packet of which bytes are still
missing, of the fixed header or of the declared length, or a complete packet of
`total_length` bytes. -/
inductive Head where
  | empty
  | unknown_version
  | incomplete
  | packet (total_length : Nat)
  deriving DecidableEq, Repr

/-- The head of the accumulator `data`, by the tests of `parse_packet`. -/
def head_of (data : List Byte) : Head :=
  if data.isEmpty then .empty
  else
    let ip_version :=
      ((data.getD 0 0).val >>> half_byte_shift_4_bits) &&& half_byte_mask_0xF
    if ip_version = IPV4 ∨ ip_version = IPV6 then
      match packet_total_length ip_version data with
      | none => .incomplete
      | some total_length => if total_length ≤ data.length then .packet total_length else .incomplete
    else .unknown_version

/-- Whether a run of `parse_packet` on the accumulator `data` arrives, within the bound
`fuel`, at a packet boundary whose first byte has a version nibble other than 4 and 6, where
line 493 discards the accumulator. -/
def discards_unknown_version : Nat → List Byte → Bool
  | 0, _ => false
  | fuel + 1, data =>
    if data.isEmpty then false
    else
      let ip_version :=
        ((data.getD 0 0).val >>> half_byte_shift_4_bits) &&& half_byte_mask_0xF
      if ip_version = IPV4 ∨ ip_version = IPV6 then
        match packet_total_length ip_version data with
        | none => false
        | some total_length =>
          if total_length ≤ data.length then
            if data.length = total_length then false
            else discards_unknown_version fuel (data.drop total_length)
          else false
      else true

/-- The bytes the device took of the write requests `requests`, the first of which is the
write number `k` on the device: of each request the first `n` bytes when the result of the
write is `wrote n`, none when it is an error. -/
def accepted_bytes (results : Nat → WriteResult) : Nat → List (List Byte) → List Byte
  | _, [] => []
  | k, request :: rest =>
    (match results k with
      | .wrote n => request.take n
      | .error _ => []) ++ accepted_bytes results (k + 1) rest

/-- Whether a run of `parse_packet` on the accumulator `data` arrives, within the bound
`fuel`, at a complete packet whose total length is 0, which line 487 does not remove from
the accumulator. -/
def meets_empty_packet : Nat → List Byte → Bool
  | 0, _ => false
  | fuel + 1, data =>
    match head_of data with
    | .packet total_length =>
      if total_length = 0 then true
      else if data.length = total_length then false
      else meets_empty_packet fuel (data.drop total_length)
    | _ => false

/-! ## Concrete inputs -/

/-- Externals for the examples: the modelled checks, a TTL of 60, sessions that accept
exactly the datagrams of their own pair and survive their start. Of the TCP sessions the
one on connection block 13 is destroyed in its start; `start_session` does not call its
handler before it returns for block 14, calls it with an error for block 15 and without
one for every other block. -/
def example_externals : Externals :=
  Externals.modelled
    { Default_UDP_TTL := 60
      ipv4_checksum := fun _ => 0
      udp_checksum := fun _ _ _ _ => 0
      ipv4_check := fun _ => none
      udp_check := fun _ => none
      try_to_process_udp := fun s l r _ =>
        decide (s.m_local_addr_udp = l ∧ s.m_remote_addr_udp = r)
      destroyed_in_start := fun _ => false
      tcp_destroyed_in_start := fun c => c.m_pcb.id = 13
      start_session := fun c => if c.m_pcb.id = 14 then none else some (c.m_pcb.id = 15) }

/-- A device for the examples: MTU 1500, DNS endpoint 10.0.0.1:53, mode
`route_bypass_cn_mainland`, proxy list 1 and 2, bypass list 2 and 3, CN-mainland set 4, a
device that takes every byte offered, nothing buffered and no session. -/
def example_dev : TUNDev where
  m_mtu := 1500
  m_quitting := false
  m_packet_parse_buff := []
  m_write_fill_buf := []
  m_udp_clients := []
  m_dns_server_endpoint := ⟨0x0A000001, 53⟩
  m_dns_server := some ⟨fun ip => ip = 5⟩
  route :=
    { proxy_type := .route_bypass_cn_mainland
      _proxy_ips_matcher := fun ip => ip = 1 || ip = 2
      _white_ips_matcher := fun ip => ip = 2 || ip = 3
      _cn_mainland_ips_matcher := fun ip => ip = 4 }
  sd_results := fun _ => .wrote 65535
  sd_writes := []
  committed := []
  dispatched := []
  netif_input := []
  dns_recved := []
  m_tcp_clients := []
  made_tcp_clients := []

/-- The example device with a mode outside the six recognised ones. -/
def unrecognised_mode_dev : TUNDev :=
  { example_dev with route := { example_dev.route with proxy_type := .unrecognised 9 } }

/-- The example device with three bytes queued, MTU 1 and a device that takes one byte at
the first write and fails at every later one. -/
def failing_write_dev : TUNDev :=
  { example_dev with
    m_mtu := 1
    m_write_fill_buf := [1, 2, 3]
    sd_results := fun k => if k = 0 then .wrote 1 else .error 5 }

/-- A datagram from 10.0.0.2:4000 to the DNS endpoint 10.0.0.1:53 of the example device,
payload 1 2 3, with its checksums. -/
def dns_query : List Byte :=
  [69, 0, 0, 31, 0, 0, 0, 0, 60, 17, 106, 204, 10, 0, 0, 2, 10, 0, 0, 1,
   15, 160, 0, 53, 0, 11, 215, 254, 1, 2, 3]

/-- A datagram from 10.0.0.2:4000 to 8.8.8.8:53, payload 1 2 3 4 5, with its checksums. -/
def udp_datagram : List Byte :=
  [69, 0, 0, 33, 0, 0, 0, 0, 60, 17, 100, 187, 10, 0, 0, 2, 8, 8, 8, 8,
   15, 160, 0, 53, 0, 13, 204, 231, 1, 2, 3, 4, 5]

/-- An IPv4 packet of 20 bytes with protocol byte 6 (TCP) and total length 20. -/
def tcp_packet : List Byte :=
  [69, 0, 0, 20, 0, 0, 0, 0, 60, 6, 0, 0, 10, 0, 0, 2, 8, 8, 8, 8]

/-- An accumulator of 20 bytes whose IPv4 header declares a total length of 12 and has
protocol byte UDP; the eight bytes after the first twelve begin another IPv4 header. -/
def short_udp_stream : List Byte :=
  [69, 0, 0, 12, 0, 0, 0, 0, 60, 17, 0, 0, 69, 0, 0, 20, 0, 0, 0, 0]

/-- An IPv4 packet of 20 bytes with protocol byte UDP, no room for a UDP header and a wrong
header checksum. -/
def malformed_udp_packet : List Byte :=
  [69, 0, 0, 20, 0, 0, 0, 0, 60, 17, 0, 0, 10, 0, 0, 2, 8, 8, 8, 8]

/-- The example device after the datagram to 8.8.8.8:53 was handled twice: one proxied
session for the pair, which received both payloads. -/
def after_two_datagrams : TUNDev :=
  { example_dev with
    m_udp_clients :=
      [{ proxy := true
         m_local_addr_udp := ⟨0x0A000002, 4000⟩
         m_remote_addr_udp := ⟨0x08080808, 53⟩
         sent := [[1, 2, 3, 4, 5], [1, 2, 3, 4, 5]]
         started := true }] }

/-- The example device with an MTU of 30: two bytes of UDP payload a packet. -/
def small_mtu_dev : TUNDev :=
  { example_dev with m_mtu := 30 }

/-- The example device after a run of `parse_packet` on the datagram to 8.8.8.8:53: the
packet was dispatched and a proxied session holds its payload. -/
def after_one_datagram : TUNDev :=
  { example_dev with
    dispatched := [udp_datagram]
    m_udp_clients :=
      [{ proxy := true
         m_local_addr_udp := ⟨0x0A000002, 4000⟩
         m_remote_addr_udp := ⟨0x08080808, 53⟩
         sent := [[1, 2, 3, 4, 5]]
         started := true }] }

/-- The example device with the first ten bytes of the datagram to 8.8.8.8:53 in its
accumulator. -/
def half_datagram_dev : TUNDev :=
  { example_dev with m_packet_parse_buff := udp_datagram.take 10 }

/-- Two complete packets: the TCP packet and the datagram to 8.8.8.8:53. -/
def two_packets : List (List Byte) := [tcp_packet, udp_datagram]

/-- The example device with an MTU of 0 and three bytes queued; its writes never fail. -/
def zero_mtu_dev : TUNDev :=
  { example_dev with
    m_mtu := 0
    m_write_fill_buf := [1, 2, 3] }

/-- The example device after `destroy`: the quitting flag is set. -/
def quitting_dev : TUNDev :=
  { example_dev with m_quitting := true }

/-- The example device with an MTU of 27, one less than the 28 bytes of the two headers. -/
def tiny_mtu_dev : TUNDev :=
  { example_dev with m_mtu := 27 }

/-- A fixed IPv6 header of 40 bytes whose `payload_length` field is 65535 (next header UDP,
hop limit 64, addresses ::1 and ::2). -/
def ipv6_max_payload_header : List Byte :=
  [0x60, 0, 0, 0, 0xFF, 0xFF, 17, 64,
   0, 0, 0, 0, 0, 0, 0, 0, 0, 0, 0, 0, 0, 0, 0, 1,
   0, 0, 0, 0, 0, 0, 0, 0, 0, 0, 0, 0, 0, 0, 0, 2]

/-- A fixed IPv4 header of 20 bytes whose `total_length` field is 0 (protocol TCP, from
10.0.0.2 to 8.8.8.8). -/
def zero_length_ipv4_header : List Byte :=
  [69, 0, 0, 0, 0, 0, 0, 0, 60, 6, 0, 0, 10, 0, 0, 2, 8, 8, 8, 8]

/-- A fixed IPv6 header of 40 bytes whose `payload_length` field is 65496, so that the
payload length plus 40 is 0 modulo 65536 (next header UDP, hop limit 64, addresses ::1 and
::2). -/
def ipv6_wrap_to_zero_header : List Byte :=
  [0x60, 0, 0, 0, 0xFF, 0xD8, 17, 64,
   0, 0, 0, 0, 0, 0, 0, 0, 0, 0, 0, 0, 0, 0, 0, 1,
   0, 0, 0, 0, 0, 0, 0, 0, 0, 0, 0, 0, 0, 0, 0, 2]

/-- The example device with an MTU of 28, the size of the two headers. -/
def mtu_28_dev : TUNDev :=
  { example_dev with m_mtu := 28 }

/-! # Theorems -/

/-! ## Routing -/

/-- C6: for every destination address and every recognised mode, `proxy_by_route` returns
the decision of the reference table `should_proxy`, evaluated in fixed precedence on the
answers of the proxy list, the bypass list, the CN-mainland set and the GFW list; and an
address in both lists resolves to proxied. -/
theorem C6_proxy_by_route_decision_table (dev : TUNDev) (ip : Nat)
    (hmode : dev.route.proxy_type.recognised = true) :
    (∃ decision,
        should_proxy (dev.route._proxy_ips_matcher ip) (dev.route._white_ips_matcher ip)
          (dev.route._cn_mainland_ips_matcher ip) (dev.gfw_listed ip) dev.route.proxy_type
          = some decision
        ∧ proxy_by_route dev ip = .ret decision)
      ∧ (dev.route._proxy_ips_matcher ip = true → dev.route._white_ips_matcher ip = true →
          proxy_by_route dev ip = .ret true) := by
  constructor
  · cases hp : dev.route._proxy_ips_matcher ip
    · cases hw : dev.route._white_ips_matcher ip
      · cases ht : dev.route.proxy_type <;>
          simp_all [proxy_by_route, should_proxy, TUNDev.gfw_listed, RouteType.recognised]
      · simp [proxy_by_route, should_proxy, hp, hw]
    · simp [proxy_by_route, should_proxy, hp]
  · intro hp _
    simp [proxy_by_route, hp]

/-- Witness of C6: the mode `route_bypass_cn_mainland` and an address in neither list. -/
theorem C6_proxy_by_route_decision_table_witness :
    example_dev.route.proxy_type.recognised = true
      ∧ ((∃ decision,
            should_proxy (example_dev.route._proxy_ips_matcher 7)
              (example_dev.route._white_ips_matcher 7)
              (example_dev.route._cn_mainland_ips_matcher 7) (example_dev.gfw_listed 7)
              example_dev.route.proxy_type = some decision
            ∧ proxy_by_route example_dev 7 = .ret decision)
          ∧ (example_dev.route._proxy_ips_matcher 7 = true →
              example_dev.route._white_ips_matcher 7 = true →
              proxy_by_route example_dev 7 = .ret true)) :=
  ⟨rfl, C6_proxy_by_route_decision_table example_dev 7 rfl⟩

/-- C7, as stated, fails: with an unrecognised mode, an address of the proxy list gets the
decision "proxied" and no error. -/
theorem C7_counterexample :
    unrecognised_mode_dev.route.proxy_type.recognised = false
      ∧ unrecognised_mode_dev.route._proxy_ips_matcher 1 = true
      ∧ proxy_by_route unrecognised_mode_dev 1 = .ret true :=
  ⟨rfl, rfl, rfl⟩

/-- C7, amended: if the mode is none of the six recognised modes, then for every destination
address that neither the proxy list nor the bypass list matches `proxy_by_route` fails with
an error; an address one of the lists matches gets the decision of the list. -/
theorem C7_unrecognised_mode_is_fatal (dev : TUNDev) (ip : Nat)
    (hmode : dev.route.proxy_type.recognised = false) :
    (dev.route._proxy_ips_matcher ip = false → dev.route._white_ips_matcher ip = false →
        ∃ what, proxy_by_route dev ip = .thrown what)
      ∧ (dev.route._proxy_ips_matcher ip = true → proxy_by_route dev ip = .ret true)
      ∧ (dev.route._proxy_ips_matcher ip = false → dev.route._white_ips_matcher ip = true →
          proxy_by_route dev ip = .ret false) := by
  refine ⟨?_, ?_, ?_⟩
  · intro hp hw
    cases ht : dev.route.proxy_type <;> simp_all [proxy_by_route, RouteType.recognised]
  · intro hp
    simp [proxy_by_route, hp]
  · intro hp hw
    simp [proxy_by_route, hp, hw]

/-- Witness of the amended C7: the unrecognised mode 9. -/
theorem C7_unrecognised_mode_is_fatal_witness :
    unrecognised_mode_dev.route.proxy_type.recognised = false
      ∧ ((unrecognised_mode_dev.route._proxy_ips_matcher 7 = false →
            unrecognised_mode_dev.route._white_ips_matcher 7 = false →
            ∃ what, proxy_by_route unrecognised_mode_dev 7 = .thrown what)
          ∧ (unrecognised_mode_dev.route._proxy_ips_matcher 7 = true →
              proxy_by_route unrecognised_mode_dev 7 = .ret true)
          ∧ (unrecognised_mode_dev.route._proxy_ips_matcher 7 = false →
              unrecognised_mode_dev.route._white_ips_matcher 7 = true →
              proxy_by_route unrecognised_mode_dev 7 = .ret false)) :=
  ⟨rfl, C7_unrecognised_mode_is_fatal unrecognised_mode_dev 7 rfl⟩

/-! ## Flush -/

theorem write_to_tun_loop_unfold (dev : TUNDev) :
    write_to_tun_loop dev =
      if 0 < dev.m_write_fill_buf.length then write_to_tun_loop (write_to_tun_body dev)
      else dev := by
  rw [write_to_tun_loop]

theorem write_to_tun_body_length_lt (dev : TUNDev) (h : 0 < dev.m_write_fill_buf.length) :
    (write_to_tun_body dev).m_write_fill_buf.length < dev.m_write_fill_buf.length := by
  simp only [write_to_tun_body, List.length_drop]
  generalize write_some dev _ = result
  by_cases hc : (!result.2 && decide (result.1 > 0)) = true
  · rw [if_pos hc]
    simp only [Bool.and_eq_true, decide_eq_true_eq] at hc
    omega
  · rw [if_neg hc]
    omega

/-- Induction along the iterations of the loop of `write_to_tun`. -/
theorem write_to_tun_loop_induction (P : TUNDev → TUNDev → Prop)
    (hstop : ∀ dev, dev.m_write_fill_buf = [] → P dev dev)
    (hstep : ∀ dev, dev.m_write_fill_buf ≠ [] →
      P (write_to_tun_body dev) (write_to_tun_loop (write_to_tun_body dev)) →
      P dev (write_to_tun_loop (write_to_tun_body dev)))
    (dev : TUNDev) : P dev (write_to_tun_loop dev) := by
  generalize hn : dev.m_write_fill_buf.length = n
  induction n using Nat.strong_induction_on generalizing dev with
  | _ n ih =>
    rw [write_to_tun_loop_unfold]
    by_cases h : 0 < dev.m_write_fill_buf.length
    · rw [if_pos h]
      apply hstep dev (by intro h0; simp [h0] at h)
      exact ih _ (hn ▸ write_to_tun_body_length_lt dev h) _ rfl
    · rw [if_neg h]
      exact hstop dev (List.length_eq_zero.mp (by omega))

/-- C10: when the quitting flag is not set, `write_to_tun` returns with the fill buffer of
size zero, whatever the buffer held, the MTU and the results of the device writes; and every
write that is followed by another write took at least one byte without error, so that after
the first failing write no further write is issued and what remained is discarded. -/
theorem C10_flush_empties_fill_buffer (dev : TUNDev) (hq : dev.m_quitting = false) :
    (write_to_tun dev).m_write_fill_buf = []
      ∧ ∀ k, dev.sd_writes.length ≤ k → k + 1 < (write_to_tun dev).sd_writes.length →
          ∃ n, 0 < n ∧ dev.sd_results k = .wrote n := by
  have key : ∀ d : TUNDev,
      (write_to_tun_loop d).m_write_fill_buf = []
        ∧ (write_to_tun_loop d).sd_results = d.sd_results
        ∧ ∀ k, d.sd_writes.length ≤ k → k + 1 < (write_to_tun_loop d).sd_writes.length →
            ∃ n, 0 < n ∧ d.sd_results k = .wrote n := by
    intro d
    refine write_to_tun_loop_induction
      (fun d d' => d'.m_write_fill_buf = [] ∧ d'.sd_results = d.sd_results
        ∧ ∀ k, d.sd_writes.length ≤ k → k + 1 < d'.sd_writes.length →
            ∃ n, 0 < n ∧ d.sd_results k = .wrote n) ?_ ?_ d
    · intro d h0
      refine ⟨h0, rfl, ?_⟩
      intro k h1 h2
      omega
    · intro d hne ⟨ih1, ih2, ih3⟩
      have hres : (write_to_tun_body d).sd_results = d.sd_results := rfl
      have hlen : (write_to_tun_body d).sd_writes.length = d.sd_writes.length + 1 := by
        simp [write_to_tun_body]
      refine ⟨ih1, by rw [ih2, hres], ?_⟩
      intro k h1 h2
      by_cases hk : k = d.sd_writes.length
      · subst hk
        cases hr : d.sd_results d.sd_writes.length with
        | wrote n =>
          by_cases hn : 0 < n
          · exact ⟨n, hn, rfl⟩
          · exfalso
            have hb : (write_to_tun_body d).m_write_fill_buf = [] := by
              have hn0 : n = 0 := by omega
              simp [write_to_tun_body, write_some, hr, hn0]
            rw [write_to_tun_loop_unfold, hb] at h2
            simp only [List.length_nil, lt_self_iff_false, if_false] at h2
            omega
        | error ec =>
          exfalso
          have hb : (write_to_tun_body d).m_write_fill_buf = [] := by
            simp [write_to_tun_body, write_some, hr]
          rw [write_to_tun_loop_unfold, hb] at h2
          simp only [List.length_nil, lt_self_iff_false, if_false] at h2
          omega
      · have := ih3 k (by omega) h2
        rwa [hres] at this
  unfold write_to_tun
  rw [hq]
  simp only [Bool.false_eq_true, if_false]
  exact ⟨(key dev).1, (key dev).2.2⟩

/-- Witness of C10: three queued bytes, MTU 1, a device that takes the first byte and
fails at the second write. -/
theorem C10_flush_empties_fill_buffer_witness :
    failing_write_dev.m_quitting = false
      ∧ ((write_to_tun failing_write_dev).m_write_fill_buf = []
          ∧ ∀ k, failing_write_dev.sd_writes.length ≤ k →
              k + 1 < (write_to_tun failing_write_dev).sd_writes.length →
              ∃ n, 0 < n ∧ failing_write_dev.sd_results k = .wrote n) :=
  ⟨rfl, C10_flush_empties_fill_buffer failing_write_dev rfl⟩


/-! ## UDP interception -/

/-- For an IPv4 packet with a full fixed header and protocol byte UDP the method goes on to
the three checks: the result is decided by `validate_udp`, the DNS endpoint, the sessions
and the routing decision. -/
theorem try_to_process_udp_packet_of_udp (X : Externals) (data : List Byte) (dev : TUNDev)
    (hv : version_nibble data = IPV4) (hl : sizeof_ipv4_header ≤ data.length)
    (hp : protocol_byte data = IPV4_PROTOCOL_UDP) :
    try_to_process_udp_packet X data dev =
      match validate_udp X data with
      | none => .ret (1, dev)
      | some (local_endpoint, remote_endpoint, payload) =>
        if dev.m_dns_server_endpoint = remote_endpoint then
          .ret (1, { dev with dns_recved := dev.dns_recved ++ [(local_endpoint, payload)] })
        else
          match offer_to_udp_clients X local_endpoint remote_endpoint payload
              dev.m_udp_clients with
          | some clients => .ret (1, { dev with m_udp_clients := clients })
          | none =>
            (proxy_by_route dev remote_endpoint.address).bind fun proxy =>
              let session : TUNSession :=
                { proxy := proxy
                  m_local_addr_udp := local_endpoint
                  m_remote_addr_udp := remote_endpoint
                  sent := [payload]
                  started := false }
              if X.destroyed_in_start session then
                .ret (1, { dev with
                  m_udp_clients :=
                    (dev.m_udp_clients ++ [{ session with started := true }]).eraseIdx
                      dev.m_udp_clients.length })
              else
                .ret (1, { dev with
                  m_udp_clients := dev.m_udp_clients ++ [{ session with started := true }] }) := by
  unfold version_nibble at hv
  unfold protocol_byte at hp
  have hl' : ¬ data.length < sizeof_ipv4_header := by omega
  unfold try_to_process_udp_packet
  simp only [hv, hl', hp, if_true, ne_eq, not_true_eq_false, or_self, if_false]

/-- C9: a validated IPv4/UDP datagram whose destination endpoint is the configured DNS
endpoint is handed, source endpoint and payload, to the DNS queryer; the method returns 1
and nothing else of the device changes: the UDP session registry is exactly as it was. -/
theorem C9_dns_detour_creates_no_session (X : Externals) (data : List Byte) (dev : TUNDev)
    (local_endpoint remote_endpoint : Endpoint) (payload : List Byte)
    (hvalid : valid_udp_datagram X data local_endpoint remote_endpoint payload)
    (hdns : remote_endpoint = dev.m_dns_server_endpoint) :
    try_to_process_udp_packet X data dev
        = .ret (1, { dev with dns_recved := dev.dns_recved ++ [(local_endpoint, payload)] })
      ∧ ∀ r dev', try_to_process_udp_packet X data dev = .ret (r, dev') →
          r = 1 ∧ dev'.m_udp_clients = dev.m_udp_clients
            ∧ dev'.dns_recved = dev.dns_recved ++ [(local_endpoint, payload)] := by
  obtain ⟨hv, hl, hp, hval⟩ := hvalid
  have h : try_to_process_udp_packet X data dev
      = .ret (1, { dev with dns_recved := dev.dns_recved ++ [(local_endpoint, payload)] }) := by
    rw [try_to_process_udp_packet_of_udp X data dev hv hl hp, hval]
    simp [hdns]
  refine ⟨h, ?_⟩
  intro r dev' hr
  rw [h] at hr
  cases hr
  exact ⟨rfl, rfl, rfl⟩

/-- A packet that is not an IPv4 packet with a full fixed header and protocol byte UDP is
left alone: the method returns 0 and the device is unchanged. -/
theorem try_to_process_udp_packet_of_not_udp (X : Externals) (data : List Byte) (dev : TUNDev)
    (h : ¬ (version_nibble data = IPV4 ∧ sizeof_ipv4_header ≤ data.length
      ∧ protocol_byte data = IPV4_PROTOCOL_UDP)) :
    try_to_process_udp_packet X data dev = .ret (0, dev) := by
  unfold version_nibble protocol_byte at h
  unfold try_to_process_udp_packet
  by_cases hv : (if data.length > 0 then
      ((data.getD 0 0).val >>> half_byte_shift_4_bits) &&& half_byte_mask_0xF else 0) = IPV4
  · simp only [hv, if_true]
    have h2 : data.length < sizeof_ipv4_header
        ∨ (data.getD offsetof_ipv4_protocol 0).val ≠ IPV4_PROTOCOL_UDP := by
      by_cases hl : data.length < sizeof_ipv4_header
      · exact Or.inl hl
      · right
        intro hp
        exact h ⟨hv, by omega, hp⟩
    rw [if_pos h2]
  · simp only [hv, if_false]

/-- What a returning call of `try_to_process_udp_packet` can change: the session registry
and the trace of the DNS queryer, nothing else; it returns 0 or 1, and 0 only for a packet
that is not IPv4 with a full fixed header and protocol byte UDP, leaving the device as it
was. -/
theorem try_to_process_udp_packet_frame (X : Externals) (data : List Byte) (dev : TUNDev)
    (r : Nat) (dev' : TUNDev) (h : try_to_process_udp_packet X data dev = .ret (r, dev')) :
    dev' = { dev with m_udp_clients := dev'.m_udp_clients, dns_recved := dev'.dns_recved }
      ∧ (r = 0 ∨ r = 1)
      ∧ (r = 0 → dev' = dev ∧ ¬ (version_nibble data = IPV4 ∧ sizeof_ipv4_header ≤ data.length
          ∧ protocol_byte data = IPV4_PROTOCOL_UDP)) := by
  by_cases hg : version_nibble data = IPV4 ∧ sizeof_ipv4_header ≤ data.length
      ∧ protocol_byte data = IPV4_PROTOCOL_UDP
  · obtain ⟨hv, hl, hp⟩ := hg
    rw [try_to_process_udp_packet_of_udp X data dev hv hl hp] at h
    have key : r = 1
        ∧ dev' = { dev with m_udp_clients := dev'.m_udp_clients, dns_recved := dev'.dns_recved } := by
      split at h
      · cases h
        exact ⟨rfl, rfl⟩
      · split at h
        · cases h
          exact ⟨rfl, rfl⟩
        · split at h
          · cases h
            exact ⟨rfl, rfl⟩
          · cases hpr : proxy_by_route dev _ with
            | ret proxy =>
              rw [hpr] at h
              simp only [Outcome.bind] at h
              split at h <;> (cases h; exact ⟨rfl, rfl⟩)
            | thrown w =>
              rw [hpr] at h
              simp [Outcome.bind] at h
            | out_of_fuel =>
              rw [hpr] at h
              simp [Outcome.bind] at h
    refine ⟨key.2, Or.inr key.1, ?_⟩
    intro h0
    rw [key.1] at h0
    exact absurd h0 (by decide)
  · rw [try_to_process_udp_packet_of_not_udp X data dev hg] at h
    cases h
    exact ⟨rfl, Or.inl rfl, fun _ => ⟨rfl, hg⟩⟩

/-- Every packet `parse_packet` passes to `input_netif_packet` is one on which
`try_to_process_udp_packet` returned 0: it is not an IPv4 packet with a full fixed header
and protocol byte UDP. -/
theorem parse_packet_forwards_no_udp (X : Externals) (fuel : Nat) (dev dev' : TUNDev)
    (h : parse_packet X fuel dev = .ret dev') :
    ∃ forwarded, dev'.netif_input = dev.netif_input ++ forwarded
      ∧ ∀ p ∈ forwarded, ¬ (version_nibble p = IPV4 ∧ sizeof_ipv4_header ≤ p.length
          ∧ protocol_byte p = IPV4_PROTOCOL_UDP) := by
  induction fuel generalizing dev with
  | zero => simp [parse_packet] at h
  | succ fuel ih =>
    unfold parse_packet at h
    split at h
    · cases h
      exact ⟨[], by simp, by simp⟩
    · simp only at h
      split at h
      · split at h
        · cases h
          exact ⟨[], by simp, by simp⟩
        · rename_i total_length _
          split at h
          · cases htp : try_to_process_udp_packet X
                (dev.m_packet_parse_buff.take total_length)
                { dev with dispatched := dev.dispatched
                    ++ [dev.m_packet_parse_buff.take total_length] } with
            | ret rd =>
              obtain ⟨r, d⟩ := rd
              rw [htp] at h
              simp only [Outcome.bind] at h
              obtain ⟨hframe, _, h0⟩ := try_to_process_udp_packet_frame X _ _ r d htp
              have hni : d.netif_input = dev.netif_input := by rw [hframe]
              by_cases hr : r = 0
              · obtain ⟨_, hnot⟩ := h0 hr
                simp only [hr, if_true] at h
                split at h
                · cases h
                  exact ⟨[dev.m_packet_parse_buff.take total_length],
                    by simp [input_netif_packet, hni],
                    by
                      intro p hp
                      simp only [List.mem_singleton] at hp
                      rw [hp]
                      exact hnot⟩
                · obtain ⟨fw, hfw, hall⟩ := ih _ h
                  refine ⟨dev.m_packet_parse_buff.take total_length :: fw, ?_, ?_⟩
                  · rw [hfw]
                    simp [input_netif_packet, hni]
                  · intro p hp
                    rcases List.mem_cons.mp hp with hp | hp
                    · rw [hp]
                      exact hnot
                    · exact hall p hp
              · simp only [hr, if_false] at h
                split at h
                · cases h
                  exact ⟨[], by simp [hni], by simp⟩
                · obtain ⟨fw, hfw, hall⟩ := ih _ h
                  exact ⟨fw, by rw [hfw]; simp [hni], hall⟩
            | thrown w =>
              rw [htp] at h
              simp [Outcome.bind] at h
            | out_of_fuel =>
              rw [htp] at h
              simp [Outcome.bind] at h
          · cases h
            exact ⟨[], by simp, by simp⟩
      · cases h
        exact ⟨[], by simp, by simp⟩

theorem proxy_by_route_outcome (dev : TUNDev) (ip : Nat) :
    (∃ proxy, proxy_by_route dev ip = .ret proxy)
      ∨ (∃ what, proxy_by_route dev ip = .thrown what
          ∧ dev.route.proxy_type.recognised = false) := by
  unfold proxy_by_route
  simp only
  split
  · exact Or.inl ⟨_, rfl⟩
  · split
    · exact Or.inl ⟨_, rfl⟩
    · split
      all_goals first
        | exact Or.inl ⟨_, rfl⟩
        | (rename_i hmode; exact Or.inr ⟨_, rfl, by rw [hmode]; rfl⟩)

/-- An IPv4 packet with a full fixed header and protocol byte UDP is consumed, or the error
of `proxy_by_route` escapes, which takes a validated datagram and an unrecognised mode. -/
theorem try_to_process_udp_packet_udp_outcome (X : Externals) (data : List Byte) (dev : TUNDev)
    (hv : version_nibble data = IPV4) (hl : sizeof_ipv4_header ≤ data.length)
    (hp : protocol_byte data = IPV4_PROTOCOL_UDP) :
    (∃ dev', try_to_process_udp_packet X data dev = .ret (1, dev'))
      ∨ (∃ what, try_to_process_udp_packet X data dev = .thrown what
          ∧ (validate_udp X data).isSome = true
          ∧ dev.route.proxy_type.recognised = false) := by
  rw [try_to_process_udp_packet_of_udp X data dev hv hl hp]
  split
  · exact Or.inl ⟨_, rfl⟩
  · rename_i l r p hval
    split
    · exact Or.inl ⟨_, rfl⟩
    · split
      · exact Or.inl ⟨_, rfl⟩
      · rcases proxy_by_route_outcome dev r.address with ⟨proxy, hpr⟩ | ⟨what, hpr, hmode⟩
        · rw [hpr]
          simp only [Outcome.bind]
          split
          · exact Or.inl ⟨_, rfl⟩
          · exact Or.inl ⟨_, rfl⟩
        · rw [hpr]
          exact Or.inr ⟨what, rfl, by simp_all, hmode⟩

theorem getD_append_left (data rest : List Byte) (i : Nat) (h : i < data.length) :
    (data ++ rest).getD i 0 = data.getD i 0 := by
  simp [List.getD_eq_getElem?_getD, List.getElem?_append_left h]

theorem read_be16_append_left (data rest : List Byte) (off : Nat) (h : off + 1 < data.length) :
    read_be16 (data ++ rest) off = read_be16 data off := by
  unfold read_be16
  rw [getD_append_left data rest off (by omega), getD_append_left data rest (off + 1) h]

theorem version_nibble_eq (data : List Byte) (h : 0 < data.length) :
    version_nibble data
      = ((data.getD 0 0).val >>> half_byte_shift_4_bits) &&& half_byte_mask_0xF := by
  unfold version_nibble
  rw [if_pos h]

/-- One unfolding of `parse_packet`. -/
theorem parse_packet_succ (X : Externals) (fuel : Nat) (dev : TUNDev) :
    parse_packet X (fuel + 1) dev =
      if dev.m_packet_parse_buff.isEmpty then .ret dev
      else
        let data := dev.m_packet_parse_buff
        let data_len := data.length
        let ip_version :=
          ((data.getD 0 0).val >>> half_byte_shift_4_bits) &&& half_byte_mask_0xF
        if ip_version = IPV4 ∨ ip_version = IPV6 then
          match packet_total_length ip_version data with
          | none => .ret dev
          | some total_length =>
            if total_length ≤ data_len then
              let packet := data.take total_length
              let dev := { dev with dispatched := dev.dispatched ++ [packet] }
              (try_to_process_udp_packet X packet dev).bind fun (result, dev) =>
                let dev := if result = 0 then input_netif_packet packet dev else dev
                if data_len = total_length then
                  .ret { dev with m_packet_parse_buff := [] }
                else
                  parse_packet X fuel
                    { dev with m_packet_parse_buff := dev.m_packet_parse_buff.drop total_length }
            else .ret dev
        else
          .ret { dev with m_packet_parse_buff := [] } := rfl

set_option maxRecDepth 8000 in
/-- One round of `parse_packet` on an accumulator that begins with a complete IPv4 packet
`data`, one whose header declares its own length: the packet is passed to
`try_to_process_udp_packet`, to `input_netif_packet` when the answer is 0, and the run goes
on with what follows. -/
theorem parse_packet_ipv4_head (X : Externals) (fuel : Nat) (dev : TUNDev)
    (data rest : List Byte) (hv : version_nibble data = IPV4)
    (hl : sizeof_ipv4_header ≤ data.length)
    (htl : (read_ipv4_header data).total_length = data.length) :
    parse_packet X (fuel + 1) { dev with m_packet_parse_buff := data ++ rest } =
      (try_to_process_udp_packet X data
        { dev with
          m_packet_parse_buff := data ++ rest
          dispatched := dev.dispatched ++ [data] }).bind fun (result, dev) =>
        let dev := if result = 0 then input_netif_packet data dev else dev
        if rest = [] then .ret { dev with m_packet_parse_buff := [] }
        else
          parse_packet X fuel
            { dev with m_packet_parse_buff := dev.m_packet_parse_buff.drop data.length } := by
  have hl20 : 20 ≤ data.length := hl
  have hpos : 0 < data.length := by omega
  have hne : (data ++ rest).isEmpty = false := by
    cases data with
    | nil => simp at hpos
    | cons b t => rfl
  have hver : (((data ++ rest).getD 0 0).val >>> half_byte_shift_4_bits) &&& half_byte_mask_0xF
      = IPV4 := by
    rw [getD_append_left data rest 0 hpos, ← version_nibble_eq data hpos, hv]
  have htot : packet_total_length IPV4 (data ++ rest) = some data.length := by
    unfold packet_total_length
    have : ¬ (data ++ rest).length < sizeof_ipv4_header := by
      simp only [List.length_append, sizeof_ipv4_header]
      omega
    simp only [if_true, this, if_false]
    congr 1
    unfold read_ipv4_header at htl ⊢
    simp only at htl ⊢
    rw [read_be16_append_left data rest 2 (by omega)]
    exact htl
  have hlen : data.length ≤ (data ++ rest).length := by simp
  have hrest : ((data ++ rest).length = data.length) = (rest = []) := by
    simp only [List.length_append, eq_iff_iff]
    constructor
    · intro h
      exact List.length_eq_zero.mp (by omega)
    · intro h
      simp [h]
  rw [parse_packet_succ]
  simp only [hne, Bool.false_eq_true, if_false, hver, true_or, if_true, htot, hlen,
    List.take_left, hrest]

/-- C4, as stated, fails in its first half: under an unrecognised routing mode a valid
IPv4/UDP datagram that needs a new session does not make `try_to_process_udp_packet` return
1; the error of `proxy_by_route` escapes. -/
theorem C4_counterexample :
    valid_udp_datagram example_externals udp_datagram ⟨0x0A000002, 4000⟩ ⟨0x08080808, 53⟩
        [1, 2, 3, 4, 5]
      ∧ try_to_process_udp_packet example_externals udp_datagram unrecognised_mode_dev
          = .thrown "[dns] error proxy type: 9" :=
  ⟨⟨by decide, by decide, by decide, by decide⟩, rfl⟩

/-- C4, amended: for every valid IPv4/UDP datagram `try_to_process_udp_packet` returns 1
(consumed), unless the routing mode is unrecognised and the error of `proxy_by_route`
escapes; it never returns 0, and `parse_packet` never passes the datagram to
`input_netif_packet`. For every IPv4 packet of at least 20 bytes whose protocol byte is not
UDP it returns 0 and leaves the device as it was, and `parse_packet`, on an accumulator that
begins with such a packet whose header declares its length, passes exactly these bytes to
`input_netif_packet` and goes on with what follows. -/
theorem C4_interception_classification (X : Externals) (dev : TUNDev)
    (udp : List Byte) (local_endpoint remote_endpoint : Endpoint) (payload : List Byte)
    (hvalid : valid_udp_datagram X udp local_endpoint remote_endpoint payload)
    (other : List Byte) (hv : version_nibble other = IPV4)
    (hl : sizeof_ipv4_header ≤ other.length)
    (hp : protocol_byte other ≠ IPV4_PROTOCOL_UDP)
    (htl : (read_ipv4_header other).total_length = other.length) :
    ((∃ dev', try_to_process_udp_packet X udp dev = .ret (1, dev'))
        ∨ (∃ what, try_to_process_udp_packet X udp dev = .thrown what
            ∧ dev.route.proxy_type.recognised = false))
      ∧ (∀ fuel dev0 dev', parse_packet X fuel dev0 = .ret dev' →
          ∃ forwarded, dev'.netif_input = dev0.netif_input ++ forwarded ∧ udp ∉ forwarded)
      ∧ try_to_process_udp_packet X other dev = .ret (0, dev)
      ∧ ∀ fuel rest,
          parse_packet X (fuel + 1) { dev with m_packet_parse_buff := other ++ rest } =
            if rest = [] then
              .ret { dev with
                m_packet_parse_buff := []
                dispatched := dev.dispatched ++ [other]
                netif_input := dev.netif_input ++ [other] }
            else
              parse_packet X fuel
                { dev with
                  m_packet_parse_buff := rest
                  dispatched := dev.dispatched ++ [other]
                  netif_input := dev.netif_input ++ [other] } := by
  obtain ⟨huv, hul, hup, _⟩ := hvalid
  have hnot : ¬ (version_nibble other = IPV4 ∧ sizeof_ipv4_header ≤ other.length
      ∧ protocol_byte other = IPV4_PROTOCOL_UDP) := fun h => hp h.2.2
  refine ⟨?_, ?_, try_to_process_udp_packet_of_not_udp X other dev hnot, ?_⟩
  · rcases try_to_process_udp_packet_udp_outcome X udp dev huv hul hup with h | ⟨w, h, _, hm⟩
    · exact Or.inl h
    · exact Or.inr ⟨w, h, hm⟩
  · intro fuel dev0 dev' hrun
    obtain ⟨fw, hfw, hall⟩ := parse_packet_forwards_no_udp X fuel dev0 dev' hrun
    exact ⟨fw, hfw, fun hmem => hall udp hmem ⟨huv, hul, hup⟩⟩
  · intro fuel rest
    rw [parse_packet_ipv4_head X fuel dev other rest hv hl htl,
      try_to_process_udp_packet_of_not_udp X other _ hnot]
    simp only [Outcome.bind, if_true, input_netif_packet, List.drop_left]

/-- Witness of C4: the datagram to 8.8.8.8:53 and the TCP packet of the examples. -/
theorem C4_interception_classification_witness :
    valid_udp_datagram example_externals udp_datagram ⟨0x0A000002, 4000⟩ ⟨0x08080808, 53⟩
        [1, 2, 3, 4, 5]
      ∧ version_nibble tcp_packet = IPV4
      ∧ sizeof_ipv4_header ≤ tcp_packet.length
      ∧ protocol_byte tcp_packet ≠ IPV4_PROTOCOL_UDP
      ∧ (read_ipv4_header tcp_packet).total_length = tcp_packet.length
      ∧ (((∃ dev', try_to_process_udp_packet example_externals udp_datagram example_dev
              = .ret (1, dev'))
            ∨ (∃ what, try_to_process_udp_packet example_externals udp_datagram example_dev
                = .thrown what ∧ example_dev.route.proxy_type.recognised = false))
          ∧ (∀ fuel dev0 dev', parse_packet example_externals fuel dev0 = .ret dev' →
              ∃ forwarded, dev'.netif_input = dev0.netif_input ++ forwarded
                ∧ udp_datagram ∉ forwarded)
          ∧ try_to_process_udp_packet example_externals tcp_packet example_dev
              = .ret (0, example_dev)
          ∧ ∀ fuel rest,
              parse_packet example_externals (fuel + 1)
                  { example_dev with m_packet_parse_buff := tcp_packet ++ rest } =
                if rest = [] then
                  .ret { example_dev with
                    m_packet_parse_buff := []
                    dispatched := example_dev.dispatched ++ [tcp_packet]
                    netif_input := example_dev.netif_input ++ [tcp_packet] }
                else
                  parse_packet example_externals fuel
                    { example_dev with
                      m_packet_parse_buff := rest
                      dispatched := example_dev.dispatched ++ [tcp_packet]
                      netif_input := example_dev.netif_input ++ [tcp_packet] }) :=
  ⟨⟨by decide, by decide, by decide, by decide⟩, by decide, by decide, by decide, by decide,
    C4_interception_classification example_externals example_dev udp_datagram
      ⟨0x0A000002, 4000⟩ ⟨0x08080808, 53⟩ [1, 2, 3, 4, 5]
      ⟨by decide, by decide, by decide, by decide⟩ tcp_packet (by decide) (by decide)
      (by decide) (by decide)⟩

/-- C5, as stated, fails: a packet of 12 bytes with version nibble 4 and protocol byte UDP
makes `try_to_process_udp_packet` return 0, and `parse_packet`, meeting it at the head of
the accumulator, passes it to `input_netif_packet`. -/
theorem C5_counterexample :
    version_nibble (short_udp_stream.take 12) = IPV4
      ∧ protocol_byte (short_udp_stream.take 12) = IPV4_PROTOCOL_UDP
      ∧ try_to_process_udp_packet example_externals (short_udp_stream.take 12) example_dev
          = .ret (0, example_dev)
      ∧ parse_packet example_externals 2
            { example_dev with m_packet_parse_buff := short_udp_stream }
          = .ret { example_dev with
              m_packet_parse_buff := short_udp_stream.drop 12
              dispatched := [short_udp_stream.take 12]
              netif_input := [short_udp_stream.take 12] } :=
  ⟨by decide, by decide, rfl, rfl⟩

/-- C5, amended: every IPv4 packet of at least 20 bytes whose protocol byte is UDP ends at
the UDP layer, well-formed or not. `try_to_process_udp_packet` never returns 0 on it; when
a header check or the checksum comparison fails it returns 1 and leaves the device as it
was; it returns 1 in every case but one, a validated datagram under an unrecognised routing
mode, where the error of `proxy_by_route` escapes; and `parse_packet` never passes the
packet to `input_netif_packet`. -/
theorem C5_udp_packets_end_at_udp_layer (X : Externals) (data : List Byte) (dev : TUNDev)
    (hv : version_nibble data = IPV4) (hl : sizeof_ipv4_header ≤ data.length)
    (hp : protocol_byte data = IPV4_PROTOCOL_UDP) :
    (∀ dev', try_to_process_udp_packet X data dev ≠ .ret (0, dev'))
      ∧ (validate_udp X data = none → try_to_process_udp_packet X data dev = .ret (1, dev))
      ∧ ((∃ dev', try_to_process_udp_packet X data dev = .ret (1, dev'))
          ∨ (∃ what, try_to_process_udp_packet X data dev = .thrown what
              ∧ (validate_udp X data).isSome = true
              ∧ dev.route.proxy_type.recognised = false))
      ∧ ∀ fuel dev0 dev', parse_packet X fuel dev0 = .ret dev' →
          ∃ forwarded, dev'.netif_input = dev0.netif_input ++ forwarded
            ∧ data ∉ forwarded := by
  refine ⟨?_, ?_, try_to_process_udp_packet_udp_outcome X data dev hv hl hp, ?_⟩
  · intro dev' h
    exact (try_to_process_udp_packet_frame X data dev 0 dev' h).2.2 rfl |>.2 ⟨hv, hl, hp⟩
  · intro hnone
    rw [try_to_process_udp_packet_of_udp X data dev hv hl hp, hnone]
  · intro fuel dev0 dev' hrun
    obtain ⟨fw, hfw, hall⟩ := parse_packet_forwards_no_udp X fuel dev0 dev' hrun
    exact ⟨fw, hfw, fun hmem => hall data hmem ⟨hv, hl, hp⟩⟩

/-- Witness of C5: the TCP packet of the examples with its protocol byte set to UDP, which
fails the header check. -/
theorem C5_udp_packets_end_at_udp_layer_witness :
    version_nibble malformed_udp_packet = IPV4
      ∧ sizeof_ipv4_header ≤ malformed_udp_packet.length
      ∧ protocol_byte malformed_udp_packet = IPV4_PROTOCOL_UDP
      ∧ ((∀ dev', try_to_process_udp_packet example_externals malformed_udp_packet example_dev
              ≠ .ret (0, dev'))
          ∧ (validate_udp example_externals malformed_udp_packet = none →
              try_to_process_udp_packet example_externals malformed_udp_packet example_dev
                = .ret (1, example_dev))
          ∧ ((∃ dev', try_to_process_udp_packet example_externals malformed_udp_packet
                  example_dev = .ret (1, dev'))
              ∨ (∃ what, try_to_process_udp_packet example_externals malformed_udp_packet
                    example_dev = .thrown what
                  ∧ (validate_udp example_externals malformed_udp_packet).isSome = true
                  ∧ example_dev.route.proxy_type.recognised = false))
          ∧ ∀ fuel dev0 dev', parse_packet example_externals fuel dev0 = .ret dev' →
              ∃ forwarded, dev'.netif_input = dev0.netif_input ++ forwarded
                ∧ malformed_udp_packet ∉ forwarded) :=
  ⟨by decide, by decide, by decide,
    C5_udp_packets_end_at_udp_layer example_externals malformed_udp_packet example_dev
      (by decide) (by decide) (by decide)⟩

/-! ## The UDP session registry -/

theorem eraseIdx_append_singleton {α : Type} (l : List α) (a : α) :
    (l ++ [a]).eraseIdx l.length = l := by
  rw [List.eraseIdx_append_of_length_le (le_refl _)]
  simp

theorem offer_to_udp_clients_eq_none (X : Externals) (l r : Endpoint) (data : List Byte)
    (clients : List TUNSession) :
    offer_to_udp_clients X l r data clients = none
      ↔ ∀ s ∈ clients, X.try_to_process_udp s l r data = false := by
  induction clients with
  | nil => simp [offer_to_udp_clients]
  | cons it rest ih =>
    unfold offer_to_udp_clients
    by_cases h : X.try_to_process_udp it l r data = true
    · simp [h]
    · simp only [h, Bool.false_eq_true, if_false, Option.map_eq_none', ih, List.mem_cons,
        forall_eq_or_imp]
      simp only [Bool.not_eq_true] at h
      simp [h]

theorem offer_to_udp_clients_eq_some (X : Externals) (l r : Endpoint) (data : List Byte)
    (clients clients' : List TUNSession)
    (h : offer_to_udp_clients X l r data clients = some clients') :
    ∃ before s after, clients = before ++ s :: after
      ∧ X.try_to_process_udp s l r data = true
      ∧ clients' = before ++ { s with sent := s.sent ++ [data] } :: after := by
  induction clients generalizing clients' with
  | nil => simp [offer_to_udp_clients] at h
  | cons it rest ih =>
    unfold offer_to_udp_clients at h
    by_cases hacc : X.try_to_process_udp it l r data = true
    · simp only [hacc, if_true, Option.some.injEq] at h
      exact ⟨[], it, rest, rfl, hacc, by rw [← h]; rfl⟩
    · simp only [hacc, Bool.false_eq_true, if_false, Option.map_eq_some'] at h
      obtain ⟨cs, hcs, hcons⟩ := h
      obtain ⟨before, s, after, h1, h2, h3⟩ := ih cs hcs
      exact ⟨it :: before, s, after, by rw [h1]; rfl, h2, by rw [← hcons, h3]; rfl⟩

/-- A call of `try_to_process_udp_packet` keeps the registry free of duplicate pairs and of
sessions towards the DNS endpoint, when a session accepts exactly the datagrams of its own
pair. -/
theorem try_to_process_udp_packet_registry_ok (X : Externals)
    (hacc : ∀ s l r data, X.try_to_process_udp s l r data = true
      ↔ (s.m_local_addr_udp = l ∧ s.m_remote_addr_udp = r))
    (data : List Byte) (dev : TUNDev) (res : Nat) (dev' : TUNDev)
    (hok : udp_registry_ok dev)
    (h : try_to_process_udp_packet X data dev = .ret (res, dev')) :
    udp_registry_ok dev' := by
  by_cases hg : version_nibble data = IPV4 ∧ sizeof_ipv4_header ≤ data.length
      ∧ protocol_byte data = IPV4_PROTOCOL_UDP
  · obtain ⟨hv, hl, hp⟩ := hg
    rw [try_to_process_udp_packet_of_udp X data dev hv hl hp] at h
    obtain ⟨hnodup, hdns⟩ := hok
    split at h
    · cases h
      exact ⟨hnodup, hdns⟩
    · rename_i l r payload hval
      split at h
      · cases h
        exact ⟨hnodup, hdns⟩
      · rename_i hnotdns
        split at h
        · rename_i clients hoffer
          cases h
          obtain ⟨before, s, after, h1, _, h3⟩ :=
            offer_to_udp_clients_eq_some X l r payload dev.m_udp_clients clients hoffer
          constructor
          · show (clients.map TUNSession.pair).Nodup
            have : clients.map TUNSession.pair = dev.m_udp_clients.map TUNSession.pair := by
              rw [h1, h3]
              simp [TUNSession.pair]
            rw [this]
            exact hnodup
          · intro s' hs'
            show s'.m_remote_addr_udp ≠ dev.m_dns_server_endpoint
            have hs'' : s' ∈ clients := hs'
            rw [h3] at hs''
            rcases List.mem_append.mp hs'' with hb | hb
            · exact hdns s' (by rw [h1]; exact List.mem_append_left _ hb)
            · rcases List.mem_cons.mp hb with hb | hb
              · rw [hb]
                exact hdns s (by rw [h1]; simp)
              · exact hdns s' (by rw [h1]; simp [hb])
        · rename_i hoffer
          have hnone := (offer_to_udp_clients_eq_none X l r payload dev.m_udp_clients).mp hoffer
          cases hpr : proxy_by_route dev r.address with
          | ret proxy =>
            rw [hpr] at h
            simp only [Outcome.bind] at h
            split at h
            · cases h
              constructor
              · show (List.map TUNSession.pair (List.eraseIdx _ _)).Nodup
                rw [eraseIdx_append_singleton]
                exact hnodup
              · intro s' hs'
                show s'.m_remote_addr_udp ≠ dev.m_dns_server_endpoint
                have hs'' : s' ∈ List.eraseIdx _ _ := hs'
                rw [eraseIdx_append_singleton] at hs''
                exact hdns s' hs''
            · cases h
              constructor
              · show (List.map TUNSession.pair (dev.m_udp_clients ++ [_])).Nodup
                rw [List.map_append, List.nodup_append]
                refine ⟨hnodup, by simp, ?_⟩
                intro pr hmem1 hmem2
                simp only [List.map_cons, List.map_nil, List.mem_singleton] at hmem2
                obtain ⟨s', hs', hpair⟩ := List.mem_map.mp hmem1
                have hfalse := hnone s' hs'
                have htrue : X.try_to_process_udp s' l r payload = true := by
                  rw [hacc]
                  rw [hmem2] at hpair
                  simp only [TUNSession.pair, Prod.mk.injEq] at hpair
                  exact hpair
                rw [htrue] at hfalse
                exact absurd hfalse (by decide)
              · intro s' hs'
                show s'.m_remote_addr_udp ≠ dev.m_dns_server_endpoint
                have hs'' : s' ∈ dev.m_udp_clients ++ [_] := hs'
                rcases List.mem_append.mp hs'' with hb | hb
                · exact hdns s' hb
                · simp only [List.mem_singleton] at hb
                  rw [hb]
                  exact fun heq => hnotdns heq.symm
          | thrown w =>
            rw [hpr] at h
            simp [Outcome.bind] at h
          | out_of_fuel =>
            rw [hpr] at h
            simp [Outcome.bind] at h
  · rw [try_to_process_udp_packet_of_not_udp X data dev hg] at h
    cases h
    exact hok

theorem process_datagrams_registry_ok (X : Externals)
    (hacc : ∀ s l r data, X.try_to_process_udp s l r data = true
      ↔ (s.m_local_addr_udp = l ∧ s.m_remote_addr_udp = r))
    (datagrams : List (List Byte)) (dev dev' : TUNDev) (hok : udp_registry_ok dev)
    (h : process_datagrams X datagrams dev = .ret dev') :
    udp_registry_ok dev' := by
  induction datagrams generalizing dev with
  | nil =>
    simp only [process_datagrams, Outcome.ret.injEq] at h
    rw [← h]
    exact hok
  | cons data rest ih =>
    unfold process_datagrams at h
    cases htp : try_to_process_udp_packet X data dev with
    | ret rd =>
      rw [htp] at h
      simp only [Outcome.bind] at h
      exact ih rd.2 (try_to_process_udp_packet_registry_ok X hacc data dev rd.1 rd.2 hok htp) h
    | thrown w =>
      rw [htp] at h
      simp [Outcome.bind] at h
    | out_of_fuel =>
      rw [htp] at h
      simp [Outcome.bind] at h

/-- C8: assuming a session accepts exactly the datagrams whose (local, remote) pair is its
own, from a registry without duplicate pairs (the empty one, say) every sequence of
datagrams handled by `try_to_process_udp_packet` leaves a registry that holds no two
sessions with the same pair; and a validated datagram whose pair is registered is delivered
to the session of that pair, nothing else changes and the registry keeps its length. -/
theorem C8_one_udp_session_per_pair (X : Externals)
    (hacc : ∀ s l r data, X.try_to_process_udp s l r data = true
      ↔ (s.m_local_addr_udp = l ∧ s.m_remote_addr_udp = r))
    (dev : TUNDev) (hinit : udp_registry_ok dev) (datagrams : List (List Byte))
    (dev1 : TUNDev) (hrun : process_datagrams X datagrams dev = .ret dev1) :
    (dev1.m_udp_clients.map TUNSession.pair).Nodup
      ∧ ∀ data l r payload, valid_udp_datagram X data l r payload →
          (l, r) ∈ dev1.m_udp_clients.map TUNSession.pair →
          ∃ before s after, dev1.m_udp_clients = before ++ s :: after
            ∧ s.pair = (l, r)
            ∧ try_to_process_udp_packet X data dev1
                = .ret (1, { dev1 with
                    m_udp_clients := before ++ { s with sent := s.sent ++ [payload] } :: after })
            ∧ (before ++ { s with sent := s.sent ++ [payload] } :: after).length
                = dev1.m_udp_clients.length := by
  have hok1 := process_datagrams_registry_ok X hacc datagrams dev dev1 hinit hrun
  refine ⟨hok1.1, ?_⟩
  intro data l r payload hvalid hmem
  obtain ⟨hv, hl, hp, hval⟩ := hvalid
  obtain ⟨s0, hs0, hpair0⟩ := List.mem_map.mp hmem
  simp only [TUNSession.pair, Prod.mk.injEq] at hpair0
  have hnotdns : ¬ dev1.m_dns_server_endpoint = r := by
    intro heq
    exact hok1.2 s0 hs0 (by rw [hpair0.2, heq])
  cases hoffer : offer_to_udp_clients X l r payload dev1.m_udp_clients with
  | none =>
    have hnone := (offer_to_udp_clients_eq_none X l r payload dev1.m_udp_clients).mp hoffer
    have hfalse := hnone s0 hs0
    have htrue : X.try_to_process_udp s0 l r payload = true := (hacc s0 l r payload).mpr hpair0
    rw [htrue] at hfalse
    exact absurd hfalse (by decide)
  | some clients =>
    obtain ⟨before, s, after, h1, h2, h3⟩ :=
      offer_to_udp_clients_eq_some X l r payload dev1.m_udp_clients clients hoffer
    refine ⟨before, s, after, h1, ?_, ?_, ?_⟩
    · have := (hacc s l r payload).mp h2
      simp [TUNSession.pair, this.1, this.2]
    · rw [try_to_process_udp_packet_of_udp X data dev1 hv hl hp, hval]
      simp only [hnotdns, if_false, hoffer, h3]
    · rw [h1]
      simp

/-- Witness of C8: the datagram to 8.8.8.8:53 handled twice from the empty registry; the
second one reuses the session the first one created. -/
theorem C8_one_udp_session_per_pair_witness :
    (∀ s l r data, example_externals.try_to_process_udp s l r data = true
        ↔ (s.m_local_addr_udp = l ∧ s.m_remote_addr_udp = r))
      ∧ udp_registry_ok example_dev
      ∧ process_datagrams example_externals [udp_datagram, udp_datagram] example_dev
          = .ret after_two_datagrams
      ∧ ((after_two_datagrams.m_udp_clients.map TUNSession.pair).Nodup
          ∧ ∀ data l r payload, valid_udp_datagram example_externals data l r payload →
              (l, r) ∈ after_two_datagrams.m_udp_clients.map TUNSession.pair →
              ∃ before s after, after_two_datagrams.m_udp_clients = before ++ s :: after
                ∧ s.pair = (l, r)
                ∧ try_to_process_udp_packet example_externals data after_two_datagrams
                    = .ret (1, { after_two_datagrams with
                        m_udp_clients :=
                          before ++ { s with sent := s.sent ++ [payload] } :: after })
                ∧ (before ++ { s with sent := s.sent ++ [payload] } :: after).length
                    = after_two_datagrams.m_udp_clients.length) :=
  have hacc : ∀ s l r data, example_externals.try_to_process_udp s l r data = true
      ↔ (s.m_local_addr_udp = l ∧ s.m_remote_addr_udp = r) := by
    intro s l r data
    simp [example_externals, Externals.modelled]
  have hinit : udp_registry_ok example_dev :=
    ⟨List.nodup_nil, fun s hs => absurd hs (List.not_mem_nil s)⟩
  ⟨hacc, hinit, rfl,
    C8_one_udp_session_per_pair example_externals hacc example_dev hinit
      [udp_datagram, udp_datagram] after_two_datagrams rfl⟩

/-- Witness of C9: the datagram of the examples to the DNS endpoint 10.0.0.1:53. -/
theorem C9_dns_detour_creates_no_session_witness :
    valid_udp_datagram example_externals dns_query ⟨0x0A000002, 4000⟩ ⟨0x0A000001, 53⟩
        [1, 2, 3]
      ∧ (⟨0x0A000001, 53⟩ : Endpoint) = example_dev.m_dns_server_endpoint
      ∧ (try_to_process_udp_packet example_externals dns_query example_dev
            = .ret (1, { example_dev with
                dns_recved := example_dev.dns_recved ++ [(⟨0x0A000002, 4000⟩, [1, 2, 3])] })
          ∧ ∀ r dev', try_to_process_udp_packet example_externals dns_query example_dev
                = .ret (r, dev') →
              r = 1 ∧ dev'.m_udp_clients = example_dev.m_udp_clients
                ∧ dev'.dns_recved
                    = example_dev.dns_recved ++ [(⟨0x0A000002, 4000⟩, [1, 2, 3])]) :=
  ⟨⟨by decide, by decide, by decide, by decide⟩, rfl,
    C9_dns_detour_creates_no_session example_externals dns_query example_dev
      ⟨0x0A000002, 4000⟩ ⟨0x0A000001, 53⟩ [1, 2, 3]
      ⟨by decide, by decide, by decide, by decide⟩ rfl⟩

/-! ## UDP synthesis -/

/-- The flush changes the fill buffer and the trace of device writes, nothing else. -/
theorem write_to_tun_frame (dev : TUNDev) :
    write_to_tun dev =
      { dev with
        m_write_fill_buf := (write_to_tun dev).m_write_fill_buf
        sd_writes := (write_to_tun dev).sd_writes } := by
  unfold write_to_tun
  split
  · rfl
  · exact write_to_tun_loop_induction
      (fun d d' =>
        d' = { d with m_write_fill_buf := d'.m_write_fill_buf, sd_writes := d'.sd_writes })
      (fun d _ => rfl)
      (fun d _ ih => by
        rw [ih]
        rfl) dev

theorem write_to_tun_committed (dev : TUNDev) : (write_to_tun dev).committed = dev.committed := by
  rw [write_to_tun_frame]

theorem write_to_tun_m_mtu (dev : TUNDev) : (write_to_tun dev).m_mtu = dev.m_mtu := by
  rw [write_to_tun_frame]

theorem ipv4_header_bytes_length (h : ipv4_header) : h.bytes.length = 20 := by
  simp [ipv4_header.bytes, be16, be32]

theorem udp_header_bytes_length (h : udp_header) : h.bytes.length = 8 := by
  simp [udp_header.bytes, be16]

/-- What follows the 28 bytes of headers in a composed packet is the payload. -/
theorem compose_udp_packet_drop (X : Externals) (l r : Endpoint) (data : List Byte) (n : Nat) :
    (compose_udp_packet X l r data n).drop 28 = data.take n := by
  unfold compose_udp_packet
  simp only
  apply List.drop_left'
  simp [ipv4_header_bytes_length, udp_header_bytes_length]

theorem compose_udp_packet_version (X : Externals) (l r : Endpoint) (data : List Byte) (n : Nat) :
    version_nibble (compose_udp_packet X l r data n) = IPV4
      ∧ protocol_byte (compose_udp_packet X l r data n) = IPV4_PROTOCOL_UDP := by
  constructor
  · simp [compose_udp_packet, version_nibble, ipv4_header.bytes, be16, be32, udp_header.bytes,
      IPV4_MAKE_VERSION_IHL, sizeof_ipv4_header, byte, half_byte_shift_4_bits,
      half_byte_mask_0xF, IPV4]
    rfl
  · simp [compose_udp_packet, protocol_byte, ipv4_header.bytes, be16, be32, udp_header.bytes,
      offsetof_ipv4_protocol, IPV4_PROTOCOL_UDP, byte]
    rfl

/-- One round of `handle_write_upd_data` on a non-empty payload, for an MTU of at least 29:
a packet with the first `capacity` bytes is committed and flushed, and the method recurses
on what is left, if anything. -/
theorem handle_write_upd_data_round (X : Externals) (fuel : Nat) (l r : Endpoint)
    (payload : List Byte) (dev : TUNDev) (hne : payload ≠ []) (hmtu : 29 ≤ dev.m_mtu) :
    handle_write_upd_data X (fuel + 1) l r payload dev =
      let n := min payload.length (min 65535 dev.m_mtu - 28)
      let packet := compose_udp_packet X l r payload n
      let dev1 := write_to_tun
        { dev with
          m_write_fill_buf := dev.m_write_fill_buf ++ packet
          committed := dev.committed ++ [packet] }
      if (payload.drop n).length > 0 then
        (handle_write_upd_data X fuel l r (payload.drop n) dev1).bind fun res => .ret (0, res.2)
      else .ret (0, dev1) := by
  have hlen : payload.length ≠ 0 := fun h => hne (List.length_eq_zero.mp h)
  have hcap : u16 (min 65535 dev.m_mtu + 65536 - u16 (sizeof_ipv4_header + sizeof_udp_header))
      = min 65535 dev.m_mtu - 28 := by
    simp only [u16, sizeof_ipv4_header, sizeof_udp_header]
    omega
  have hn : (if payload.length > min 65535 dev.m_mtu - 28 then min 65535 dev.m_mtu - 28
      else payload.length) = min payload.length (min 65535 dev.m_mtu - 28) := by
    split <;> omega
  conv_lhs => unfold handle_write_upd_data
  simp only [hlen, if_false, hcap, hn]

/-- What `handle_write_upd_data` emits, for every payload: with an MTU of at least 29 and
`capacity = min(65535, MTU) - 28`, the call returns 0 once the bound on the recursion
exceeds the length of the payload, and commits `ceil(len / capacity)` packets, each an
IPv4 packet with protocol byte UDP carrying at most `capacity` bytes after its 28 bytes of
headers, whose payloads concatenated in order are the payload given. -/
theorem handle_write_upd_data_emits (X : Externals) (l r : Endpoint) (payload : List Byte) :
    ∀ (fuel : Nat) (dev : TUNDev), 29 ≤ dev.m_mtu → payload.length < fuel →
      ∃ dev' packets,
        handle_write_upd_data X fuel l r payload dev = .ret (0, dev')
          ∧ dev'.m_mtu = dev.m_mtu
          ∧ dev'.committed = dev.committed ++ packets
          ∧ packets.length
              = (payload.length + (min 65535 dev.m_mtu - 28) - 1) / (min 65535 dev.m_mtu - 28)
          ∧ (packets.map (List.drop 28)).flatten = payload
          ∧ ∀ p ∈ packets, version_nibble p = IPV4 ∧ protocol_byte p = IPV4_PROTOCOL_UDP
              ∧ p.length ≤ 28 + (min 65535 dev.m_mtu - 28) := by
  generalize hn : payload.length = n
  induction n using Nat.strong_induction_on generalizing payload with
  | _ n ih =>
    intro fuel dev hmtu hfuel
    obtain ⟨fuel, rfl⟩ : ∃ f, fuel = f + 1 := ⟨fuel - 1, by omega⟩
    have hcap : 0 < min 65535 dev.m_mtu - 28 := by omega
    by_cases hne : payload = []
    · subst hne
      simp only [List.length_nil] at hn
      subst hn
      refine ⟨dev, [], by simp [handle_write_upd_data], rfl, by simp, ?_, by simp, by simp⟩
      simp only [List.length_nil, Nat.zero_add]
      exact (Nat.div_eq_of_lt (by omega)).symm
    · rw [handle_write_upd_data_round X fuel l r payload dev hne hmtu]
      have hpos : 0 < payload.length := List.length_pos.mpr hne
      simp only
      set cap := min 65535 dev.m_mtu - 28 with hcapdef
      set k := min payload.length cap with hk
      set packet := compose_udp_packet X l r payload k with hpacket
      set dev1 := write_to_tun
        { dev with
          m_write_fill_buf := dev.m_write_fill_buf ++ packet
          committed := dev.committed ++ [packet] } with hdev1
      have hmtu1 : dev1.m_mtu = dev.m_mtu := by rw [hdev1, write_to_tun_m_mtu]
      have hcom1 : dev1.committed = dev.committed ++ [packet] := by
        rw [hdev1, write_to_tun_committed]
      have hpk : version_nibble packet = IPV4 ∧ protocol_byte packet = IPV4_PROTOCOL_UDP
          ∧ packet.length ≤ 28 + cap := by
        refine ⟨(compose_udp_packet_version X l r payload k).1,
          (compose_udp_packet_version X l r payload k).2, ?_⟩
        have h1 : packet.length = 28 + (payload.take k).length := by
          rw [hpacket]
          unfold compose_udp_packet
          simp [ipv4_header_bytes_length, udp_header_bytes_length]
          omega
        rw [h1, List.length_take]
        omega
      by_cases hrest : (payload.drop k).length > 0
      · rw [if_pos hrest]
        have hlen_rest : (payload.drop k).length = payload.length - cap := by
          rw [List.length_drop] at hrest ⊢
          omega
        have hgt : cap < payload.length := by
          rw [List.length_drop] at hrest
          omega
        have hkcap : k = cap := by omega
        obtain ⟨dev', packets, hrun, hm, hc, hcount, hjoin, hall⟩ :=
          ih (payload.drop k).length (by rw [hlen_rest]; omega) (payload.drop k) rfl fuel dev1
            (by omega) (by rw [hlen_rest]; omega)
        refine ⟨dev', packet :: packets, by rw [hrun]; rfl, by rw [hm, hmtu1],
          by rw [hc, hcom1]; simp, ?_, ?_, ?_⟩
        · rw [List.length_cons, hcount, hmtu1, hlen_rest, ← hn]
          have : payload.length + cap - 1 = (payload.length - cap + cap - 1) + cap := by omega
          rw [this, Nat.add_div_right _ hcap]
        · rw [List.map_cons, List.flatten_cons, hjoin, hpacket, compose_udp_packet_drop,
            List.take_append_drop]
        · intro p hp
          rcases List.mem_cons.mp hp with hp | hp
          · rw [hp]
            exact hpk
          · have := hall p hp
            rw [hmtu1] at this
            exact this
      · rw [if_neg hrest]
        have hle : payload.length ≤ cap := by
          rw [List.length_drop] at hrest
          omega
        have hkl : k = payload.length := by omega
        refine ⟨dev1, [packet], rfl, hmtu1, hcom1, ?_, ?_, ?_⟩
        · rw [List.length_singleton, ← hn]
          exact (Nat.div_eq_of_lt_le (by omega) (by omega)).symm
        · simp only [List.map_cons, List.map_nil, List.flatten_cons, List.flatten_nil,
            List.append_nil]
          rw [hpacket, compose_udp_packet_drop, hkl, List.take_length]
        · intro p hp
          simp only [List.mem_singleton] at hp
          rw [hp]
          exact hpk

/-! ## Round trip of synthesis and validation -/

theorem byte_mod (n : Nat) : byte (n % 256) = byte n := by
  simp [byte]

theorem be16_mod (n : Nat) : be16 (n % 65536) = be16 n := by
  simp only [be16, byte, List.cons.injEq, Fin.mk.injEq, and_true]
  constructor <;> omega

theorem be32_mod (n : Nat) : be32 (n % 4294967296) = be32 n := by
  simp only [be32, byte, List.cons.injEq, Fin.mk.injEq, and_true]
  refine ⟨?_, ?_, ?_, ?_⟩ <;> omega

/-- Reading back a header laid out in memory gives its fields, each reduced to its width. -/
theorem read_ipv4_header_bytes (h : ipv4_header) (rest : List Byte) :
    read_ipv4_header (h.bytes ++ rest) =
      { version4_ihl4 := h.version4_ihl4 % 256
        ds := h.ds % 256
        total_length := h.total_length % 65536
        identification := h.identification % 65536
        flags3_fragmentoffset13 := h.flags3_fragmentoffset13 % 65536
        ttl := h.ttl % 256
        protocol := h.protocol % 256
        checksum := h.checksum % 65536
        source_address := h.source_address % 4294967296
        destination_address := h.destination_address % 4294967296 } := by
  simp only [read_ipv4_header, ipv4_header.bytes, be16, be32, read_be16, read_be32, byte,
    List.cons_append, List.nil_append, List.getD_cons_zero, List.getD_cons_succ,
    ipv4_header.mk.injEq]
  refine ⟨?_, ?_, ?_, ?_, ?_, ?_, ?_, ?_, ?_, ?_⟩ <;> first | trivial | omega

theorem read_udp_header_bytes (h : udp_header) (rest : List Byte) :
    read_udp_header (h.bytes ++ rest) =
      { source_port := h.source_port % 65536
        dest_port := h.dest_port % 65536
        length := h.length % 65536
        checksum := h.checksum % 65536 } := by
  simp only [read_udp_header, udp_header.bytes, be16, read_be16, byte,
    List.cons_append, List.nil_append, List.getD_cons_zero, List.getD_cons_succ,
    udp_header.mk.injEq]
  refine ⟨?_, ?_, ?_, ?_⟩ <;> omega

/-- The bytes of a header depend on its fields reduced to their widths only. -/
theorem ipv4_header_bytes_reduced (h : ipv4_header) :
    ipv4_header.bytes
        { version4_ihl4 := h.version4_ihl4 % 256
          ds := h.ds % 256
          total_length := h.total_length % 65536
          identification := h.identification % 65536
          flags3_fragmentoffset13 := h.flags3_fragmentoffset13 % 65536
          ttl := h.ttl % 256
          protocol := h.protocol % 256
          checksum := 0
          source_address := h.source_address % 4294967296
          destination_address := h.destination_address % 4294967296 }
      = ipv4_header.bytes { h with checksum := 0 } := by
  simp only [ipv4_header.bytes, byte_mod, be16_mod, be32_mod]

set_option maxRecDepth 8000 in
/-- The modelled IPv4 check accepts a header of 20 bytes, version 4, laid out in memory in
front of `rest`, when its total length lies between 20 and the size of the data and its
checksum field is the checksum of the header with the field zeroed. -/
theorem ipv4_check_bytes (h : ipv4_header) (rest : List Byte)
    (hver : h.version4_ihl4 % 256 = 69)
    (htl1 : 20 ≤ h.total_length % 65536) (htl2 : h.total_length % 65536 ≤ 20 + rest.length)
    (hck : h.checksum % 65536 = ipv4_checksum { h with checksum := 0 }) :
    ipv4_check (h.bytes ++ rest)
      = some (read_ipv4_header (h.bytes ++ rest), rest.take (h.total_length % 65536 - 20)) := by
  have hlen : (h.bytes ++ rest).length = 20 + rest.length := by
    rw [List.length_append, ipv4_header_bytes_length]
  have hbytes := ipv4_header_bytes_reduced h
  rw [hver] at hbytes
  have hdrop : (h.bytes ++ rest).drop 20 = rest :=
    List.drop_left' (ipv4_header_bytes_length h)
  unfold ipv4_check
  rw [read_ipv4_header_bytes, hlen]
  simp only [sizeof_ipv4_header, hver, Nat.reduceDiv, Nat.reduceMod, Nat.reduceMul, ne_eq,
    not_true_eq_false, if_false, Nat.lt_irrefl]
  have h1 : ¬ 20 + rest.length < 20 := by omega
  have h4 : ¬ 20 > 20 + rest.length := by omega
  have h5 : ¬ h.total_length % 65536 < 20 := by omega
  have h6 : ¬ h.total_length % 65536 > 20 + rest.length := by omega
  have h9 : sum_be16 [] = 0 := rfl
  simp only [h1, h4, h5, h6, if_false, hbytes, hdrop, Nat.sub_self, List.take_zero, h9,
    Nat.add_zero]
  have h8 : ¬ (h.checksum % 65536
      ≠ 65535 - fold_carries (sum_be16 ({ h with checksum := 0 } : ipv4_header).bytes) % 65536) := by
    rw [hck]
    simp [ipv4_checksum]
  rw [if_neg h8]

/-- The modelled UDP check accepts a header laid out in memory in front of `rest` when its
length field lies between 8 and the size of the data. -/
theorem udp_check_bytes (u : udp_header) (rest : List Byte)
    (hlen1 : 8 ≤ u.length % 65536) (hlen2 : u.length % 65536 ≤ 8 + rest.length) :
    udp_check (u.bytes ++ rest)
      = some (read_udp_header (u.bytes ++ rest), rest.take (u.length % 65536 - 8)) := by
  have hlen : (u.bytes ++ rest).length = 8 + rest.length := by
    rw [List.length_append, udp_header_bytes_length]
  have hdrop : (u.bytes ++ rest).drop 8 = rest :=
    List.drop_left' (udp_header_bytes_length u)
  unfold udp_check
  rw [read_udp_header_bytes, hlen]
  simp only [sizeof_udp_header]
  have h1 : ¬ 8 + rest.length < 8 := by omega
  have h2 : ¬ u.length % 65536 < 8 := by omega
  have h3 : ¬ u.length % 65536 > 8 + rest.length := by omega
  simp only [h1, h2, h3, if_false, hdrop]

/-- The packet composed for a payload that fits one packet passes the three checks of
`try_to_process_udp_packet` and is decoded with the remote endpoint as source, the local
endpoint as destination and the payload given. -/
theorem validate_udp_compose (X : Externals) (l r : Endpoint) (hl : l.valid) (hr : r.valid)
    (payload : List Byte) (hlen : payload.length + 28 ≤ 65535) :
    validate_udp X.modelled (compose_udp_packet X.modelled l r payload payload.length)
      = some (r, l, payload) := by
  obtain ⟨hla, hlp⟩ := hl
  obtain ⟨hra, hrp⟩ := hr
  have hu16 : u16 payload.length = payload.length := by
    unfold u16
    omega
  have htake : payload.take payload.length = payload := List.take_length payload
  unfold compose_udp_packet validate_udp
  simp only [Externals.modelled, hu16, htake, List.append_assoc]
  rw [ipv4_check_bytes _ _ (by simp [IPV4_MAKE_VERSION_IHL, sizeof_ipv4_header])
    (by simp only [u16, sizeof_ipv4_header, sizeof_udp_header]; omega)
    (by
      simp only [u16, sizeof_ipv4_header, sizeof_udp_header, List.length_append,
        udp_header_bytes_length]
      omega)
    (by simp only [u16, ipv4_checksum]; omega)]
  simp only
  have htl : u16 (sizeof_ipv4_header + sizeof_udp_header + payload.length) % 65536 - 20
      = 8 + payload.length := by
    simp only [u16, sizeof_ipv4_header, sizeof_udp_header]
    omega
  rw [htl, List.take_of_length_le (by
    rw [List.length_append, udp_header_bytes_length])]
  rw [udp_check_bytes _ _ (by simp only [u16, sizeof_udp_header]; omega)
    (by simp only [u16, sizeof_udp_header]; omega)]
  simp only
  have hul : u16 (sizeof_udp_header + payload.length) % 65536 - 8 = payload.length := by
    simp only [u16, sizeof_udp_header]
    omega
  rw [hul, htake, read_udp_header_bytes, read_ipv4_header_bytes]
  simp only
  have e1 : r.port % 65536 = r.port := Nat.mod_eq_of_lt hrp
  have e2 : l.port % 65536 = l.port := Nat.mod_eq_of_lt hlp
  have e3 : r.address % 4294967296 = r.address := Nat.mod_eq_of_lt hra
  have e4 : l.address % 4294967296 = l.address := Nat.mod_eq_of_lt hla
  have e5 : u16 (sizeof_udp_header + payload.length) % 65536
      = u16 (sizeof_udp_header + payload.length) := by
    simp only [u16]
    omega
  simp only [e1, e2, e3, e4, e5]
  have e6 : ∀ x, u16 x % 65536 = u16 x := by
    intro x
    simp only [u16]
    omega
  rw [e6, if_neg (by simp)]

/-- C2: for every pair of IPv4 endpoints, every MTU of at least 29 and every non-empty
payload of at most `min(65535, MTU) - 28` bytes, `handle_write_upd_data` returns after
committing a single packet to the fill buffer, and this packet is an IPv4 packet with
protocol byte UDP that passes the IPv4 header check, the UDP header check and the UDP
checksum comparison of `try_to_process_udp_packet`, decoded there with source endpoint
`remote`, destination endpoint `local` and the payload given. The header checks and the
checksums are the modelled ones. -/
theorem C2_udp_synthesis_round_trip (X : Externals) (local_endpoint remote_endpoint : Endpoint)
    (hl : local_endpoint.valid) (hr : remote_endpoint.valid) (dev : TUNDev)
    (hmtu : 29 ≤ dev.m_mtu) (payload : List Byte) (hne : payload ≠ [])
    (hlen : payload.length ≤ min 65535 dev.m_mtu - 28) (fuel : Nat) :
    ∃ packet dev',
      handle_write_upd_data X.modelled (fuel + 1) local_endpoint remote_endpoint payload dev
          = .ret (0, dev')
        ∧ dev'.committed = dev.committed ++ [packet]
        ∧ valid_udp_datagram X.modelled packet remote_endpoint local_endpoint payload := by
  have hmin : min payload.length (min 65535 dev.m_mtu - 28) = payload.length := by omega
  have hrun := handle_write_upd_data_round X.modelled fuel local_endpoint remote_endpoint
    payload dev hne hmtu
  simp only [hmin, List.drop_length, List.length_nil, gt_iff_lt, lt_self_iff_false,
    if_false] at hrun
  refine ⟨compose_udp_packet X.modelled local_endpoint remote_endpoint payload payload.length,
    _, hrun, ?_, ?_⟩
  · rw [write_to_tun_committed]
  · refine ⟨(compose_udp_packet_version _ _ _ _ _).1, ?_,
      (compose_udp_packet_version _ _ _ _ _).2,
      validate_udp_compose X local_endpoint remote_endpoint hl hr payload (by omega)⟩
    unfold compose_udp_packet
    simp [ipv4_header_bytes_length, udp_header_bytes_length, sizeof_ipv4_header]

/-- Witness of C2: on the example device, a payload of five bytes from 8.8.8.8:53 back to
10.0.0.2:4000. -/
theorem C2_udp_synthesis_round_trip_witness :
    (⟨0x0A000002, 4000⟩ : Endpoint).valid ∧ (⟨0x08080808, 53⟩ : Endpoint).valid
      ∧ 29 ≤ example_dev.m_mtu ∧ ([1, 2, 3, 4, 5] : List Byte) ≠ []
      ∧ ([1, 2, 3, 4, 5] : List Byte).length ≤ min 65535 example_dev.m_mtu - 28
      ∧ ∃ packet dev',
          handle_write_upd_data example_externals.modelled (0 + 1) ⟨0x0A000002, 4000⟩
              ⟨0x08080808, 53⟩ [1, 2, 3, 4, 5] example_dev = .ret (0, dev')
            ∧ dev'.committed = example_dev.committed ++ [packet]
            ∧ valid_udp_datagram example_externals.modelled packet ⟨0x08080808, 53⟩
                ⟨0x0A000002, 4000⟩ [1, 2, 3, 4, 5] :=
  ⟨by decide, by decide, by decide, by decide, by decide,
    C2_udp_synthesis_round_trip example_externals ⟨0x0A000002, 4000⟩ ⟨0x08080808, 53⟩
      (by decide) (by decide) example_dev (by decide) [1, 2, 3, 4, 5] (by decide) (by decide) 0⟩

/-- C3: with `capacity = min(65535, MTU) - 28` positive, for every payload, and so for
every payload longer than `capacity`, `handle_write_upd_data` returns, once the bound on the
recursion exceeds the length of the payload, after committing exactly
`ceil(len / capacity)` packets, each an IPv4 packet with protocol byte UDP, and the UDP
payloads of these packets (what follows the 28 bytes of headers), concatenated in emission
order, are the payload given. -/
theorem C3_oversized_payload_is_split (X : Externals) (local_endpoint remote_endpoint : Endpoint)
    (dev : TUNDev) (hcap : 0 < min 65535 dev.m_mtu - 28) (payload : List Byte) (fuel : Nat)
    (hfuel : payload.length < fuel) :
    ∃ dev' packets,
      handle_write_upd_data X fuel local_endpoint remote_endpoint payload dev = .ret (0, dev')
        ∧ dev'.committed = dev.committed ++ packets
        ∧ packets.length
            = (payload.length + (min 65535 dev.m_mtu - 28) - 1) / (min 65535 dev.m_mtu - 28)
        ∧ (packets.map (List.drop 28)).flatten = payload
        ∧ ∀ p ∈ packets, version_nibble p = IPV4 ∧ protocol_byte p = IPV4_PROTOCOL_UDP := by
  obtain ⟨dev', packets, h1, _, h3, h4, h5, h6⟩ :=
    handle_write_upd_data_emits X local_endpoint remote_endpoint payload fuel dev (by omega)
      hfuel
  exact ⟨dev', packets, h1, h3, h4, h5, fun p hp => ⟨(h6 p hp).1, (h6 p hp).2.1⟩⟩

/-- Witness of C3: MTU 30, so a capacity of two bytes, and a payload of five bytes: three
packets. -/
theorem C3_oversized_payload_is_split_witness :
    0 < min 65535 small_mtu_dev.m_mtu - 28
      ∧ min 65535 small_mtu_dev.m_mtu - 28 < ([1, 2, 3, 4, 5] : List Byte).length
      ∧ ([1, 2, 3, 4, 5] : List Byte).length < 6
      ∧ ∃ dev' packets,
          handle_write_upd_data example_externals 6 ⟨0x0A000002, 4000⟩ ⟨0x08080808, 53⟩
              [1, 2, 3, 4, 5] small_mtu_dev = .ret (0, dev')
            ∧ dev'.committed = small_mtu_dev.committed ++ packets
            ∧ packets.length
                = (([1, 2, 3, 4, 5] : List Byte).length + (min 65535 small_mtu_dev.m_mtu - 28) - 1)
                    / (min 65535 small_mtu_dev.m_mtu - 28)
            ∧ (packets.map (List.drop 28)).flatten = [1, 2, 3, 4, 5]
            ∧ ∀ p ∈ packets, version_nibble p = IPV4 ∧ protocol_byte p = IPV4_PROTOCOL_UDP :=
  ⟨by decide, by decide, by decide,
    C3_oversized_payload_is_split example_externals ⟨0x0A000002, 4000⟩ ⟨0x08080808, 53⟩
      small_mtu_dev (by decide) [1, 2, 3, 4, 5] 6 (by decide)⟩

/-! ## Reassembler -/

/-- The method `parse_packet` is the iteration of `parse_packet_round`. -/
theorem parse_packet_eq_round (X : Externals) (fuel : Nat) (dev : TUNDev) :
    parse_packet X (fuel + 1) dev =
      match parse_packet_round X dev with
      | .inl outcome => outcome
      | .inr dev' => parse_packet X fuel dev' := by
  rw [parse_packet_succ]
  unfold parse_packet_round
  by_cases h1 : dev.m_packet_parse_buff.isEmpty = true
  · simp only [h1, if_true]
  · simp only [h1, Bool.false_eq_true, if_false]
    by_cases h2 : (((dev.m_packet_parse_buff.getD 0 0).val >>> half_byte_shift_4_bits)
        &&& half_byte_mask_0xF) = IPV4
        ∨ (((dev.m_packet_parse_buff.getD 0 0).val >>> half_byte_shift_4_bits)
        &&& half_byte_mask_0xF) = IPV6
    · simp only [h2, if_true]
      cases packet_total_length _ dev.m_packet_parse_buff with
      | none => rfl
      | some total_length =>
        simp only
        by_cases h4 : total_length ≤ dev.m_packet_parse_buff.length
        · simp only [h4, if_true]
          cases try_to_process_udp_packet X _ _ with
          | ret rd =>
            obtain ⟨r, d⟩ := rd
            simp only [Outcome.bind]
            by_cases h6 : dev.m_packet_parse_buff.length = total_length
            · simp only [h6, if_true]
            · simp only [h6, if_false]
          | thrown w => rfl
          | out_of_fuel => rfl
        · simp only [h4, if_false]
    · simp only [h2, if_false]

/-- More fuel does not change the result of a run of `parse_packet` that returns. -/
theorem parse_packet_fuel_succ (X : Externals) (fuel : Nat) (dev dev' : TUNDev)
    (h : parse_packet X fuel dev = .ret dev') : parse_packet X (fuel + 1) dev = .ret dev' := by
  induction fuel generalizing dev with
  | zero => simp [parse_packet] at h
  | succ fuel ih =>
    rw [parse_packet_eq_round] at h ⊢
    cases hr : parse_packet_round X dev with
    | inl o =>
      rw [hr] at h
      exact h
    | inr d =>
      rw [hr] at h
      exact ih d h

/-- The bytes in the accumulator play no part in `try_to_process_udp_packet`. -/
theorem try_to_process_udp_packet_buff (X : Externals) (data : List Byte) (dev : TUNDev)
    (buff : List Byte) :
    try_to_process_udp_packet X data { dev with m_packet_parse_buff := buff } =
      (try_to_process_udp_packet X data dev).bind fun res =>
        .ret (res.1, { res.2 with m_packet_parse_buff := buff }) := by
  by_cases hg : version_nibble data = IPV4 ∧ sizeof_ipv4_header ≤ data.length
      ∧ protocol_byte data = IPV4_PROTOCOL_UDP
  · obtain ⟨hv, hl, hp⟩ := hg
    rw [try_to_process_udp_packet_of_udp X data _ hv hl hp,
      try_to_process_udp_packet_of_udp X data dev hv hl hp]
    split
    · rfl
    · simp only
      split
      · rfl
      · split
        · rfl
        · have hpr : proxy_by_route { dev with m_packet_parse_buff := buff } =
              proxy_by_route dev := rfl
          rw [hpr]
          cases proxy_by_route dev _ with
          | ret proxy =>
            simp only [Outcome.bind]
            split <;> rfl
          | thrown w => rfl
          | out_of_fuel => rfl
  · rw [try_to_process_udp_packet_of_not_udp X data _ hg,
      try_to_process_udp_packet_of_not_udp X data dev hg]
    rfl

/-- A round of `parse_packet` by the head of the accumulator. -/
theorem parse_packet_round_eq_head (X : Externals) (dev : TUNDev) :
    parse_packet_round X dev =
      match head_of dev.m_packet_parse_buff with
      | .empty => .inl (.ret dev)
      | .unknown_version => .inl (.ret { dev with m_packet_parse_buff := [] })
      | .incomplete => .inl (.ret dev)
      | .packet total_length =>
        match try_to_process_udp_packet X (dev.m_packet_parse_buff.take total_length)
            { dev with
              dispatched := dev.dispatched ++ [dev.m_packet_parse_buff.take total_length] } with
        | .ret (result, dev1) =>
          let dev2 :=
            if result = 0 then
              input_netif_packet (dev.m_packet_parse_buff.take total_length) dev1
            else dev1
          if dev.m_packet_parse_buff.length = total_length then
            .inl (.ret { dev2 with m_packet_parse_buff := [] })
          else
            .inr { dev2 with m_packet_parse_buff := dev2.m_packet_parse_buff.drop total_length }
        | .thrown what => .inl (.thrown what)
        | .out_of_fuel => .inl .out_of_fuel := by
  unfold parse_packet_round head_of
  by_cases h1 : dev.m_packet_parse_buff.isEmpty = true
  · simp only [h1, if_true]
  · simp only [h1, Bool.false_eq_true, if_false]
    by_cases h2 : (((dev.m_packet_parse_buff.getD 0 0).val >>> half_byte_shift_4_bits)
        &&& half_byte_mask_0xF) = IPV4
        ∨ (((dev.m_packet_parse_buff.getD 0 0).val >>> half_byte_shift_4_bits)
        &&& half_byte_mask_0xF) = IPV6
    · simp only [h2, if_true]
      cases packet_total_length _ dev.m_packet_parse_buff with
      | none => rfl
      | some total_length =>
        simp only
        by_cases h4 : total_length ≤ dev.m_packet_parse_buff.length
        · simp only [h4, if_true]
        · simp only [h4, if_false]
    · simp only [h2, if_false]

/-- The discard test by the head of the accumulator. -/
theorem discards_unknown_version_succ (fuel : Nat) (data : List Byte) :
    discards_unknown_version (fuel + 1) data =
      match head_of data with
      | .empty => false
      | .unknown_version => true
      | .incomplete => false
      | .packet total_length =>
        if data.length = total_length then false
        else discards_unknown_version fuel (data.drop total_length) := by
  conv_lhs => unfold discards_unknown_version
  unfold head_of
  by_cases h1 : data.isEmpty = true
  · simp only [h1, if_true]
  · simp only [h1, Bool.false_eq_true, if_false]
    by_cases h2 : (((data.getD 0 0).val >>> half_byte_shift_4_bits)
        &&& half_byte_mask_0xF) = IPV4
        ∨ (((data.getD 0 0).val >>> half_byte_shift_4_bits)
        &&& half_byte_mask_0xF) = IPV6
    · simp only [h2, if_true]
      cases packet_total_length _ data with
      | none => rfl
      | some total_length =>
        simp only
        by_cases h4 : total_length ≤ data.length
        · simp only [h4, if_true]
        · simp only [h4, if_false]
    · simp only [h2, if_false]

theorem packet_total_length_append (v : Nat) (data more : List Byte) (tl : Nat)
    (h : packet_total_length v data = some tl) :
    packet_total_length v (data ++ more) = some tl := by
  unfold packet_total_length at h ⊢
  by_cases hv : v = IPV4
  · simp only [hv, if_true] at h ⊢
    by_cases hl : data.length < sizeof_ipv4_header
    · simp [hl] at h
    · have hl' : ¬ (data ++ more).length < sizeof_ipv4_header := by
        rw [List.length_append]
        omega
      simp only [hl, hl', if_false, Option.some.injEq] at h ⊢
      rw [← h]
      unfold read_ipv4_header
      simp only
      unfold sizeof_ipv4_header at hl
      exact read_be16_append_left data more 2 (by omega)
  · simp only [hv, if_false] at h ⊢
    by_cases hl : data.length < sizeof_ipv6_header
    · simp [hl] at h
    · have hl' : ¬ (data ++ more).length < sizeof_ipv6_header := by
        rw [List.length_append]
        omega
      simp only [hl, hl', if_false, Option.some.injEq] at h ⊢
      rw [← h]
      unfold sizeof_ipv6_header at hl
      rw [read_be16_append_left data more 4 (by omega)]

/-- Appending bytes to the accumulator keeps a head that is decided: an unknown version
stays one, a complete packet stays the same packet. -/
theorem head_of_append (data more : List Byte) :
    (head_of data = .empty → data = [])
      ∧ (head_of data = .unknown_version → head_of (data ++ more) = .unknown_version)
      ∧ ∀ tl, head_of data = .packet tl →
          head_of (data ++ more) = .packet tl ∧ tl ≤ data.length := by
  unfold head_of
  by_cases h1 : data.isEmpty = true
  · simp only [h1, if_true, true_implies, reduceCtorEq, false_implies, implies_true, and_true]
    exact List.isEmpty_iff.mp h1
  · have hne : data ≠ [] := fun h => h1 (by rw [h]; rfl)
    have hpos : 0 < data.length := List.length_pos.mpr hne
    have h1' : ¬ (data ++ more).isEmpty = true := by
      intro h
      have := List.isEmpty_iff.mp h
      simp at this
      exact hne this.1
    have hget : (data ++ more).getD 0 0 = data.getD 0 0 := getD_append_left data more 0 hpos
    simp only [h1, h1', Bool.false_eq_true, if_false, hget]
    by_cases h2 : (((data.getD 0 0).val >>> half_byte_shift_4_bits)
        &&& half_byte_mask_0xF) = IPV4
        ∨ (((data.getD 0 0).val >>> half_byte_shift_4_bits)
        &&& half_byte_mask_0xF) = IPV6
    · simp only [h2, if_true]
      cases hp : packet_total_length _ data with
      | none => simp
      | some total_length =>
        rw [packet_total_length_append _ data more total_length hp]
        simp only
        by_cases h4 : total_length ≤ data.length
        · have h4' : total_length ≤ (data ++ more).length := by
            rw [List.length_append]
            omega
          simp only [h4, h4', if_true, reduceCtorEq, false_implies, true_and,
            Head.packet.injEq]
          intro tl htl
          rw [← htl]
          exact ⟨rfl, h4⟩
        · simp [h4]
    · simp only [h2, if_false, reduceCtorEq, false_implies, implies_true, and_self,
        true_implies]

/-- A run of `parse_packet` on an accumulator followed by more bytes, when it returns and
meets no unknown version, is the run on the accumulator alone followed by the run on what
that left and the further bytes. -/
theorem parse_packet_split (X : Externals) (more : List Byte) :
    ∀ (fuel : Nat) (db dev' : TUNDev),
      parse_packet X fuel { db with m_packet_parse_buff := db.m_packet_parse_buff ++ more }
          = .ret dev' →
      (∀ n, discards_unknown_version n (db.m_packet_parse_buff ++ more) = false) →
      ∃ dev1, parse_packet X fuel db = .ret dev1
        ∧ parse_packet X fuel
            { dev1 with m_packet_parse_buff := dev1.m_packet_parse_buff ++ more } = .ret dev'
        ∧ ∀ n, discards_unknown_version n (dev1.m_packet_parse_buff ++ more) = false := by
  intro fuel
  induction fuel with
  | zero =>
    intro db dev' h
    simp [parse_packet] at h
  | succ fuel ih =>
    intro db dev' h hd
    obtain ⟨_, hunk, hpkt⟩ := head_of_append db.m_packet_parse_buff more
    cases hh : head_of db.m_packet_parse_buff with
    | empty =>
      have hB : parse_packet X (fuel + 1) db = .ret db := by
        rw [parse_packet_eq_round, parse_packet_round_eq_head, hh]
      exact ⟨db, hB, h, hd⟩
    | incomplete =>
      have hB : parse_packet X (fuel + 1) db = .ret db := by
        rw [parse_packet_eq_round, parse_packet_round_eq_head, hh]
      exact ⟨db, hB, h, hd⟩
    | unknown_version =>
      have h1 := hd 1
      rw [discards_unknown_version_succ, hunk hh] at h1
      simp at h1
    | packet tl =>
      obtain ⟨hw, hle⟩ := hpkt tl hh
      have htake : (db.m_packet_parse_buff ++ more).take tl = db.m_packet_parse_buff.take tl :=
        List.take_append_of_le_length hle
      have hdrop : (db.m_packet_parse_buff ++ more).drop tl
          = db.m_packet_parse_buff.drop tl ++ more := List.drop_append_of_le_length hle
      have hd' : ∀ n, (db.m_packet_parse_buff ++ more).length ≠ tl →
          discards_unknown_version n (db.m_packet_parse_buff.drop tl ++ more) = false := by
        intro n hne
        have h1 := hd (n + 1)
        rw [discards_unknown_version_succ, hw] at h1
        simp only [hne, if_false, hdrop] at h1
        exact h1
      rw [parse_packet_eq_round, parse_packet_round_eq_head] at h
      simp only [hw, htake] at h
      have hdev : ({ db with
            m_packet_parse_buff := db.m_packet_parse_buff ++ more
            dispatched := db.dispatched ++ [db.m_packet_parse_buff.take tl] } : TUNDev)
          = { ({ db with dispatched := db.dispatched ++ [db.m_packet_parse_buff.take tl] }
                : TUNDev) with
              m_packet_parse_buff := db.m_packet_parse_buff ++ more } := rfl
      rw [hdev, try_to_process_udp_packet_buff] at h
      have hB : parse_packet X (fuel + 1) db =
          match parse_packet_round X db with
          | .inl outcome => outcome
          | .inr dev' => parse_packet X fuel dev' := parse_packet_eq_round X fuel db
      rw [parse_packet_round_eq_head, hh] at hB
      simp only at hB
      cases htp : try_to_process_udp_packet X (db.m_packet_parse_buff.take tl)
          { db with dispatched := db.dispatched ++ [db.m_packet_parse_buff.take tl] } with
      | thrown w =>
        rw [htp] at h
        simp [Outcome.bind] at h
      | out_of_fuel =>
        rw [htp] at h
        simp [Outcome.bind] at h
      | ret rd =>
        obtain ⟨r, d⟩ := rd
        rw [htp] at h hB
        simp only [Outcome.bind] at h hB
        have hframe := (try_to_process_udp_packet_frame X _ _ r d htp).1
        have hdbuf : d.m_packet_parse_buff = db.m_packet_parse_buff := by rw [hframe]
        -- the device after the optional `input_netif_packet`
        generalize hd2 : (if r = 0 then input_netif_packet (db.m_packet_parse_buff.take tl) d
          else d) = d2 at hB
        have hd2buf : d2.m_packet_parse_buff = db.m_packet_parse_buff := by
          rw [← hd2]
          split
          · exact hdbuf
          · exact hdbuf
        have hd2w : (if r = 0 then input_netif_packet (db.m_packet_parse_buff.take tl)
            { d with m_packet_parse_buff := db.m_packet_parse_buff ++ more }
            else { d with m_packet_parse_buff := db.m_packet_parse_buff ++ more })
            = { d2 with m_packet_parse_buff := db.m_packet_parse_buff ++ more } := by
          rw [← hd2]
          split <;> rfl
        rw [hd2w] at h
        simp only [List.length_append] at h
        by_cases hlen : db.m_packet_parse_buff.length = tl
        · -- the packet ends the accumulator
          rw [if_pos hlen] at hB
          refine ⟨_, hB, ?_, ?_⟩
          · by_cases hmore : more = []
            · subst hmore
              simp only [List.length_nil, Nat.add_zero, hlen, if_true] at h
              rw [← h]
              rfl
            · have hne : ¬ db.m_packet_parse_buff.length + more.length = tl := by
                have := List.length_pos.mpr hmore
                omega
              rw [if_neg hne] at h
              apply parse_packet_fuel_succ
              have hdm : List.drop tl (db.m_packet_parse_buff ++ more) = more := by
                rw [← hlen]
                exact List.drop_left _ _
              simp only [hdm] at h
              exact h
          · intro n
            show discards_unknown_version n ([] ++ more) = false
            by_cases hmore : more = []
            · subst hmore
              cases n <;> rfl
            · have hne : (db.m_packet_parse_buff ++ more).length ≠ tl := by
                have := List.length_pos.mpr hmore
                rw [List.length_append]
                omega
              have := hd' n hne
              rw [← hlen, List.drop_length] at this
              exact this
        · -- bytes of the accumulator follow the packet
          rw [if_neg hlen] at hB
          have hne : ¬ db.m_packet_parse_buff.length + more.length = tl := by omega
          rw [if_neg hne] at h
          simp only [hdrop, hd2buf] at h hB
          obtain ⟨dev1, h1, h2, h3⟩ := ih
            { d2 with m_packet_parse_buff := db.m_packet_parse_buff.drop tl } dev' h
            (hd' · (by rw [List.length_append]; exact hne))
          exact ⟨dev1, by rw [hB]; exact h1, parse_packet_fuel_succ X fuel _ dev' h2, h3⟩

/-- A run of `parse_packet` leaves the quitting flag as it was. -/
theorem parse_packet_m_quitting (X : Externals) (fuel : Nat) (dev dev' : TUNDev)
    (h : parse_packet X fuel dev = .ret dev') : dev'.m_quitting = dev.m_quitting := by
  induction fuel generalizing dev with
  | zero => simp [parse_packet] at h
  | succ fuel ih =>
    rw [parse_packet_eq_round, parse_packet_round_eq_head] at h
    cases hh : head_of dev.m_packet_parse_buff with
    | empty =>
      rw [hh] at h
      cases h
      rfl
    | incomplete =>
      rw [hh] at h
      cases h
      rfl
    | unknown_version =>
      rw [hh] at h
      cases h
      rfl
    | packet tl =>
      rw [hh] at h
      simp only at h
      cases htp : try_to_process_udp_packet X (dev.m_packet_parse_buff.take tl)
          { dev with dispatched := dev.dispatched ++ [dev.m_packet_parse_buff.take tl] } with
      | thrown w =>
        rw [htp] at h
        simp at h
      | out_of_fuel =>
        rw [htp] at h
        simp at h
      | ret rd =>
        obtain ⟨r, d⟩ := rd
        rw [htp] at h
        simp only at h
        have hframe := (try_to_process_udp_packet_frame X _ _ r d htp).1
        have hdq : d.m_quitting = dev.m_quitting := by rw [hframe]
        have hd2 : (if r = 0 then input_netif_packet (dev.m_packet_parse_buff.take tl) d
            else d).m_quitting = dev.m_quitting := by
          split
          · exact hdq
          · exact hdq
        by_cases hlen : dev.m_packet_parse_buff.length = tl
        · rw [if_pos hlen] at h
          cases h
          exact hd2
        · rw [if_neg hlen] at h
          rw [ih _ h]
          exact hd2

/-- C1, as stated, fails: a byte with version nibble 0 followed by an IPv4 packet. Appended
at once, the unknown version discards the packet with the byte and nothing is dispatched;
appended in two chunks, the byte is discarded alone and the packet is dispatched. -/
theorem C1_counterexample :
    [[0], tcp_packet].flatten = (0 : Byte) :: tcp_packet
      ∧ (∃ d, parse_packet example_externals 2
            { example_dev with
              m_packet_parse_buff :=
                example_dev.m_packet_parse_buff ++ [[0], tcp_packet].flatten } = .ret d
          ∧ d.dispatched = [])
      ∧ (∃ d, read_chunks example_externals 2 [[0], tcp_packet] example_dev = .ret d
          ∧ d.dispatched = [tcp_packet]) :=
  ⟨rfl, ⟨_, rfl, rfl⟩, ⟨_, rfl, rfl⟩⟩

/-- C1, amended: chunk-boundary independence holds for the byte sequences on which the
run at once returns without meeting, at a packet boundary, a first byte whose version
nibble is neither 4 nor 6. For every such byte sequence and every way of cutting it into
one or more consecutive chunks, appending the chunks one at a time and calling
`parse_packet` after each append, as `async_read` does, returns with the same device as
appending the whole sequence and calling `parse_packet` once: the same packets dispatched
in the same order, the same bytes left in the accumulator, the same sessions. -/
theorem C1_chunk_boundary_independence (X : Externals) (fuel : Nat)
    (chunks : List (List Byte)) (dev dev' : TUNDev)
    (hq : dev.m_quitting = false) (hne : chunks ≠ [])
    (hrun : parse_packet X fuel
      { dev with m_packet_parse_buff := dev.m_packet_parse_buff ++ chunks.flatten } = .ret dev')
    (hver : ∀ n, discards_unknown_version n (dev.m_packet_parse_buff ++ chunks.flatten) = false) :
    read_chunks X fuel chunks dev = .ret dev'
      ∧ ∀ d, read_chunks X fuel chunks dev = .ret d → d.dispatched = dev'.dispatched := by
  have key : read_chunks X fuel chunks dev = .ret dev' := by
    induction chunks generalizing dev with
    | nil => exact absurd rfl hne
    | cons c cs ih =>
      have hhandler : async_read_handler X fuel false c dev
          = parse_packet X fuel
              { dev with m_packet_parse_buff := dev.m_packet_parse_buff ++ c } := by
        unfold async_read_handler
        rw [if_neg (by rw [hq]; decide)]
        rfl
      unfold read_chunks
      rw [hhandler]
      by_cases hcs : cs = []
      · subst hcs
        simp only [List.flatten_cons, List.flatten_nil, List.append_nil] at hrun
        rw [hrun]
        rfl
      · simp only [List.flatten_cons, ← List.append_assoc] at hrun hver
        obtain ⟨dev1, h1, h2, h3⟩ := parse_packet_split X cs.flatten fuel
          { dev with m_packet_parse_buff := dev.m_packet_parse_buff ++ c } dev' hrun hver
        rw [h1]
        simp only [Outcome.bind]
        have hq1 : dev1.m_quitting = false := by
          rw [parse_packet_m_quitting X fuel _ dev1 h1]
          exact hq
        exact ih dev1 hq1 hcs h2 h3
  refine ⟨key, ?_⟩
  intro d hd
  rw [key] at hd
  cases hd
  rfl

/-- Witness of C1: the datagram of 33 bytes read in two chunks of 10 and 23 bytes. -/
theorem C1_chunk_boundary_independence_witness :
    example_dev.m_quitting = false
      ∧ [udp_datagram.take 10, udp_datagram.drop 10] ≠ []
      ∧ parse_packet example_externals 2
          { example_dev with
            m_packet_parse_buff :=
              example_dev.m_packet_parse_buff
                ++ [udp_datagram.take 10, udp_datagram.drop 10].flatten } = .ret after_one_datagram
      ∧ (∀ n, discards_unknown_version n
          (example_dev.m_packet_parse_buff
            ++ [udp_datagram.take 10, udp_datagram.drop 10].flatten) = false)
      ∧ (read_chunks example_externals 2 [udp_datagram.take 10, udp_datagram.drop 10]
            example_dev = .ret after_one_datagram
          ∧ ∀ d, read_chunks example_externals 2 [udp_datagram.take 10, udp_datagram.drop 10]
              example_dev = .ret d → d.dispatched = after_one_datagram.dispatched) :=
  have hver : ∀ n, discards_unknown_version n
      (example_dev.m_packet_parse_buff
        ++ [udp_datagram.take 10, udp_datagram.drop 10].flatten) = false := by
    intro n
    cases n with
    | zero => rfl
    | succ n => rfl
  ⟨rfl, by decide, rfl, hver,
    C1_chunk_boundary_independence example_externals 2
      [udp_datagram.take 10, udp_datagram.drop 10] example_dev after_one_datagram rfl
      (by decide) rfl hver⟩

/-! ## Reassembler: framing of the packets -/

/-- One round of `parse_packet` on an accumulator that begins with a complete IPv4 packet
whose header declares its own length, in terms of `dispatch_packet`. -/
theorem parse_packet_ipv4_dispatch (X : Externals) (fuel : Nat) (dev : TUNDev)
    (data rest : List Byte) (hv : version_nibble data = IPV4)
    (hl : sizeof_ipv4_header ≤ data.length)
    (htl : (read_ipv4_header data).total_length = data.length) :
    parse_packet X (fuel + 1) { dev with m_packet_parse_buff := data ++ rest } =
      (dispatch_packet X data dev).bind fun dev1 =>
        if rest = [] then .ret { dev1 with m_packet_parse_buff := [] }
        else parse_packet X fuel { dev1 with m_packet_parse_buff := rest } := by
  rw [parse_packet_ipv4_head X fuel dev data rest hv hl htl]
  have hrec : ({ dev with
          m_packet_parse_buff := data ++ rest
          dispatched := dev.dispatched ++ [data] } : TUNDev)
      = { ({ dev with dispatched := dev.dispatched ++ [data] } : TUNDev) with
          m_packet_parse_buff := data ++ rest } := rfl
  rw [hrec, try_to_process_udp_packet_buff]
  unfold dispatch_packet
  cases ht : try_to_process_udp_packet X data { dev with dispatched := dev.dispatched ++ [data] } with
  | ret res =>
    obtain ⟨r, d⟩ := res
    simp only [Outcome.bind]
    by_cases hr : r = 0
    · by_cases hrest : rest = []
      · simp [hr, hrest, input_netif_packet]
      · simp [hr, hrest, input_netif_packet]
    · by_cases hrest : rest = []
      · simp [hr, hrest]
      · simp [hr, hrest]
  | thrown what => rfl
  | out_of_fuel => rfl

/-- An accumulator with an incomplete head begins with a version nibble 4 or 6 and is
shorter than the fixed header of that version or than the total length read from it. -/
theorem head_of_incomplete (data : List Byte) (h : head_of data = .incomplete) :
    (version_nibble data = IPV4
        ∧ (data.length < sizeof_ipv4_header
          ∨ data.length < (read_ipv4_header data).total_length))
      ∨ (version_nibble data = IPV6
        ∧ (data.length < sizeof_ipv6_header
          ∨ data.length < u16 (read_be16 data 4 + sizeof_ipv6_header))) := by
  unfold head_of at h
  by_cases h1 : data.isEmpty = true
  · simp [h1] at h
  · have hne : data ≠ [] := fun e => h1 (by rw [e]; rfl)
    have hpos : 0 < data.length := List.length_pos.mpr hne
    rw [version_nibble_eq data hpos]
    simp only [h1, Bool.false_eq_true, if_false] at h
    by_cases h4 : (((data.getD 0 0).val >>> half_byte_shift_4_bits) &&& half_byte_mask_0xF)
        = IPV4
    · left
      refine ⟨h4, ?_⟩
      simp only [h4, true_or, if_true, packet_total_length] at h
      by_cases hs : data.length < sizeof_ipv4_header
      · exact Or.inl hs
      · right
        simp only [hs, if_false] at h
        by_cases hc : (read_ipv4_header data).total_length ≤ data.length
        · simp [hc] at h
        · omega
    · by_cases h6 : (((data.getD 0 0).val >>> half_byte_shift_4_bits) &&& half_byte_mask_0xF)
          = IPV6
      · right
        refine ⟨h6, ?_⟩
        have h64 : ¬ IPV6 = IPV4 := by decide
        simp only [h6, or_true, if_true, packet_total_length, h64, if_false] at h
        by_cases hs : data.length < sizeof_ipv6_header
        · exact Or.inl hs
        · right
          simp only [hs, if_false] at h
          by_cases hc : u16 (read_be16 data 4 + sizeof_ipv6_header) ≤ data.length
          · simp [hc] at h
          · omega
      · simp only [h4, h6, or_self, if_false, reduceCtorEq] at h

/-- The head of a non-empty accumulator whose version nibble is neither 4 nor 6. -/
theorem head_of_unknown_version (data : List Byte) (hne : data ≠ [])
    (h4 : version_nibble data ≠ IPV4) (h6 : version_nibble data ≠ IPV6) :
    head_of data = .unknown_version := by
  have hpos : 0 < data.length := List.length_pos.mpr hne
  rw [version_nibble_eq data hpos] at h4 h6
  have h1 : data.isEmpty = false := by
    cases data with
    | nil => exact absurd rfl hne
    | cons b t => rfl
  unfold head_of
  simp only [h1, Bool.false_eq_true, if_false, h4, h6, or_self]

/-- C14: for every non-empty accumulator whose first byte has a version nibble other than
4 and 6, `parse_packet` returns with the whole accumulator emptied, nothing else of the
device changed, and so no packet passed to the dispatcher or to the stack. -/
theorem C14_unknown_version_discards_buffer (X : Externals) (fuel : Nat) (dev : TUNDev)
    (hne : dev.m_packet_parse_buff ≠ [])
    (h4 : version_nibble dev.m_packet_parse_buff ≠ IPV4)
    (h6 : version_nibble dev.m_packet_parse_buff ≠ IPV6) :
    ∃ dev', parse_packet X (fuel + 1) dev = .ret dev'
      ∧ dev'.m_packet_parse_buff = []
      ∧ dev'.dispatched = dev.dispatched
      ∧ dev'.netif_input = dev.netif_input
      ∧ dev' = { dev with m_packet_parse_buff := [] } := by
  refine ⟨{ dev with m_packet_parse_buff := [] }, ?_, rfl, rfl, rfl, rfl⟩
  rw [parse_packet_eq_round, parse_packet_round_eq_head,
    head_of_unknown_version _ hne h4 h6]

/-- C14 at an accumulator of three bytes that begins with the version nibble 3. -/
theorem C14_unknown_version_discards_buffer_witness :
    ∃ dev', parse_packet example_externals 1
          { example_dev with m_packet_parse_buff := [0x35, 1, 2] } = .ret dev'
      ∧ dev'.m_packet_parse_buff = []
      ∧ dev'.dispatched = []
      ∧ dev'.netif_input = []
      ∧ dev' = { example_dev with m_packet_parse_buff := [] } :=
  C14_unknown_version_discards_buffer example_externals 0
    { example_dev with m_packet_parse_buff := [0x35, 1, 2] } (by decide) (by decide) (by decide)

/-- C13: whenever `parse_packet` returns, the accumulator is empty or holds one incomplete
packet: its first byte has version nibble 4 or 6 and it is shorter than the fixed header of
that version (20 or 40 bytes) or shorter than the total length read from that header (for
version 6 the 16-bit sum the method computes, and so also the payload length plus 40). -/
theorem C13_accumulator_invariant (X : Externals) (fuel : Nat) (dev dev' : TUNDev)
    (h : parse_packet X fuel dev = .ret dev') :
    dev'.m_packet_parse_buff = []
      ∨ (version_nibble dev'.m_packet_parse_buff = IPV4
        ∧ (dev'.m_packet_parse_buff.length < sizeof_ipv4_header
          ∨ dev'.m_packet_parse_buff.length
              < (read_ipv4_header dev'.m_packet_parse_buff).total_length))
      ∨ (version_nibble dev'.m_packet_parse_buff = IPV6
        ∧ (dev'.m_packet_parse_buff.length < sizeof_ipv6_header
          ∨ (dev'.m_packet_parse_buff.length
                < u16 (read_be16 dev'.m_packet_parse_buff 4 + sizeof_ipv6_header)
              ∧ dev'.m_packet_parse_buff.length
                < read_be16 dev'.m_packet_parse_buff 4 + sizeof_ipv6_header))) := by
  induction fuel generalizing dev with
  | zero => simp [parse_packet] at h
  | succ fuel ih =>
    rw [parse_packet_eq_round, parse_packet_round_eq_head] at h
    cases hh : head_of dev.m_packet_parse_buff with
    | empty =>
      rw [hh] at h
      simp only [Outcome.ret.injEq] at h
      subst h
      exact Or.inl ((head_of_append dev.m_packet_parse_buff []).1 hh)
    | unknown_version =>
      rw [hh] at h
      simp only [Outcome.ret.injEq] at h
      subst h
      exact Or.inl rfl
    | incomplete =>
      rw [hh] at h
      simp only [Outcome.ret.injEq] at h
      subst h
      right
      rcases head_of_incomplete _ hh with ⟨hv, hs⟩ | ⟨hv, hs⟩
      · exact Or.inl ⟨hv, hs⟩
      · right
        refine ⟨hv, ?_⟩
        rcases hs with hs | hs
        · exact Or.inl hs
        · right
          refine ⟨hs, lt_of_lt_of_le hs ?_⟩
          unfold u16
          exact Nat.mod_le _ _
    | packet tl =>
      rw [hh] at h
      simp only at h
      cases ht : try_to_process_udp_packet X (dev.m_packet_parse_buff.take tl)
          { dev with dispatched := dev.dispatched ++ [dev.m_packet_parse_buff.take tl] } with
      | ret res =>
        obtain ⟨r, d1⟩ := res
        rw [ht] at h
        simp only at h
        by_cases hlen : dev.m_packet_parse_buff.length = tl
        · simp only [hlen, if_true, Outcome.ret.injEq] at h
          subst h
          exact Or.inl rfl
        · simp only [hlen, if_false] at h
          exact ih _ h
      | thrown what =>
        rw [ht] at h
        simp at h
      | out_of_fuel =>
        rw [ht] at h
        simp at h

/-- What a returning `dispatch_packet` leaves as it was, and what it adds to the trace of
the dispatcher. -/
theorem dispatch_packet_frame (X : Externals) (packet : List Byte) (dev dev1 : TUNDev)
    (h : dispatch_packet X packet dev = .ret dev1) :
    dev1.dispatched = dev.dispatched ++ [packet]
      ∧ dev1.route = dev.route
      ∧ dev1.m_dns_server = dev.m_dns_server
      ∧ dev1.m_packet_parse_buff = dev.m_packet_parse_buff
      ∧ dev1.m_write_fill_buf = dev.m_write_fill_buf
      ∧ dev1.sd_writes = dev.sd_writes := by
  unfold dispatch_packet at h
  cases ht : try_to_process_udp_packet X packet
      { dev with dispatched := dev.dispatched ++ [packet] } with
  | ret res =>
    obtain ⟨r, d⟩ := res
    rw [ht] at h
    simp only [Outcome.bind, Outcome.ret.injEq] at h
    have hf := (try_to_process_udp_packet_frame X packet _ r d ht).1
    subst h
    by_cases hr : r = 0
    · simp only [hr, if_true, input_netif_packet]
      rw [hf]
      exact ⟨rfl, rfl, rfl, rfl, rfl, rfl⟩
    · simp only [hr, if_false]
      rw [hf]
      exact ⟨rfl, rfl, rfl, rfl, rfl, rfl⟩
  | thrown what =>
    rw [ht] at h
    simp [Outcome.bind] at h
  | out_of_fuel =>
    rw [ht] at h
    simp [Outcome.bind] at h

/-- Under a recognised routing mode every packet is dispatched without an error. -/
theorem dispatch_packet_returns (X : Externals) (packet : List Byte) (dev : TUNDev)
    (hmode : dev.route.proxy_type.recognised = true) :
    ∃ dev1, dispatch_packet X packet dev = .ret dev1 := by
  unfold dispatch_packet
  by_cases hg : version_nibble packet = IPV4 ∧ sizeof_ipv4_header ≤ packet.length
      ∧ protocol_byte packet = IPV4_PROTOCOL_UDP
  · obtain ⟨hv, hl, hp⟩ := hg
    rcases try_to_process_udp_packet_udp_outcome X packet
        { dev with dispatched := dev.dispatched ++ [packet] } hv hl hp with
      ⟨d, hd⟩ | ⟨what, _, _, hrec⟩
    · rw [hd]
      exact ⟨_, rfl⟩
    · have hrec2 : dev.route.proxy_type.recognised = false := hrec
      rw [hmode] at hrec2
      cases hrec2
  · rw [try_to_process_udp_packet_of_not_udp X packet _ hg]
    exact ⟨_, rfl⟩

/-- The trace of the dispatcher after a returning `dispatch_packets`. -/
theorem dispatch_packets_frame (X : Externals) (packets : List (List Byte)) :
    ∀ dev dev1 : TUNDev, dispatch_packets X packets dev = .ret dev1 →
      dev1.dispatched = dev.dispatched ++ packets ∧ dev1.route = dev.route := by
  induction packets with
  | nil =>
    intro dev dev1 h
    simp only [dispatch_packets, Outcome.ret.injEq] at h
    subst h
    simp
  | cons p ps ih =>
    intro dev dev1 h
    simp only [dispatch_packets] at h
    cases hd : dispatch_packet X p dev with
    | ret d =>
      rw [hd] at h
      simp only [Outcome.bind] at h
      obtain ⟨h1, h2, _⟩ := dispatch_packet_frame X p dev d hd
      obtain ⟨h3, h4⟩ := ih d dev1 h
      rw [h3, h1, h4, h2]
      simp
    | thrown what =>
      rw [hd] at h
      simp [Outcome.bind] at h
    | out_of_fuel =>
      rw [hd] at h
      simp [Outcome.bind] at h

/-- Under a recognised routing mode every list of packets is dispatched without an error. -/
theorem dispatch_packets_returns (X : Externals) (packets : List (List Byte)) :
    ∀ dev : TUNDev, dev.route.proxy_type.recognised = true →
      ∃ dev1, dispatch_packets X packets dev = .ret dev1 := by
  induction packets with
  | nil =>
    intro dev _
    exact ⟨dev, rfl⟩
  | cons p ps ih =>
    intro dev hmode
    obtain ⟨d, hd⟩ := dispatch_packet_returns X p dev hmode
    have hr : d.route = dev.route := (dispatch_packet_frame X p dev d hd).2.1
    obtain ⟨d2, hd2⟩ := ih d (by rw [hr]; exact hmode)
    refine ⟨d2, ?_⟩
    simp only [dispatch_packets, hd, Outcome.bind]
    exact hd2

/-- The first `k` bytes of a complete IPv4 packet, `k` positive and less than its length,
are an incomplete head. -/
theorem head_of_take_incomplete (data : List Byte) (k : Nat)
    (hv : version_nibble data = IPV4)
    (htl : (read_ipv4_header data).total_length = data.length)
    (hk0 : 0 < k) (hk : k < data.length) :
    head_of (data.take k) = .incomplete := by
  have hlen : (data.take k).length = k := by
    rw [List.length_take]
    omega
  have hsplit : data.take k ++ data.drop k = data := List.take_append_drop k data
  have hpos : 0 < data.length := by omega
  have hver : (((data.take k).getD 0 0).val >>> half_byte_shift_4_bits) &&& half_byte_mask_0xF
      = IPV4 := by
    rw [← getD_append_left (data.take k) (data.drop k) 0 (by omega), hsplit,
      ← version_nibble_eq data hpos, hv]
  have hne : (data.take k).isEmpty = false := by
    cases hd : data.take k with
    | nil =>
      rw [hd] at hlen
      simp at hlen
      omega
    | cons b t => rfl
  unfold head_of
  simp only [hne, Bool.false_eq_true, if_false, hver, true_or, if_true, packet_total_length]
  by_cases hs : (data.take k).length < sizeof_ipv4_header
  · simp only [hs, if_true]
  · simp only [hs, if_false]
    have h20 : 20 ≤ k := by
      have : ¬ k < 20 := by rw [hlen] at hs; exact hs
      omega
    have hrd : (read_ipv4_header (data.take k)).total_length = data.length := by
      rw [← htl]
      show read_be16 (data.take k) 2 = read_be16 data 2
      rw [← read_be16_append_left (data.take k) (data.drop k) 2 (by omega), hsplit]
    rw [hrd, hlen]
    have : ¬ data.length ≤ k := by omega
    simp only [this, if_false]

/-- A run of `parse_packet` on an empty accumulator returns at once. -/
theorem parse_packet_nil (X : Externals) (fuel : Nat) (dev : TUNDev) :
    parse_packet X (fuel + 1) { dev with m_packet_parse_buff := [] }
      = .ret { dev with m_packet_parse_buff := [] } := by
  rw [parse_packet_succ]
  rfl

/-- A run of `parse_packet` on the concatenation of complete IPv4 packets, each with a
header that declares its own length, is the dispatch of the packets in order followed by
the emptying of the accumulator. -/
theorem parse_packet_stream (X : Externals) (packets : List (List Byte))
    (hpk : ∀ p ∈ packets, version_nibble p = IPV4 ∧ sizeof_ipv4_header ≤ p.length
      ∧ (read_ipv4_header p).total_length = p.length) :
    ∀ (fuel : Nat) (dev : TUNDev), packets.length < fuel →
      parse_packet X fuel { dev with m_packet_parse_buff := packets.flatten }
        = (dispatch_packets X packets dev).bind fun dev1 =>
            .ret { dev1 with m_packet_parse_buff := [] } := by
  induction packets with
  | nil =>
    intro fuel dev hfuel
    obtain ⟨f, rfl⟩ : ∃ f, fuel = f + 1 := ⟨fuel - 1, by simp at hfuel; omega⟩
    simp only [List.flatten_nil, dispatch_packets, Outcome.bind]
    exact parse_packet_nil X f dev
  | cons p ps ih =>
    intro fuel dev hfuel
    obtain ⟨f, rfl⟩ : ∃ f, fuel = f + 1 := ⟨fuel - 1, by simp at hfuel; omega⟩
    have hf : ps.length < f := by simp at hfuel; omega
    obtain ⟨hv, hl, htl⟩ := hpk p (List.mem_cons_self p ps)
    have ih2 := ih (fun q hq => hpk q (List.mem_cons_of_mem p hq)) f
    rw [List.flatten_cons, parse_packet_ipv4_dispatch X f dev p ps.flatten hv hl htl]
    simp only [dispatch_packets]
    cases hd : dispatch_packet X p dev with
    | ret d =>
      show (if ps.flatten = [] then Outcome.ret { d with m_packet_parse_buff := [] }
          else parse_packet X f { d with m_packet_parse_buff := ps.flatten })
        = (dispatch_packets X ps d).bind fun dev1 =>
            .ret { dev1 with m_packet_parse_buff := [] }
      rw [← ih2 d hf]
      by_cases he : ps.flatten = []
      · rw [if_pos he, he]
        obtain ⟨g, rfl⟩ : ∃ g, f = g + 1 := ⟨f - 1, by omega⟩
        exact (parse_packet_nil X g d).symm
      · rw [if_neg he]
    | thrown what => rfl
    | out_of_fuel => rfl

/-- The failure of `validate_udp`: one of the three checks of lines 588 to 614 fails. -/
theorem validate_udp_eq_none (X : Externals) (data : List Byte)
    (h : X.ipv4_check data = none
      ∨ (∃ ipv4_hdr rest, X.ipv4_check data = some (ipv4_hdr, rest) ∧ X.udp_check rest = none)
      ∨ (∃ ipv4_hdr rest udp_hdr payload, X.ipv4_check data = some (ipv4_hdr, rest)
          ∧ X.udp_check rest = some (udp_hdr, payload)
          ∧ udp_hdr.checksum ≠ u16 (X.udp_checksum { udp_hdr with checksum := 0 } payload
              ipv4_hdr.source_address ipv4_hdr.destination_address))) :
    validate_udp X data = none := by
  unfold validate_udp
  rcases h with h | ⟨i, r, h1, h2⟩ | ⟨i, r, u, p, h1, h2, h3⟩
  · rw [h]
  · rw [h1]
    simp only
    rw [h2]
  · rw [h1]
    simp only
    rw [h2]
    simp only
    rw [if_pos h3]

/-- Witness of C13: the first ten bytes of a datagram stay in the accumulator. -/
theorem C13_accumulator_invariant_witness :
    parse_packet example_externals 1 half_datagram_dev = .ret half_datagram_dev
      ∧ (half_datagram_dev.m_packet_parse_buff = []
        ∨ (version_nibble half_datagram_dev.m_packet_parse_buff = IPV4
          ∧ (half_datagram_dev.m_packet_parse_buff.length < sizeof_ipv4_header
            ∨ half_datagram_dev.m_packet_parse_buff.length
                < (read_ipv4_header half_datagram_dev.m_packet_parse_buff).total_length))
        ∨ (version_nibble half_datagram_dev.m_packet_parse_buff = IPV6
          ∧ (half_datagram_dev.m_packet_parse_buff.length < sizeof_ipv6_header
            ∨ (half_datagram_dev.m_packet_parse_buff.length
                  < u16 (read_be16 half_datagram_dev.m_packet_parse_buff 4 + sizeof_ipv6_header)
                ∧ half_datagram_dev.m_packet_parse_buff.length
                  < read_be16 half_datagram_dev.m_packet_parse_buff 4
                    + sizeof_ipv6_header)))) :=
  ⟨rfl, C13_accumulator_invariant example_externals 1 half_datagram_dev half_datagram_dev rfl⟩

/-- Counterexample to C11 as stated: under an unrecognised routing mode the datagram to
8.8.8.8:53, complete and of 33 bytes, is split after 10 bytes; the second call of
`parse_packet` passes it to the dispatcher, the error of `proxy_by_route` escapes, and the
call does not return: the accumulator is not emptied. -/
theorem C11_counterexample :
    version_nibble udp_datagram = IPV4
      ∧ (read_ipv4_header udp_datagram).total_length = udp_datagram.length
      ∧ udp_datagram.length = 33
      ∧ unrecognised_mode_dev.m_packet_parse_buff = []
      ∧ parse_packet example_externals 5
          { unrecognised_mode_dev with
            m_packet_parse_buff :=
              unrecognised_mode_dev.m_packet_parse_buff ++ udp_datagram.take 10 }
        = .ret { unrecognised_mode_dev with m_packet_parse_buff := udp_datagram.take 10 }
      ∧ ∃ what, parse_packet example_externals 5
          { unrecognised_mode_dev with
            m_packet_parse_buff := udp_datagram.take 10 ++ udp_datagram.drop 10 }
        = .thrown what :=
  ⟨by decide, rfl, rfl, rfl, rfl, _, rfl⟩

/-- C11, amended: a complete IPv4 packet whose header declares its own length arrives in
two reads, split at any point inside it, into an empty accumulator. The first call of
`parse_packet` returns with the first part kept and nothing dispatched; the second call is
one call of the dispatcher, on the whole packet, followed by the emptying of the
accumulator; under a recognised routing mode the dispatcher returns, and the two calls
leave exactly that one packet dispatched and the accumulator empty. -/
theorem C11_packet_split_across_two_reads (X : Externals) (fuel : Nat) (dev : TUNDev)
    (packet : List Byte) (k : Nat)
    (hbuf : dev.m_packet_parse_buff = [])
    (hv : version_nibble packet = IPV4) (hl : sizeof_ipv4_header ≤ packet.length)
    (htl : (read_ipv4_header packet).total_length = packet.length)
    (hk0 : 0 < k) (hk : k < packet.length) :
    parse_packet X (fuel + 1)
        { dev with m_packet_parse_buff := dev.m_packet_parse_buff ++ packet.take k }
      = .ret { dev with m_packet_parse_buff := packet.take k }
    ∧ parse_packet X (fuel + 1)
        { dev with m_packet_parse_buff := packet.take k ++ packet.drop k }
      = ((dispatch_packet X packet dev).bind fun dev1 =>
          .ret { dev1 with m_packet_parse_buff := [] })
    ∧ (dev.route.proxy_type.recognised = true →
        ∃ dev', parse_packet X (fuel + 1)
            { dev with m_packet_parse_buff := packet.take k ++ packet.drop k } = .ret dev'
          ∧ dev'.dispatched = dev.dispatched ++ [packet]
          ∧ dev'.m_packet_parse_buff = []) := by
  have h2 : parse_packet X (fuel + 1)
        { dev with m_packet_parse_buff := packet.take k ++ packet.drop k }
      = ((dispatch_packet X packet dev).bind fun dev1 =>
          .ret { dev1 with m_packet_parse_buff := [] }) := by
    rw [List.take_append_drop]
    have h := parse_packet_ipv4_dispatch X fuel dev packet [] hv hl htl
    rw [List.append_nil] at h
    rw [h]
    simp only [if_true]
  refine ⟨?_, h2, ?_⟩
  · rw [hbuf, List.nil_append, parse_packet_eq_round, parse_packet_round_eq_head]
    have hh : head_of ({ dev with m_packet_parse_buff := packet.take k } : TUNDev).m_packet_parse_buff
        = .incomplete := head_of_take_incomplete packet k hv htl hk0 hk
    rw [hh]
  · intro hmode
    obtain ⟨d, hd⟩ := dispatch_packet_returns X packet dev hmode
    refine ⟨{ d with m_packet_parse_buff := [] }, ?_, ?_, rfl⟩
    · rw [h2, hd]
      rfl
    · exact (dispatch_packet_frame X packet dev d hd).1

/-- Witness of C11: the datagram of 33 bytes, split after 10 bytes. -/
theorem C11_packet_split_across_two_reads_witness :
    parse_packet example_externals 1
        { example_dev with
          m_packet_parse_buff := example_dev.m_packet_parse_buff ++ udp_datagram.take 10 }
      = .ret { example_dev with m_packet_parse_buff := udp_datagram.take 10 }
    ∧ parse_packet example_externals 1
        { example_dev with m_packet_parse_buff := udp_datagram.take 10 ++ udp_datagram.drop 10 }
      = ((dispatch_packet example_externals udp_datagram example_dev).bind fun dev1 =>
          .ret { dev1 with m_packet_parse_buff := [] })
    ∧ (example_dev.route.proxy_type.recognised = true →
        ∃ dev', parse_packet example_externals 1
            { example_dev with
              m_packet_parse_buff := udp_datagram.take 10 ++ udp_datagram.drop 10 } = .ret dev'
          ∧ dev'.dispatched = example_dev.dispatched ++ [udp_datagram]
          ∧ dev'.m_packet_parse_buff = []) :=
  C11_packet_split_across_two_reads example_externals 0 example_dev udp_datagram 10
    rfl (by decide) (by decide) rfl (by decide) (by decide)

/-- Counterexample to C12 as stated: under an unrecognised routing mode the accumulator
holds the TCP packet followed by the datagram to 8.8.8.8:53, both complete; the run of
`parse_packet` ends with the error of `proxy_by_route` in the dispatch of the second packet
and does not return, so the accumulator is not emptied. -/
theorem C12_counterexample :
    (∀ p ∈ two_packets, version_nibble p = IPV4 ∧ sizeof_ipv4_header ≤ p.length
        ∧ (read_ipv4_header p).total_length = p.length)
      ∧ ∃ what, parse_packet example_externals 5
          { unrecognised_mode_dev with m_packet_parse_buff := two_packets.flatten }
        = .thrown what :=
  ⟨by decide, _, rfl⟩

/-- C12, amended: when the accumulator holds the concatenation of IPv4 packets, each with a
full fixed header that declares the packet's own length, a run of `parse_packet` is the
dispatch of exactly those packets, each whole, one call per packet, in order, followed by
the emptying of the accumulator; under a recognised routing mode every dispatch returns, and
the run returns with those packets added to the trace of the dispatcher and the accumulator
empty. -/
theorem C12_stream_of_complete_packets (X : Externals) (fuel : Nat) (dev : TUNDev)
    (packets : List (List Byte))
    (hpk : ∀ p ∈ packets, version_nibble p = IPV4 ∧ sizeof_ipv4_header ≤ p.length
      ∧ (read_ipv4_header p).total_length = p.length)
    (hfuel : packets.length < fuel) :
    parse_packet X fuel { dev with m_packet_parse_buff := packets.flatten }
      = ((dispatch_packets X packets dev).bind fun dev1 =>
          .ret { dev1 with m_packet_parse_buff := [] })
    ∧ (dev.route.proxy_type.recognised = true →
        ∃ dev', parse_packet X fuel { dev with m_packet_parse_buff := packets.flatten }
            = .ret dev'
          ∧ dev'.dispatched = dev.dispatched ++ packets
          ∧ dev'.m_packet_parse_buff = []) := by
  have h := parse_packet_stream X packets hpk fuel dev hfuel
  refine ⟨h, ?_⟩
  intro hmode
  obtain ⟨d, hd⟩ := dispatch_packets_returns X packets dev hmode
  refine ⟨{ d with m_packet_parse_buff := [] }, ?_, ?_, rfl⟩
  · rw [h, hd]
    rfl
  · exact (dispatch_packets_frame X packets dev d hd).1

/-- Witness of C12: the TCP packet followed by the datagram, on the example device. -/
theorem C12_stream_of_complete_packets_witness :
    parse_packet example_externals 3
        { example_dev with m_packet_parse_buff := two_packets.flatten }
      = ((dispatch_packets example_externals two_packets example_dev).bind fun dev1 =>
          .ret { dev1 with m_packet_parse_buff := [] })
    ∧ (example_dev.route.proxy_type.recognised = true →
        ∃ dev', parse_packet example_externals 3
            { example_dev with m_packet_parse_buff := two_packets.flatten } = .ret dev'
          ∧ dev'.dispatched = example_dev.dispatched ++ two_packets
          ∧ dev'.m_packet_parse_buff = []) :=
  C12_stream_of_complete_packets example_externals 3 example_dev two_packets
    (by decide) (by decide)

/-- C19: an IPv4 packet of at least 20 bytes with protocol byte UDP that fails the IPv4
header check, the UDP header check or the UDP checksum comparison is consumed without any
effect: `try_to_process_udp_packet` returns 1 and the device is as it was (session registry,
fill buffer, accumulator, DNS trace and all), the stack is not given the packet, and when
the packet stands at the head of the accumulator, delimited by its own total length,
`parse_packet` goes on with the bytes that follow it. -/
theorem C19_malformed_udp_is_dropped (X : Externals) (dev : TUNDev) (data : List Byte)
    (hv : version_nibble data = IPV4) (hl : sizeof_ipv4_header ≤ data.length)
    (hp : protocol_byte data = IPV4_PROTOCOL_UDP)
    (hbad : X.ipv4_check data = none
      ∨ (∃ ipv4_hdr rest, X.ipv4_check data = some (ipv4_hdr, rest) ∧ X.udp_check rest = none)
      ∨ (∃ ipv4_hdr rest udp_hdr payload, X.ipv4_check data = some (ipv4_hdr, rest)
          ∧ X.udp_check rest = some (udp_hdr, payload)
          ∧ udp_hdr.checksum ≠ u16 (X.udp_checksum { udp_hdr with checksum := 0 } payload
              ipv4_hdr.source_address ipv4_hdr.destination_address))) :
    try_to_process_udp_packet X data dev = .ret (1, dev)
      ∧ dispatch_packet X data dev = .ret { dev with dispatched := dev.dispatched ++ [data] }
      ∧ ((read_ipv4_header data).total_length = data.length →
          ∀ (fuel : Nat) (rest : List Byte),
            parse_packet X (fuel + 1) { dev with m_packet_parse_buff := data ++ rest }
              = if rest = [] then
                  .ret { dev with
                         m_packet_parse_buff := []
                         dispatched := dev.dispatched ++ [data] }
                else
                  parse_packet X fuel
                    { dev with
                      m_packet_parse_buff := rest
                      dispatched := dev.dispatched ++ [data] }) := by
  have hnone := validate_udp_eq_none X data hbad
  have htry : ∀ d : TUNDev, try_to_process_udp_packet X data d = .ret (1, d) := by
    intro d
    rw [try_to_process_udp_packet_of_udp X data d hv hl hp, hnone]
  have hdis : dispatch_packet X data dev
      = .ret { dev with dispatched := dev.dispatched ++ [data] } := by
    unfold dispatch_packet
    rw [htry]
    rfl
  refine ⟨htry dev, hdis, ?_⟩
  intro htl fuel rest
  rw [parse_packet_ipv4_dispatch X fuel dev data rest hv hl htl, hdis]
  rfl

/-- Witness of C19: the packet of 20 bytes with protocol byte UDP and a wrong header
checksum. -/
theorem C19_malformed_udp_is_dropped_witness :
    try_to_process_udp_packet example_externals malformed_udp_packet example_dev
        = .ret (1, example_dev)
      ∧ dispatch_packet example_externals malformed_udp_packet example_dev
        = .ret { example_dev with dispatched := example_dev.dispatched ++ [malformed_udp_packet] }
      ∧ ((read_ipv4_header malformed_udp_packet).total_length = malformed_udp_packet.length →
          ∀ (fuel : Nat) (rest : List Byte),
            parse_packet example_externals (fuel + 1)
                { example_dev with m_packet_parse_buff := malformed_udp_packet ++ rest }
              = if rest = [] then
                  .ret { example_dev with
                         m_packet_parse_buff := []
                         dispatched := example_dev.dispatched ++ [malformed_udp_packet] }
                else
                  parse_packet example_externals fuel
                    { example_dev with
                      m_packet_parse_buff := rest
                      dispatched := example_dev.dispatched ++ [malformed_udp_packet] }) :=
  C19_malformed_udp_is_dropped example_externals example_dev malformed_udp_packet
    (by decide) (by decide) (by decide) (Or.inl rfl)

/-! ## Flush: order of the bytes -/

/-- One iteration of the loop of `write_to_tun` on a non-empty fill buffer: the request is a
prefix of the buffer of at most `m_mtu` bytes; either the device took `c > 0` bytes of it,
which are removed from the front of the buffer, or it took none and the buffer is emptied. -/
theorem write_to_tun_body_cases (dev : TUNDev) (hne : dev.m_write_fill_buf ≠ []) :
    ∃ buffer : List Byte,
      buffer <+: dev.m_write_fill_buf ∧ buffer.length ≤ dev.m_mtu
      ∧ (write_to_tun_body dev).sd_writes = dev.sd_writes ++ [buffer]
      ∧ ((∃ c, 0 < c
            ∧ (match dev.sd_results dev.sd_writes.length with
                | .wrote n => buffer.take n
                | .error _ => []) = dev.m_write_fill_buf.take c
            ∧ c ≤ dev.m_write_fill_buf.length
            ∧ (write_to_tun_body dev).m_write_fill_buf = dev.m_write_fill_buf.drop c)
        ∨ ((match dev.sd_results dev.sd_writes.length with
                | .wrote n => buffer.take n
                | .error _ => []) = []
            ∧ (write_to_tun_body dev).m_write_fill_buf = []
            ∧ (0 < dev.m_mtu →
                ¬ ∃ n, 0 < n ∧ dev.sd_results dev.sd_writes.length = .wrote n))) := by
  have hpos : 0 < dev.m_write_fill_buf.length := List.length_pos.mpr hne
  have hbuf : ∃ buffer : List Byte, buffer
        = (if dev.m_write_fill_buf.length > dev.m_mtu then dev.m_write_fill_buf.take dev.m_mtu
            else dev.m_write_fill_buf)
      ∧ buffer <+: dev.m_write_fill_buf ∧ buffer.length ≤ dev.m_mtu
      ∧ (0 < dev.m_mtu → 0 < buffer.length) := by
    refine ⟨_, rfl, ?_, ?_, ?_⟩
    · by_cases h : dev.m_write_fill_buf.length > dev.m_mtu
      · rw [if_pos h]
        exact List.take_prefix _ _
      · rw [if_neg h]
    · by_cases h : dev.m_write_fill_buf.length > dev.m_mtu
      · rw [if_pos h, List.length_take]
        omega
      · rw [if_neg h]
        omega
    · intro hm
      by_cases h : dev.m_write_fill_buf.length > dev.m_mtu
      · rw [if_pos h, List.length_take]
        omega
      · rw [if_neg h]
        exact hpos
  obtain ⟨buffer, hdef, hpre, hle, hnz⟩ := hbuf
  have hlen : buffer.length ≤ dev.m_write_fill_buf.length := hpre.length_le
  have htake : ∀ c, c ≤ buffer.length → buffer.take c = dev.m_write_fill_buf.take c := by
    intro c hc
    obtain ⟨t, ht⟩ := hpre
    rw [← ht, List.take_append_of_le_length hc]
  refine ⟨buffer, hpre, hle, ?_, ?_⟩
  · simp only [write_to_tun_body, ← hdef]
  · cases hres : dev.sd_results dev.sd_writes.length with
    | wrote n =>
      by_cases hc : 0 < min n buffer.length
      · left
        refine ⟨min n buffer.length, hc, ?_, ?_, ?_⟩
        · simp only
          rw [← htake _ (Nat.min_le_right _ _)]
          rw [List.take_eq_take]
          simp
        · omega
        · simp only [write_to_tun_body, ← hdef, write_some, hres]
          simp [hc]
      · right
        refine ⟨?_, ?_, ?_⟩
        · simp only
          have : min n buffer.length = 0 := by omega
          rw [List.take_eq_nil_iff]
          rcases Nat.min_eq_zero_iff.mp this with h | h
          · exact Or.inl h
          · exact Or.inr (List.length_eq_zero.mp h)
        · simp only [write_to_tun_body, ← hdef, write_some, hres]
          simp [hc]
        · intro hm ⟨k, hk, hw⟩
          have := hnz hm
          cases hw
          omega
    | error ec =>
      right
      refine ⟨rfl, ?_, ?_⟩
      · simp only [write_to_tun_body, ← hdef, write_some, hres]
        simp
      · intro _ ⟨k, _, hw⟩
        cases hw

/-- The flush loop issues its requests from the front of the buffer, each of at most
`m_mtu` bytes, and what the device takes of them, in order, is a prefix of the buffer: the
whole buffer when the MTU is positive and every write takes a positive number of bytes. -/
theorem write_to_tun_loop_fifo (dev : TUNDev) :
    ∃ requests : List (List Byte),
      (write_to_tun_loop dev).sd_writes = dev.sd_writes ++ requests
      ∧ (∀ r ∈ requests, r.length ≤ dev.m_mtu)
      ∧ (∀ i (hi : i < requests.length),
          requests[i] <+: dev.m_write_fill_buf.drop
            (accepted_bytes dev.sd_results dev.sd_writes.length (requests.take i)).length)
      ∧ accepted_bytes dev.sd_results dev.sd_writes.length requests <+: dev.m_write_fill_buf
      ∧ (0 < dev.m_mtu →
          (∀ k, dev.sd_writes.length ≤ k → ∃ n, 0 < n ∧ dev.sd_results k = .wrote n) →
          accepted_bytes dev.sd_results dev.sd_writes.length requests
            = dev.m_write_fill_buf) := by
  refine write_to_tun_loop_induction
    (fun d d' => ∃ requests : List (List Byte),
      d'.sd_writes = d.sd_writes ++ requests
      ∧ (∀ r ∈ requests, r.length ≤ d.m_mtu)
      ∧ (∀ i (hi : i < requests.length),
          requests[i] <+: d.m_write_fill_buf.drop
            (accepted_bytes d.sd_results d.sd_writes.length (requests.take i)).length)
      ∧ accepted_bytes d.sd_results d.sd_writes.length requests <+: d.m_write_fill_buf
      ∧ (0 < d.m_mtu →
          (∀ k, d.sd_writes.length ≤ k → ∃ n, 0 < n ∧ d.sd_results k = .wrote n) →
          accepted_bytes d.sd_results d.sd_writes.length requests = d.m_write_fill_buf))
    ?_ ?_ dev
  · intro d h0
    refine ⟨[], by simp, by simp, ?_, ?_, ?_⟩
    · intro i hi
      simp at hi
    · simp [accepted_bytes]
    · intro _ _
      simp [accepted_bytes, h0]
  · intro d hne ih
    obtain ⟨buffer, hpre, hle, hsd, hcase⟩ := write_to_tun_body_cases d hne
    have hres : (write_to_tun_body d).sd_results = d.sd_results := rfl
    have hmtu : (write_to_tun_body d).m_mtu = d.m_mtu := rfl
    have hlen : (write_to_tun_body d).sd_writes.length = d.sd_writes.length + 1 := by
      rw [hsd]
      simp
    rcases hcase with ⟨c, hc0, hacc, hcl, hfill⟩ | ⟨hacc, hfill, hfail⟩
    · obtain ⟨reqs, h1, h2, h3, h4, h5⟩ := ih
      rw [hres, hmtu, hlen, hfill] at *
      refine ⟨buffer :: reqs, ?_, ?_, ?_, ?_, ?_⟩
      · rw [h1, hsd]
        simp
      · intro r hr
        rcases List.mem_cons.mp hr with h | h
        · rw [h]
          exact hle
        · exact h2 r h
      · intro i hi
        cases i with
        | zero =>
          simp only [List.take_zero, accepted_bytes, List.length_nil, List.drop_zero,
            List.getElem_cons_zero]
          exact hpre
        | succ j =>
          have hj : j < reqs.length := by simpa using hi
          have := h3 j hj
          simp only [List.take_succ_cons, accepted_bytes, List.getElem_cons_succ]
          rw [hacc, List.length_append, List.length_take, Nat.min_eq_left hcl]
          rw [List.drop_drop] at this
          exact this
      · simp only [accepted_bytes]
        rw [hacc]
        obtain ⟨t, ht⟩ := h4
        refine ⟨t, ?_⟩
        rw [List.append_assoc, ht, List.take_append_drop]
      · intro hm hall
        simp only [accepted_bytes]
        rw [hacc, h5 hm (fun k hk => hall k (by omega)), List.take_append_drop]
    · have hloop : write_to_tun_loop (write_to_tun_body d) = write_to_tun_body d := by
        rw [write_to_tun_loop_unfold, hfill]
        simp
      rw [hloop]
      refine ⟨[buffer], hsd, ?_, ?_, ?_, ?_⟩
      · intro r hr
        rw [List.mem_singleton.mp hr]
        exact hle
      · intro i hi
        have hi0 : i = 0 := by simpa using hi
        subst hi0
        simp only [List.take_zero, accepted_bytes, List.length_nil, List.drop_zero,
          List.getElem_cons_zero]
        exact hpre
      · simp only [accepted_bytes]
        rw [hacc]
        simp
      · intro hm hall
        exact absurd (hall d.sd_writes.length (le_refl _)) (hfail hm)

/-- Counterexample to C17 as stated: with an MTU of 0 and three bytes queued, on a device
whose writes never report an error, `write_to_tun` issues one request of no bytes, the
device takes nothing, and the three bytes are discarded: what the device accepted is not
the buffer. -/
theorem C17_counterexample :
    zero_mtu_dev.m_quitting = false
      ∧ zero_mtu_dev.m_write_fill_buf = [1, 2, 3]
      ∧ (∀ k, zero_mtu_dev.sd_results k = .wrote 65535)
      ∧ (write_to_tun zero_mtu_dev).sd_writes = zero_mtu_dev.sd_writes ++ [[]]
      ∧ accepted_bytes zero_mtu_dev.sd_results zero_mtu_dev.sd_writes.length [[]] = []
      ∧ (write_to_tun zero_mtu_dev).m_write_fill_buf = [] := by
  have h : write_to_tun zero_mtu_dev
      = { zero_mtu_dev with sd_writes := [[]], m_write_fill_buf := [] } := by
    have hb : write_to_tun_body zero_mtu_dev
        = { zero_mtu_dev with sd_writes := [[]], m_write_fill_buf := [] } := rfl
    unfold write_to_tun
    rw [if_neg (by decide), write_to_tun_loop_unfold, if_pos (by decide), hb,
      write_to_tun_loop_unfold, if_neg (by decide)]
  refine ⟨rfl, rfl, fun _ => rfl, ?_, rfl, ?_⟩
  · rw [h]
    rfl
  · rw [h]

/-- C17, amended: when the quitting flag is not set, the requests `write_to_tun` issues are
each at most `m_mtu` bytes long and a prefix of what remains of the fill buffer; what the
device takes of them, concatenated in order, is a prefix of the buffer; and it is the whole
buffer when the MTU is positive and every write takes a positive number of bytes. No error
is not enough: a write that takes no byte discards what remains. -/
theorem C17_flush_is_fifo (dev : TUNDev) (hq : dev.m_quitting = false) :
    ∃ requests : List (List Byte),
      (write_to_tun dev).sd_writes = dev.sd_writes ++ requests
      ∧ (∀ r ∈ requests, r.length ≤ dev.m_mtu)
      ∧ (∀ i (hi : i < requests.length),
          requests[i] <+: dev.m_write_fill_buf.drop
            (accepted_bytes dev.sd_results dev.sd_writes.length (requests.take i)).length)
      ∧ accepted_bytes dev.sd_results dev.sd_writes.length requests <+: dev.m_write_fill_buf
      ∧ (0 < dev.m_mtu →
          (∀ k, dev.sd_writes.length ≤ k → ∃ n, 0 < n ∧ dev.sd_results k = .wrote n) →
          accepted_bytes dev.sd_results dev.sd_writes.length requests
            = dev.m_write_fill_buf) := by
  have h : write_to_tun dev = write_to_tun_loop dev := by
    unfold write_to_tun
    rw [if_neg (by rw [hq]; decide)]
  rw [h]
  exact write_to_tun_loop_fifo dev

/-- Witness of C17: three queued bytes, MTU 1, a device that takes the first byte and fails
at the second write. -/
theorem C17_flush_is_fifo_witness :
    failing_write_dev.m_quitting = false
      ∧ ∃ requests : List (List Byte),
        (write_to_tun failing_write_dev).sd_writes = failing_write_dev.sd_writes ++ requests
        ∧ (∀ r ∈ requests, r.length ≤ failing_write_dev.m_mtu)
        ∧ (∀ i (hi : i < requests.length),
            requests[i] <+: failing_write_dev.m_write_fill_buf.drop
              (accepted_bytes failing_write_dev.sd_results failing_write_dev.sd_writes.length
                (requests.take i)).length)
        ∧ accepted_bytes failing_write_dev.sd_results failing_write_dev.sd_writes.length requests
            <+: failing_write_dev.m_write_fill_buf
        ∧ (0 < failing_write_dev.m_mtu →
            (∀ k, failing_write_dev.sd_writes.length ≤ k →
              ∃ n, 0 < n ∧ failing_write_dev.sd_results k = .wrote n) →
            accepted_bytes failing_write_dev.sd_results failing_write_dev.sd_writes.length
              requests = failing_write_dev.m_write_fill_buf) :=
  ⟨rfl, C17_flush_is_fifo failing_write_dev rfl⟩

/-! ## Boundary of an IPv6 packet -/

/-- The total length `parse_packet` computes for an accumulator that holds a full fixed
IPv6 header: the payload length plus 40, reduced modulo 65536 by the 16-bit variable; it is
the sum itself exactly when the payload length is at most 65495. -/
theorem packet_total_length_ipv6 (data : List Byte) (hl : sizeof_ipv6_header ≤ data.length) :
    packet_total_length IPV6 data = some (u16 (read_be16 data 4 + sizeof_ipv6_header))
      ∧ (u16 (read_be16 data 4 + sizeof_ipv6_header) = read_be16 data 4 + sizeof_ipv6_header
          ↔ read_be16 data 4 ≤ 65495) := by
  constructor
  · unfold packet_total_length
    have h64 : ¬ IPV6 = IPV4 := by decide
    have hs : ¬ data.length < sizeof_ipv6_header := by omega
    simp only [h64, if_false, hs]
  · unfold u16 sizeof_ipv6_header
    omega

/-- C15 at a payload length of 65535: the accumulator holds a full IPv6 header that declares
it; `parse_packet` computes a total length of 39, not 65575, passes the first 39 bytes of
the header to the stack as a packet and discards the last byte. -/
theorem C15_ipv6_total_length_wraps :
    version_nibble ipv6_max_payload_header = IPV6
      ∧ ipv6_max_payload_header.length = 40
      ∧ read_be16 ipv6_max_payload_header 4 = 65535
      ∧ packet_total_length IPV6 ipv6_max_payload_header = some 39
      ∧ parse_packet example_externals 2
          { example_dev with m_packet_parse_buff := ipv6_max_payload_header }
        = .ret { example_dev with
                 m_packet_parse_buff := []
                 dispatched := [ipv6_max_payload_header.take 39]
                 netif_input := [ipv6_max_payload_header.take 39] } :=
  ⟨by decide, rfl, by decide, by decide, rfl⟩

/-! ## The quitting flag on the write paths -/

/-- With the quitting flag set `write_to_tun` does nothing. -/
theorem write_to_tun_quitting (dev : TUNDev) (hq : dev.m_quitting = true) :
    write_to_tun dev = dev := by
  unfold write_to_tun
  rw [if_pos hq]

/-- With the quitting flag set `netif_output_func` does nothing. -/
theorem netif_output_func_quitting (p : List (List Byte)) (dev : TUNDev)
    (hq : dev.m_quitting = true) : netif_output_func p dev = (.ERR_OK, dev) := by
  unfold netif_output_func
  rw [if_pos hq]

/-- C16 at a device with the quitting flag set: `netif_output_func` and `write_to_tun`
leave it as it is, and `handle_write_upd_data`, which has no test of the flag, issues no
device write but commits the packet of 33 bytes it composes to the fill buffer, which was
empty. -/
theorem C16_handle_write_upd_data_ignores_quitting :
    quitting_dev.m_quitting = true
      ∧ quitting_dev.m_write_fill_buf = []
      ∧ netif_output_func [[1, 2, 3]] quitting_dev = (.ERR_OK, quitting_dev)
      ∧ write_to_tun quitting_dev = quitting_dev
      ∧ handle_write_upd_data example_externals 1 ⟨0x0A000002, 4000⟩ ⟨0x08080808, 53⟩
          [1, 2, 3, 4, 5] quitting_dev
        = .ret (0, { quitting_dev with
                     m_write_fill_buf :=
                       compose_udp_packet example_externals ⟨0x0A000002, 4000⟩
                         ⟨0x08080808, 53⟩ [1, 2, 3, 4, 5] 5
                     committed :=
                       [compose_udp_packet example_externals ⟨0x0A000002, 4000⟩
                         ⟨0x08080808, 53⟩ [1, 2, 3, 4, 5] 5] })
      ∧ (compose_udp_packet example_externals ⟨0x0A000002, 4000⟩ ⟨0x08080808, 53⟩
          [1, 2, 3, 4, 5] 5).length = 33 :=
  ⟨rfl, rfl, rfl, rfl, rfl, rfl⟩

/-! ## The clip limit under an MTU below the size of the headers -/

/-- A call of `handle_write_upd_data` on a payload that is not empty and not longer than
the limit the method computes: one packet is composed, committed and flushed. -/
theorem handle_write_upd_data_single (X : Externals) (fuel : Nat)
    (local_endpoint remote_endpoint : Endpoint) (payload : List Byte) (dev : TUNDev)
    (hne : payload ≠ [])
    (hfit : payload.length
      ≤ u16 (min 65535 dev.m_mtu + 65536 - u16 (sizeof_ipv4_header + sizeof_udp_header))) :
    handle_write_upd_data X (fuel + 1) local_endpoint remote_endpoint payload dev
      = .ret (0, write_to_tun
          { dev with
            m_write_fill_buf := dev.m_write_fill_buf
              ++ compose_udp_packet X local_endpoint remote_endpoint payload payload.length
            committed := dev.committed
              ++ [compose_udp_packet X local_endpoint remote_endpoint payload
                    payload.length] }) := by
  have hpos : 0 < payload.length := List.length_pos.mpr hne
  have h0 : ¬ payload.length = 0 := by omega
  have hgt : ¬ payload.length
      > u16 (min 65535 dev.m_mtu + 65536 - u16 (sizeof_ipv4_header + sizeof_udp_header)) := by
    omega
  unfold handle_write_upd_data
  simp only [h0, if_false, hgt, List.drop_length, List.length_nil, gt_iff_lt, lt_self_iff_false]

/-- C18 at an MTU of 27: the subtraction of the 28 bytes of headers wraps in 16 bits, the
limit the method computes is 65535, and the packet emitted for a payload of five bytes
carries them all and is 33 bytes long, above the MTU. -/
theorem C18_clip_limit_wraps_below_28 :
    tiny_mtu_dev.m_mtu = 27
      ∧ u16 (min 65535 tiny_mtu_dev.m_mtu + 65536 - u16 (sizeof_ipv4_header + sizeof_udp_header))
          = 65535
      ∧ ∃ packet dev',
          handle_write_upd_data example_externals 1 ⟨0x0A000002, 4000⟩ ⟨0x08080808, 53⟩
              [1, 2, 3, 4, 5] tiny_mtu_dev = .ret (0, dev')
            ∧ dev'.committed = [packet]
            ∧ packet.drop 28 = [1, 2, 3, 4, 5]
            ∧ packet.length = 33
            ∧ tiny_mtu_dev.m_mtu < packet.length := by
  refine ⟨rfl, by decide,
    compose_udp_packet example_externals ⟨0x0A000002, 4000⟩ ⟨0x08080808, 53⟩ [1, 2, 3, 4, 5] 5,
    _,
    handle_write_upd_data_single example_externals 0 ⟨0x0A000002, 4000⟩ ⟨0x08080808, 53⟩
      [1, 2, 3, 4, 5] tiny_mtu_dev (by decide) (by decide), ?_, ?_, ?_, ?_⟩
  · rw [write_to_tun_committed]
    rfl
  · rfl
  · rfl
  · decide

/-! ## TCP accept -/

/-- A notification without error, when `proxy_by_route` returns: `listener_accept_func`
makes one client and returns by the state of its session; on the direct path the session is
started and the client is appended to the registry exactly when the session is not
destroyed. -/
theorem listener_accept_func_of_decision (X : Externals) (newpcb : tcp_pcb) (dev : TUNDev)
    (proxy : Bool) (hp : proxy_by_route dev newpcb.local_ip = .ret proxy) :
    ∃ code dev' tcp_client,
      listener_accept_func X newpcb .ERR_OK dev = .ret (code, dev')
        ∧ dev'.made_tcp_clients = dev.made_tcp_clients ++ [tcp_client]
        ∧ tcp_client.m_pcb = newpcb
        ∧ tcp_client.proxy = proxy
        ∧ (code = .ERR_ABRT ↔ tcp_client.destroyed = true)
        ∧ (code = .ERR_OK ↔ tcp_client.destroyed = false)
        ∧ (proxy = false →
            tcp_client.started = true
              ∧ (tcp_client.destroyed = false →
                  dev'.m_tcp_clients = dev.m_tcp_clients ++ [tcp_client])
              ∧ (tcp_client.destroyed = true → dev'.m_tcp_clients = dev.m_tcp_clients)) := by
  have hunf : listener_accept_func X newpcb .ERR_OK dev
      = (proxy_by_route dev newpcb.local_ip).bind fun proxy =>
          let tcp_client : lwip_tcp_client :=
            { m_pcb := newpcb, proxy := proxy, started := false, destroyed := false,
              closed := false }
          let made : lwip_tcp_client × TUNDev :=
            if !proxy then
              let tcp_client :=
                { tcp_client with
                  started := true, destroyed := X.tcp_destroyed_in_start tcp_client }
              if !tcp_client.destroyed then
                (tcp_client, { dev with m_tcp_clients := dev.m_tcp_clients ++ [tcp_client] })
              else (tcp_client, dev)
            else
              match X.start_session tcp_client with
              | some ec => start_session_handler X ec tcp_client dev
              | none => (tcp_client, dev)
          .ret (if made.1.destroyed then .ERR_ABRT else .ERR_OK,
            { made.2 with made_tcp_clients := made.2.made_tcp_clients ++ [made.1] }) := by
    unfold listener_accept_func
    rw [if_neg (by simp)]
  rw [hunf, hp]
  simp only [Outcome.bind]
  cases proxy with
  | false =>
    cases hd : X.tcp_destroyed_in_start
        { m_pcb := newpcb, proxy := false, started := false, destroyed := false,
          closed := false } with
    | false =>
      refine ⟨.ERR_OK,
        { dev with
          m_tcp_clients := dev.m_tcp_clients
            ++ [{ m_pcb := newpcb, proxy := false, started := true, destroyed := false,
                  closed := false }]
          made_tcp_clients := dev.made_tcp_clients
            ++ [{ m_pcb := newpcb, proxy := false, started := true, destroyed := false,
                  closed := false }] },
        { m_pcb := newpcb, proxy := false, started := true, destroyed := false,
          closed := false }, ?_, rfl, rfl, rfl, by simp, by simp, by simp⟩
      simp [hd]
    | true =>
      refine ⟨.ERR_ABRT,
        { dev with
          made_tcp_clients := dev.made_tcp_clients
            ++ [{ m_pcb := newpcb, proxy := false, started := true, destroyed := true,
                  closed := false }] },
        { m_pcb := newpcb, proxy := false, started := true, destroyed := true,
          closed := false }, ?_, rfl, rfl, rfl, by simp, by simp, by simp⟩
      simp [hd]
  | true =>
    cases hs : X.start_session
        { m_pcb := newpcb, proxy := true, started := false, destroyed := false,
          closed := false } with
    | none =>
      refine ⟨.ERR_OK,
        { dev with
          made_tcp_clients := dev.made_tcp_clients
            ++ [{ m_pcb := newpcb, proxy := true, started := false, destroyed := false,
                  closed := false }] },
        { m_pcb := newpcb, proxy := true, started := false, destroyed := false,
          closed := false }, ?_, rfl, rfl, rfl, by simp, by simp, by simp⟩
      simp [hs]
    | some ec =>
      cases ec with
      | true =>
        refine ⟨.ERR_ABRT,
          { dev with
            made_tcp_clients := dev.made_tcp_clients
              ++ [{ m_pcb := newpcb, proxy := true, started := false, destroyed := true,
                    closed := true }] },
          { m_pcb := newpcb, proxy := true, started := false, destroyed := true,
            closed := true }, ?_, rfl, rfl, rfl, by simp, by simp, by simp⟩
        simp [hs, start_session_handler]
      | false =>
        cases hd : X.tcp_destroyed_in_start
            { m_pcb := newpcb, proxy := true, started := false, destroyed := false,
              closed := false } with
        | false =>
          refine ⟨.ERR_OK,
            { dev with
              m_tcp_clients := dev.m_tcp_clients
                ++ [{ m_pcb := newpcb, proxy := true, started := true, destroyed := false,
                      closed := false }]
              made_tcp_clients := dev.made_tcp_clients
                ++ [{ m_pcb := newpcb, proxy := true, started := true, destroyed := false,
                      closed := false }] },
            { m_pcb := newpcb, proxy := true, started := true, destroyed := false,
              closed := false }, ?_, rfl, rfl, rfl, by simp, by simp, by simp⟩
          simp [hs, hd, start_session_handler]
        | true =>
          refine ⟨.ERR_ABRT,
            { dev with
              made_tcp_clients := dev.made_tcp_clients
                ++ [{ m_pcb := newpcb, proxy := true, started := true, destroyed := true,
                      closed := false }] },
            { m_pcb := newpcb, proxy := true, started := true, destroyed := true,
              closed := false }, ?_, rfl, rfl, rfl, by simp, by simp, by simp⟩
          simp [hs, hd, start_session_handler]

/-- Counterexample to C20 as stated: a notification without error for a connection to the
address 7, which neither list matches, under an unrecognised routing mode:
`listener_accept_func` returns neither abort nor accepted, the error of `proxy_by_route`
escapes from it. -/
theorem C20_counterexample :
    unrecognised_mode_dev.route.proxy_type.recognised = false
      ∧ ∃ what, listener_accept_func example_externals ⟨12, 7⟩ .ERR_OK unrecognised_mode_dev
          = .thrown what :=
  ⟨rfl, _, rfl⟩

/-- C20, amended: when the notification carries an error, `listener_accept_func` returns
that error code and leaves the device as it was, no client or session made and the registry
unchanged. Otherwise it makes one client with its session and returns `ERR_ABRT` exactly
when the session is destroyed at that time and `ERR_OK` exactly when it is not; on the
direct path the session is started and the client is appended to the registry exactly when
the session is not destroyed after its start; the one exception is the error of
`proxy_by_route` for an unrecognised routing mode, which escapes from the method before any
client is made. -/
theorem C20_tcp_accept_status (X : Externals) (newpcb : tcp_pcb) (dev : TUNDev) (err : err_t)
    (herr : err ≠ .ERR_OK) :
    listener_accept_func X newpcb err dev = .ret (err, dev)
      ∧ ((∃ code dev' tcp_client,
            listener_accept_func X newpcb .ERR_OK dev = .ret (code, dev')
              ∧ dev'.made_tcp_clients = dev.made_tcp_clients ++ [tcp_client]
              ∧ tcp_client.m_pcb = newpcb
              ∧ proxy_by_route dev newpcb.local_ip = .ret tcp_client.proxy
              ∧ (code = .ERR_ABRT ↔ tcp_client.destroyed = true)
              ∧ (code = .ERR_OK ↔ tcp_client.destroyed = false)
              ∧ (tcp_client.proxy = false →
                  tcp_client.started = true
                    ∧ (tcp_client.destroyed = false →
                        dev'.m_tcp_clients = dev.m_tcp_clients ++ [tcp_client])
                    ∧ (tcp_client.destroyed = true →
                        dev'.m_tcp_clients = dev.m_tcp_clients)))
        ∨ (∃ what, listener_accept_func X newpcb .ERR_OK dev = .thrown what
            ∧ proxy_by_route dev newpcb.local_ip = .thrown what
            ∧ dev.route.proxy_type.recognised = false)) := by
  constructor
  · unfold listener_accept_func
    rw [if_pos herr]
  · rcases proxy_by_route_outcome dev newpcb.local_ip with ⟨proxy, hp⟩ | ⟨what, hw, hrec⟩
    · left
      obtain ⟨code, dev', c, h1, h2, h3, h4, h5, h6, h7⟩ :=
        listener_accept_func_of_decision X newpcb dev proxy hp
      refine ⟨code, dev', c, h1, h2, h3, ?_, h5, h6, ?_⟩
      · rw [h4]
        exact hp
      · intro hc
        exact h7 (by rw [← h4]; exact hc)
    · right
      refine ⟨what, ?_, hw, hrec⟩
      unfold listener_accept_func
      rw [if_neg (by simp), hw]
      rfl

/-- Witness of C20: the error code -1 of the stack, and a connection to the bypassed
address 3 on the example device. -/
theorem C20_tcp_accept_status_witness :
    err_t.other (-1) ≠ .ERR_OK
      ∧ listener_accept_func example_externals ⟨12, 3⟩ (.other (-1)) example_dev
          = .ret (.other (-1), example_dev)
      ∧ ((∃ code dev' tcp_client,
            listener_accept_func example_externals ⟨12, 3⟩ .ERR_OK example_dev
                = .ret (code, dev')
              ∧ dev'.made_tcp_clients = example_dev.made_tcp_clients ++ [tcp_client]
              ∧ tcp_client.m_pcb = ⟨12, 3⟩
              ∧ proxy_by_route example_dev (⟨12, 3⟩ : tcp_pcb).local_ip = .ret tcp_client.proxy
              ∧ (code = .ERR_ABRT ↔ tcp_client.destroyed = true)
              ∧ (code = .ERR_OK ↔ tcp_client.destroyed = false)
              ∧ (tcp_client.proxy = false →
                  tcp_client.started = true
                    ∧ (tcp_client.destroyed = false →
                        dev'.m_tcp_clients = example_dev.m_tcp_clients ++ [tcp_client])
                    ∧ (tcp_client.destroyed = true →
                        dev'.m_tcp_clients = example_dev.m_tcp_clients)))
        ∨ (∃ what, listener_accept_func example_externals ⟨12, 3⟩ .ERR_OK example_dev
              = .thrown what
            ∧ proxy_by_route example_dev (⟨12, 3⟩ : tcp_pcb).local_ip = .thrown what
            ∧ example_dev.route.proxy_type.recognised = false)) :=
  ⟨by decide, C20_tcp_accept_status example_externals ⟨12, 3⟩ example_dev (.other (-1))
    (by decide)⟩

/-- The accept on the example device, evaluated: a bypassed connection whose session
survives its start is accepted and registered; one whose session is destroyed in its start
is aborted and not registered. -/
theorem listener_accept_func_examples :
    listener_accept_func example_externals ⟨12, 3⟩ .ERR_OK example_dev
        = .ret (.ERR_OK,
            { example_dev with
              m_tcp_clients := [⟨⟨12, 3⟩, false, true, false, false⟩]
              made_tcp_clients := [⟨⟨12, 3⟩, false, true, false, false⟩] })
      ∧ listener_accept_func example_externals ⟨13, 3⟩ .ERR_OK example_dev
        = .ret (.ERR_ABRT,
            { example_dev with
              made_tcp_clients := [⟨⟨13, 3⟩, false, true, true, false⟩] }) := by
  constructor
  · simp [listener_accept_func, example_externals, Externals.modelled, Outcome.bind]
    rfl
  · simp [listener_accept_func, example_externals, Externals.modelled, Outcome.bind]
    rfl

/-! ## The lengths a synthesized packet declares -/

/-- A composed packet that carries `n` bytes of a payload of at least `n` bytes, `n` at
most 65507: it is `28 + n` bytes long, its IPv4 header declares that total length, and its
UDP header declares the length `8 + n`. -/
theorem compose_udp_packet_lengths (X : Externals) (l r : Endpoint) (data : List Byte) (n : Nat)
    (hn : n ≤ data.length) (hmax : n ≤ 65507) :
    (compose_udp_packet X l r data n).length = 28 + n
      ∧ (read_ipv4_header (compose_udp_packet X l r data n)).total_length = 28 + n
      ∧ (read_udp_header ((compose_udp_packet X l r data n).drop 20)).length = 8 + n := by
  have htake : (data.take n).length = n := by
    rw [List.length_take]
    omega
  refine ⟨?_, ?_, ?_⟩
  · unfold compose_udp_packet
    simp only [List.length_append, ipv4_header_bytes_length, udp_header_bytes_length, htake]
  · unfold compose_udp_packet
    simp only [List.append_assoc]
    rw [read_ipv4_header_bytes]
    simp only [u16, sizeof_ipv4_header, sizeof_udp_header]
    omega
  · unfold compose_udp_packet
    simp only [List.append_assoc]
    rw [List.drop_left' (ipv4_header_bytes_length _), read_udp_header_bytes]
    simp only [u16, sizeof_udp_header]
    omega

/-- A property of the packets composed from the non-empty rests of the payload holds of
every packet `handle_write_upd_data` commits, for an MTU of at least 29. -/
theorem handle_write_upd_data_all (X : Externals) (l r : Endpoint) (cap : Nat)
    (Q : List Byte → Prop)
    (hQ : ∀ data : List Byte, data ≠ [] →
      Q (compose_udp_packet X l r data (min data.length cap)))
    (payload : List Byte) :
    ∀ (fuel : Nat) (dev : TUNDev), 29 ≤ dev.m_mtu → cap = min 65535 dev.m_mtu - 28 →
      payload.length < fuel →
      ∃ dev' packets,
        handle_write_upd_data X fuel l r payload dev = .ret (0, dev')
          ∧ dev'.committed = dev.committed ++ packets
          ∧ ∀ p ∈ packets, Q p := by
  generalize hn : payload.length = n
  induction n using Nat.strong_induction_on generalizing payload with
  | _ n ih =>
    intro fuel dev hmtu hcapdef hfuel
    obtain ⟨fuel, rfl⟩ : ∃ f, fuel = f + 1 := ⟨fuel - 1, by omega⟩
    have hcap : 0 < cap := by omega
    by_cases hne : payload = []
    · subst hne
      exact ⟨dev, [], by simp [handle_write_upd_data], by simp, by simp⟩
    · rw [handle_write_upd_data_round X fuel l r payload dev hne hmtu, ← hcapdef]
      have hpos : 0 < payload.length := List.length_pos.mpr hne
      simp only
      set k := min payload.length cap with hk
      set packet := compose_udp_packet X l r payload k with hpacket
      set dev1 := write_to_tun
        { dev with
          m_write_fill_buf := dev.m_write_fill_buf ++ packet
          committed := dev.committed ++ [packet] } with hdev1
      have hmtu1 : dev1.m_mtu = dev.m_mtu := by rw [hdev1, write_to_tun_m_mtu]
      have hcom1 : dev1.committed = dev.committed ++ [packet] := by
        rw [hdev1, write_to_tun_committed]
      have hq : Q packet := hQ payload hne
      by_cases hrest : (payload.drop k).length > 0
      · rw [if_pos hrest]
        have hlen_rest : (payload.drop k).length < n := by
          rw [List.length_drop]
          omega
        obtain ⟨dev', packets, hrun, hc, hall⟩ :=
          ih (payload.drop k).length hlen_rest (payload.drop k) rfl fuel dev1
            (by omega) (by rw [hmtu1]; exact hcapdef) (by omega)
        refine ⟨dev', packet :: packets, by rw [hrun]; rfl, by rw [hc, hcom1]; simp, ?_⟩
        intro p hp
        rcases List.mem_cons.mp hp with h | h
        · rw [h]
          exact hq
        · exact hall p h
      · rw [if_neg hrest]
        refine ⟨dev1, [packet], rfl, hcom1, ?_⟩
        intro p hp
        rw [List.mem_singleton.mp hp]
        exact hq

/-- For an MTU of at least 29 every packet `handle_write_upd_data` commits carries at most
`min(65535, MTU) - 28` payload bytes, is at most MTU bytes long, and declares its own
length in the IPv4 header and that length minus 20 in the UDP header. -/
theorem handle_write_upd_data_declared_lengths (X : Externals) (l r : Endpoint)
    (payload : List Byte) (fuel : Nat) (dev : TUNDev) (hmtu : 29 ≤ dev.m_mtu)
    (hfuel : payload.length < fuel) :
    ∃ dev' packets,
      handle_write_upd_data X fuel l r payload dev = .ret (0, dev')
        ∧ dev'.committed = dev.committed ++ packets
        ∧ ∀ p ∈ packets,
            (p.drop 28).length ≤ min 65535 dev.m_mtu - 28
              ∧ p.length ≤ dev.m_mtu
              ∧ (read_ipv4_header p).total_length = p.length
              ∧ (read_udp_header (p.drop 20)).length = p.length - 20 := by
  refine handle_write_upd_data_all X l r (min 65535 dev.m_mtu - 28)
    (fun p => (p.drop 28).length ≤ min 65535 dev.m_mtu - 28
      ∧ p.length ≤ dev.m_mtu
      ∧ (read_ipv4_header p).total_length = p.length
      ∧ (read_udp_header (p.drop 20)).length = p.length - 20)
    ?_ payload fuel dev hmtu rfl hfuel
  intro data _
  have hk1 : min data.length (min 65535 dev.m_mtu - 28) ≤ data.length := Nat.min_le_left _ _
  have hk2 : min data.length (min 65535 dev.m_mtu - 28) ≤ min 65535 dev.m_mtu - 28 :=
    Nat.min_le_right _ _
  obtain ⟨h1, h2, h3⟩ := compose_udp_packet_lengths X l r data
    (min data.length (min 65535 dev.m_mtu - 28)) hk1 (by omega)
  refine ⟨?_, ?_, ?_, ?_⟩
  · rw [List.length_drop, h1]
    omega
  · rw [h1]
    omega
  · rw [h2, h1]
  · rw [h3, h1]
    omega

/-! ## Termination of the reassembler -/

/-- A call of `try_to_process_udp_packet` returns or lets an error escape. -/
theorem try_to_process_udp_packet_ne_out_of_fuel (X : Externals) (data : List Byte)
    (dev : TUNDev) : try_to_process_udp_packet X data dev ≠ .out_of_fuel := by
  by_cases hg : version_nibble data = IPV4 ∧ sizeof_ipv4_header ≤ data.length
      ∧ protocol_byte data = IPV4_PROTOCOL_UDP
  · obtain ⟨hv, hl, hp⟩ := hg
    rcases try_to_process_udp_packet_udp_outcome X data dev hv hl hp with
      ⟨d, hd⟩ | ⟨what, hw, _⟩
    · rw [hd]
      simp
    · rw [hw]
      simp
  · rw [try_to_process_udp_packet_of_not_udp X data dev hg]
    simp

/-- A complete packet of total length 0 at the head of the accumulator is dispatched as an
empty packet and stays where it is: the recursion of `parse_packet` never ends. -/
theorem parse_packet_empty_packet_head (X : Externals) (data : List Byte)
    (hh : head_of data = .packet 0) :
    ∀ (fuel : Nat) (dev : TUNDev), dev.m_packet_parse_buff = data →
      parse_packet X fuel dev = .out_of_fuel := by
  have hne : data.length ≠ 0 := by
    intro h0
    have : data = [] := List.length_eq_zero.mp h0
    rw [this] at hh
    simp [head_of] at hh
  intro fuel
  induction fuel with
  | zero =>
    intro dev _
    rfl
  | succ fuel ih =>
    intro dev hbuf
    rw [parse_packet_eq_round, parse_packet_round_eq_head, hbuf, hh]
    simp only [List.take_zero]
    have hnot : ¬ (version_nibble ([] : List Byte) = IPV4
        ∧ sizeof_ipv4_header ≤ ([] : List Byte).length
        ∧ protocol_byte ([] : List Byte) = IPV4_PROTOCOL_UDP) := by decide
    rw [try_to_process_udp_packet_of_not_udp X [] _ hnot]
    simp only [if_true, hne, if_false, List.drop_zero]
    apply ih
    rfl

/-- The recursion of `parse_packet` ends, with a return or an escaping error, within a
bound above the size of the accumulator, unless the run arrives at a complete packet of
total length 0. -/
theorem parse_packet_terminates (X : Externals) :
    ∀ (fuel : Nat) (dev : TUNDev), dev.m_packet_parse_buff.length < fuel →
      meets_empty_packet fuel dev.m_packet_parse_buff = false →
      parse_packet X fuel dev ≠ .out_of_fuel := by
  intro fuel
  induction fuel with
  | zero =>
    intro dev h _
    omega
  | succ fuel ih =>
    intro dev hlen hmeet
    rw [parse_packet_eq_round, parse_packet_round_eq_head]
    unfold meets_empty_packet at hmeet
    cases hh : head_of dev.m_packet_parse_buff with
    | empty => simp
    | unknown_version => simp
    | incomplete => simp
    | packet tl =>
      rw [hh] at hmeet
      simp only at hmeet
      have htl0 : tl ≠ 0 := by
        intro h0
        simp [h0] at hmeet
      have htl : tl ≤ dev.m_packet_parse_buff.length :=
        ((head_of_append dev.m_packet_parse_buff []).2.2 tl hh).2
      simp only
      cases ht : try_to_process_udp_packet X (dev.m_packet_parse_buff.take tl)
          { dev with dispatched := dev.dispatched ++ [dev.m_packet_parse_buff.take tl] } with
      | ret res =>
        obtain ⟨r, d1⟩ := res
        simp only
        by_cases hfull : dev.m_packet_parse_buff.length = tl
        · simp [hfull]
        · simp only [hfull, if_false]
          have hf := (try_to_process_udp_packet_frame X _ _ r d1 ht).1
          have hbuf : (if r = 0 then
              input_netif_packet (dev.m_packet_parse_buff.take tl) d1
              else d1).m_packet_parse_buff = dev.m_packet_parse_buff := by
            by_cases hr : r = 0
            · simp only [hr, if_true, input_netif_packet]
              rw [hf]
            · simp only [hr, if_false]
              rw [hf]
          simp only [htl0, hfull, if_false] at hmeet
          apply ih
          · show (List.drop tl _).length < fuel
            rw [hbuf, List.length_drop]
            omega
          · show meets_empty_packet fuel (List.drop tl _) = false
            rw [hbuf]
            exact hmeet
      | thrown what => simp
      | out_of_fuel => exact absurd ht (try_to_process_udp_packet_ne_out_of_fuel X _ _)

/-- C21 at an IPv4 header that declares a total length of 0, and at an IPv6 header whose
payload length plus 40 is 0 modulo 65536: each is a complete packet of no bytes at the head
of the accumulator; one round of `parse_packet` passes the empty packet to the dispatcher
and the stack and recurses on the unchanged accumulator, and the run exhausts every bound
on the recursion, whatever follows the header. -/
theorem C21_parse_packet_recurses_without_end :
    head_of zero_length_ipv4_header = .packet 0
      ∧ head_of ipv6_wrap_to_zero_header = .packet 0
      ∧ parse_packet_round example_externals
          { example_dev with m_packet_parse_buff := zero_length_ipv4_header }
        = .inr { example_dev with
                 m_packet_parse_buff := zero_length_ipv4_header
                 dispatched := [[]]
                 netif_input := [[]] }
      ∧ (∀ (X : Externals) (fuel : Nat) (dev : TUNDev) (rest : List Byte),
          parse_packet X fuel
              { dev with m_packet_parse_buff := zero_length_ipv4_header ++ rest }
            = .out_of_fuel)
      ∧ (∀ (X : Externals) (fuel : Nat) (dev : TUNDev) (rest : List Byte),
          parse_packet X fuel
              { dev with m_packet_parse_buff := ipv6_wrap_to_zero_header ++ rest }
            = .out_of_fuel) := by
  have h4 : head_of zero_length_ipv4_header = .packet 0 := by decide
  have h6 : head_of ipv6_wrap_to_zero_header = .packet 0 := by decide
  refine ⟨h4, h6, rfl, ?_, ?_⟩
  · intro X fuel dev rest
    exact parse_packet_empty_packet_head X _
      ((head_of_append zero_length_ipv4_header rest).2.2 0 h4).1 fuel _ rfl
  · intro X fuel dev rest
    exact parse_packet_empty_packet_head X _
      ((head_of_append ipv6_wrap_to_zero_header rest).2.2 0 h6).1 fuel _ rfl

/-! ## Termination of the synthesis -/

/-- One round of `handle_write_upd_data` on a non-empty payload, for every MTU: a packet
with the first `min(len, limit)` bytes is committed and flushed, `limit` being the 16-bit
value the method computes, and the method recurses on what is left, if anything. -/
theorem handle_write_upd_data_round_limit (X : Externals) (fuel : Nat) (l r : Endpoint)
    (payload : List Byte) (dev : TUNDev) (hne : payload ≠ []) :
    handle_write_upd_data X (fuel + 1) l r payload dev =
      let n := min payload.length
        (u16 (min 65535 dev.m_mtu + 65536 - u16 (sizeof_ipv4_header + sizeof_udp_header)))
      let packet := compose_udp_packet X l r payload n
      let dev1 := write_to_tun
        { dev with
          m_write_fill_buf := dev.m_write_fill_buf ++ packet
          committed := dev.committed ++ [packet] }
      if (payload.drop n).length > 0 then
        (handle_write_upd_data X fuel l r (payload.drop n) dev1).bind fun res => .ret (0, res.2)
      else .ret (0, dev1) := by
  have hlen : payload.length ≠ 0 := fun h => hne (List.length_eq_zero.mp h)
  have hn : ∀ c : Nat, (if payload.length > c then c else payload.length)
      = min payload.length c := by
    intro c
    split <;> omega
  conv_lhs => unfold handle_write_upd_data
  simp only [hlen, if_false, hn]

/-- The limit the method computes is 0 exactly when the MTU is 28. -/
theorem clip_limit_eq_zero (mtu : Nat) :
    u16 (min 65535 mtu + 65536 - u16 (sizeof_ipv4_header + sizeof_udp_header)) = 0
      ↔ mtu = 28 := by
  simp only [u16, sizeof_ipv4_header, sizeof_udp_header]
  omega

/-- With an MTU of 28 the recursion of `handle_write_upd_data` on a non-empty payload never
ends: every round commits a packet without payload and recurses on the whole payload. -/
theorem handle_write_upd_data_mtu_28 (X : Externals) (l r : Endpoint) (payload : List Byte)
    (hne : payload ≠ []) :
    ∀ (fuel : Nat) (dev : TUNDev), dev.m_mtu = 28 →
      handle_write_upd_data X fuel l r payload dev = .out_of_fuel := by
  have hpos : 0 < payload.length := List.length_pos.mpr hne
  intro fuel
  induction fuel with
  | zero =>
    intro dev _
    rfl
  | succ fuel ih =>
    intro dev hmtu
    rw [handle_write_upd_data_round_limit X fuel l r payload dev hne,
      (clip_limit_eq_zero dev.m_mtu).mpr hmtu]
    simp only [Nat.min_zero, List.drop_zero, gt_iff_lt, hpos, if_true]
    rw [ih _ (by rw [write_to_tun_m_mtu]; exact hmtu)]
    rfl

/-- With an MTU other than 28 `handle_write_upd_data` returns once the bound on the
recursion exceeds the length of the payload. -/
theorem handle_write_upd_data_terminates (X : Externals) (l r : Endpoint)
    (payload : List Byte) :
    ∀ (fuel : Nat) (dev : TUNDev), dev.m_mtu ≠ 28 → payload.length < fuel →
      ∃ dev', handle_write_upd_data X fuel l r payload dev = .ret (0, dev') := by
  generalize hn : payload.length = n
  induction n using Nat.strong_induction_on generalizing payload with
  | _ n ih =>
    intro fuel dev hmtu hfuel
    obtain ⟨fuel, rfl⟩ : ∃ f, fuel = f + 1 := ⟨fuel - 1, by omega⟩
    by_cases hne : payload = []
    · subst hne
      exact ⟨dev, by simp [handle_write_upd_data]⟩
    · have hpos : 0 < payload.length := List.length_pos.mpr hne
      have hcap : 0 < u16 (min 65535 dev.m_mtu + 65536
          - u16 (sizeof_ipv4_header + sizeof_udp_header)) := by
        have := (clip_limit_eq_zero dev.m_mtu).not.mpr hmtu
        omega
      rw [handle_write_upd_data_round_limit X fuel l r payload dev hne]
      simp only
      set k := min payload.length (u16 (min 65535 dev.m_mtu + 65536
          - u16 (sizeof_ipv4_header + sizeof_udp_header))) with hk
      set dev1 := write_to_tun
        { dev with
          m_write_fill_buf := dev.m_write_fill_buf ++ compose_udp_packet X l r payload k
          committed := dev.committed ++ [compose_udp_packet X l r payload k] } with hdev1
      have hmtu1 : dev1.m_mtu = dev.m_mtu := by rw [hdev1, write_to_tun_m_mtu]
      by_cases hrest : (payload.drop k).length > 0
      · rw [if_pos hrest]
        have hlt : (payload.drop k).length < n := by
          rw [List.length_drop]
          omega
        obtain ⟨dev', hrun⟩ := ih (payload.drop k).length hlt (payload.drop k) rfl fuel dev1
          (by rw [hmtu1]; exact hmtu) (by omega)
        exact ⟨dev', by rw [hrun]; rfl⟩
      · rw [if_neg hrest]
        exact ⟨dev1, rfl⟩

/-- C22 at an MTU of 28: the limit the method computes is 0, the packet of each round is the
28 bytes of headers without a payload byte, and `handle_write_upd_data` on a payload of five
bytes exhausts every bound on the recursion, whatever the endpoints. -/
theorem C22_handle_write_upd_data_recurses_without_end :
    mtu_28_dev.m_mtu = 28
      ∧ u16 (min 65535 mtu_28_dev.m_mtu + 65536 - u16 (sizeof_ipv4_header + sizeof_udp_header))
          = 0
      ∧ (compose_udp_packet example_externals ⟨0x0A000002, 4000⟩ ⟨0x08080808, 53⟩
          [1, 2, 3, 4, 5] 0).length = 28
      ∧ ∀ (X : Externals) (fuel : Nat) (local_endpoint remote_endpoint : Endpoint),
          handle_write_upd_data X fuel local_endpoint remote_endpoint [1, 2, 3, 4, 5]
            mtu_28_dev = .out_of_fuel :=
  ⟨rfl, by decide, rfl, fun X fuel l r =>
    handle_write_upd_data_mtu_28 X l r [1, 2, 3, 4, 5] (by decide) fuel mtu_28_dev rfl⟩

end TrojanPlus
